import Mathlib

/-!
Approval workflow of `server.js`.

A shallow embedding of the request/approval part of the server:

* the threshold policy (`roleForAmount` of `client/src/pages/Agent.jsx`, and
  `requiredRoleForAmount`, which `server.js` imports from `approvalLogic.js`);
* the handler of `POST /requests` (`createRequest`);
* the handler of `POST /approvals/:id/act` (`act`).

The relational store is a record of tables, each table a list of rows in
insertion order.  A finite JavaScript number is the rational it denotes: `NaN`
and the infinities are not represented.  An `Option` field is `none` where the
JavaScript value is `undefined` or `null`.

`POST /requests` is embedded twice.  `createRequestWith` takes numbers in the
fields of the body and computes with them exactly.  `createRequestJsWith`
takes the fields as parsed, numbers or strings, and rounds the result of each
`+` and `*` to double precision (`fl`); it is `createRequestWith` where the
fields are numbers and nothing rounds (`createRequestJsWith_toJs`).  What is
said about sums, products and quantities of line items is said of the second.

`POST /approvals/:id/act` is embedded as the function `act`, one call at a
time, and query by query (`ActCall.step`, `runSchedule`) for calls that
overlap; a call that runs alone does what `act` does (`runSchedule_serial`).
-/

namespace Approvals

/-! ## Data model -/

/-- The role strings that occur in `server.js`. -/
inductive Role where
  | agent
  | team_lead
  | division_manager
  | sales_director
  | admin
  deriving DecidableEq, Repr

/-- The values of the `status` column of `requests`. -/
inductive Status where
  | pending
  | approved
  | rejected
  deriving DecidableEq, Repr

/-- The payload of a verified token, `req.user` (see `signJWT` in `auth.js`). -/
structure AuthUser where
  id : Int
  role : Role
  division_id : Option Int
  deriving DecidableEq, Repr

/-- A row of the `users` table (the columns the handlers read). -/
structure UserRow where
  id : Int
  role : Role
  division_id : Option Int
  email : Option String
  deriving DecidableEq, Repr

/-- A row of the `articles` table (the columns the handlers read). -/
structure ArticleRow where
  id : Int
  sell_price : Option ℚ
  deriving DecidableEq, Repr

/-- A row of the `requests` table. -/
structure Request where
  id : Int
  agent_id : Int
  division_id : Option Int
  buyer_id : ℚ
  site_id : Option ℚ
  article_id : Option Int
  quantity : Option ℚ
  amount : ℚ
  invoice_ref : Option String
  reason : Option String
  required_role : Role
  status : Status
  deriving DecidableEq, Repr

/-- A row of the `request_items` table. -/
structure RequestItem where
  request_id : Int
  article_id : Int
  quantity : ℚ
  line_amount : ℚ
  deriving DecidableEq, Repr

/-- A row of the `approvals` table, the log of approval actions. -/
structure Approval where
  request_id : Int
  approver_id : Int
  approver_role : Role
  action : String
  comment : Option String
  deriving DecidableEq, Repr

/-- A row of the `buyer_sites` table (the columns that relate a site to its
buyer). -/
structure SiteRow where
  id : Int
  buyer_id : Int
  deriving DecidableEq, Repr

/-- The store: the tables the two handlers read and write, the next value of
the id sequence of `requests`, and the `buyer_sites` table, which neither
handler reads. -/
structure Store where
  users : List UserRow
  articles : List ArticleRow
  requests : List Request
  request_items : List RequestItem
  approvals : List Approval
  requests_id_seq : Int
  buyer_sites : List SiteRow := []
  deriving DecidableEq, Repr

/-- What a handler answers. `thrown` is an exception that leaves the handler. -/
inductive Response where
  | ok
  | created (id : Int)
  | error (status : Nat) (msg : String)
  | thrown
  deriving DecidableEq, Repr

/-- The HTTP status of an answer, when there is one. -/
def Response.status : Response → Option Nat
  | .ok => some 200
  | .created _ => some 200
  | .error st _ => some st
  | .thrown => none

/-- An answer with status 403. -/
def Response.Forbidden (r : Response) : Prop := r.status = some 403

instance (r : Response) : Decidable r.Forbidden := by
  unfold Response.Forbidden; infer_instance

/-! ## Threshold policy -/

/-- `roleForAmount` of `client/src/pages/Agent.jsx`. -/
def roleForAmount (total : ℚ) : Role :=
  if total ≤ 99 then Role.team_lead
  else if total ≤ 199 then Role.division_manager
  else Role.sales_director

/-- Modelled from the spec: `requiredRoleForAmount` of `approvalLogic.js`, a
module `server.js` imports and that is not among the sources. Section 4.1:
amount ≤ 99.00 gives team_lead, 99.00 < amount ≤ 199.00 gives
division_manager, amount > 199.00 gives sales_director. -/
def requiredRoleForAmount (amount : ℚ) : Role :=
  if amount ≤ 99 then Role.team_lead
  else if 99 < amount ∧ amount ≤ 199 then Role.division_manager
  else Role.sales_director

/-- Position of a role in the escalation order team_lead, division_manager,
sales_director; the roles that approve nothing have no position. -/
def escalationRank : Role → Option Nat
  | .team_lead => some 0
  | .division_manager => some 1
  | .sales_director => some 2
  | _ => none

/-- The first role is not later than the second in the escalation order. -/
def Role.notLaterThan (a b : Role) : Bool :=
  match escalationRank a, escalationRank b with
  | some i, some j => decide (i ≤ j)
  | _, _ => false

/-- The immediate successor of a role in the escalation order. -/
def Role.successor : Role → Option Role
  | .team_lead => some Role.division_manager
  | .division_manager => some Role.sales_director
  | _ => none

/-- The roles `POST /approvals/:id/act` lets through. -/
def Role.isApprover (r : Role) : Bool :=
  (escalationRank r).isSome

/-! ## `POST /approvals/:id/act` -/

/-- `requireRole(...roles)` of `auth.js`: does the middleware let the user pass. -/
def requireRole (roles : List Role) (user : AuthUser) : Bool :=
  roles.contains user.role

/-- The body of `POST /approvals/:id/act`. An absent `action` behaves like any
string other than the two the handler accepts. -/
structure ActBody where
  action : String
  comment : Option String
  deriving DecidableEq, Repr

/-- `SELECT * FROM requests WHERE id=$1`, first row. -/
def getRequest (s : Store) (id : Int) : Option Request :=
  s.requests.find? (fun r => r.id = id)

/-- `UPDATE requests SET status=... WHERE id=$1`. -/
def setStatus (s : Store) (id : Int) (st : Status) : Store :=
  { s with requests := s.requests.map (fun r => if r.id = id then { r with status := st } else r) }

/-- `UPDATE requests SET required_role=... WHERE id=$1`. -/
def setRequiredRole (s : Store) (id : Int) (role : Role) : Store :=
  { s with requests :=
      s.requests.map (fun r => if r.id = id then { r with required_role := role } else r) }

/-- `comment || null`: an empty comment is stored as null. -/
def commentOrNull : Option String → Option String
  | some c => if c = "" then none else some c
  | none => none

/-- `INSERT INTO approvals(request_id,approver_id,approver_role,action,comment)`. -/
def insertApproval (s : Store) (a : Approval) : Store :=
  { s with approvals := s.approvals ++ [a] }

/-- The handler of `POST /approvals/:id/act`, behind `requireRole("team_lead",
"division_manager", "sales_director")`: the answer and the store it leaves.
`idParam` is `Number(req.params.id)`, `none` for `NaN`.  The notification
block that follows the updates writes nothing to the store and cannot change
the answer (it sits in a `try`/`catch`). -/
def act (s : Store) (user : AuthUser) (idParam : Option Int) (body : ActBody) :
    Response × Store :=
  if !requireRole [Role.team_lead, Role.division_manager, Role.sales_director] user then
    (Response.error 403 "Forbidden", s)
  else
    match idParam with
    | none => (Response.error 400 "Bad request", s)
    | some id =>
      if id = 0 ∨ ¬ (body.action = "approved" ∨ body.action = "rejected") then
        (Response.error 400 "Bad request", s)
      else
        match getRequest s id with
        | none => (Response.error 404 "Not found", s)
        | some reqRow =>
          if reqRow.required_role ≠ user.role ∨ reqRow.status ≠ Status.pending then
            (Response.error 403 "Not your turn", s)
          else
            let s1 := insertApproval s
              { request_id := id, approver_id := user.id, approver_role := user.role,
                action := body.action, comment := commentOrNull body.comment }
            if body.action = "rejected" then
              (Response.ok, setStatus s1 id Status.rejected)
            else if reqRow.required_role = Role.team_lead then
              if reqRow.amount ≤ 99 then (Response.ok, setStatus s1 id Status.approved)
              else (Response.ok, setRequiredRole s1 id Role.division_manager)
            else if reqRow.required_role = Role.division_manager then
              if reqRow.amount ≤ 199 then (Response.ok, setStatus s1 id Status.approved)
              else (Response.ok, setRequiredRole s1 id Role.sales_director)
            else
              (Response.ok, setStatus s1 id Status.approved)

/-! ## `POST /requests` -/

/-- `cleanId`: a number greater than 0, or null. `none` is a value `Number`
does not turn into a finite number, or one it turns into 0 (`null`). -/
def cleanId (v : Option ℚ) : Option ℚ :=
  match v with
  | some n => if n > 0 then some n else none
  | none => none

/-- The JavaScript `v || d` on numbers, followed by `Number`: `d` when `v` is
absent or 0. For a field that can hold a string, see `jsNumOr`. -/
def numOr (v : Option ℚ) (d : ℚ) : ℚ :=
  match v with
  | some n => if n = 0 then d else n
  | none => d

/-- The JavaScript `v || null` on strings. -/
def strOrNull : Option String → Option String
  | some t => if t = "" then none else some t
  | none => none

/-- One element of `items` in the body of `POST /requests`. -/
structure ItemInput where
  article_id : Int
  quantity : Option ℚ
  line_amount : Option ℚ
  deriving DecidableEq, Repr

/-- The body of `POST /requests`. `items` is the empty list when the field is
absent, is not an array, or is an empty array. -/
structure CreateBody where
  buyer_id : Option ℚ
  site_id : Option ℚ
  article_id : Option Int
  quantity : Option ℚ
  amount : Option ℚ
  invoice_ref : Option String
  reason : Option String
  items : List ItemInput
  deriving DecidableEq, Repr

/-- An element of `normalizedItems`. -/
structure NormalizedItem where
  article_id : Int
  quantity : ℚ
  line_amount : ℚ
  deriving DecidableEq, Repr

/-- `ids`: the distinct non-zero article ids of the items. The query that
takes it, `id = ANY($1)`, only tests membership. -/
def articleIds (items : List ItemInput) : List Int :=
  ((items.map (fun i => i.article_id)).filter (fun a => a ≠ 0)).dedup

/-- `SELECT id, sell_price FROM articles WHERE id = ANY($1::int[])`. -/
def selectPrices (s : Store) (ids : List Int) : List ArticleRow :=
  s.articles.filter (fun r => r.id ∈ ids)

/-- `priceById`, the map filled row by row with `Number(r.sell_price)`. -/
def priceById (rows : List ArticleRow) : Int → Option ℚ :=
  rows.foldl (fun m r => fun k => if k = r.id then some (r.sell_price.getD 0) else m k)
    (fun _ => none)

/-- The function mapped over `items` to build `normalizedItems`, on numbers
and with an exact product; `normalizeItemJs` rounds it. -/
def normalizeItem (price : Int → Option ℚ) (i : ItemInput) : NormalizedItem :=
  let qty := numOr i.quantity 1
  let aid := i.article_id
  let la :=
    match i.line_amount with
    | some x => x
    | none => numOr (price aid) 0 * qty
  { article_id := aid, quantity := qty, line_amount := la }

/-- `normalizedItems` for a non-empty `items`. -/
def normalizedItems (s : Store) (items : List ItemInput) : List NormalizedItem :=
  let ids := articleIds items
  let price := if ids.length ≠ 0 then priceById (selectPrices s ids) else fun _ => none
  items.map (normalizeItem price)

/-- `totalAmount`: the reduce over `normalizedItems`, or `Number(amount || 0)`,
with exact additions; `totalAmountJs` rounds each of them. -/
def totalAmount (s : Store) (body : CreateBody) : ℚ :=
  if body.items.length > 0 then
    (normalizedItems s body.items).foldl (fun acc it => acc + numOr (some it.line_amount) 0) 0
  else numOr body.amount 0

/-- Modelled from the spec: the default of the `status` column, which the
INSERT of `POST /requests` leaves out; the schema is not among the sources.
Section 3: status starts pending. -/
def defaultStatus : Status := Status.pending

/-- The rows `POST /requests` inserts into `request_items`. -/
def itemRows (reqId : Int) (items : List NormalizedItem) : List RequestItem :=
  items.map (fun it =>
    { request_id := reqId, article_id := it.article_id, quantity := it.quantity,
      line_amount := it.line_amount })

/-- The row `POST /requests` inserts into `requests`: the parameters of the
INSERT, the id the sequence gives and the default status. -/
def insertedRequest (policy : ℚ → Role) (s : Store) (user : AuthUser) (body : CreateBody)
    (buyerIdClean : ℚ) (division_id : Option Int) : Request :=
  let isList : Bool := body.items.length > 0
  { id := s.requests_id_seq,
    agent_id := user.id,
    division_id := division_id,
    buyer_id := buyerIdClean,
    site_id := cleanId body.site_id,
    article_id :=
      if isList then none
      else (match body.article_id with
            | some a => if a = 0 then none else some a
            | none => none),
    quantity := if isList then none else some (numOr body.quantity 1),
    amount := totalAmount s body,
    invoice_ref := strOrNull body.invoice_ref,
    reason := strOrNull body.reason,
    required_role := policy (totalAmount s body),
    status := defaultStatus }

/-- The handler of `POST /requests`, behind `requireRole("agent", "admin")`,
with the function it calls for the required role as a parameter. The mail
block that follows the inserts writes nothing to the store and cannot change
the answer (it sits in a `try`/`catch`). -/
def createRequestWith (policy : ℚ → Role) (s : Store) (user : AuthUser) (body : CreateBody) :
    Response × Store :=
  if !requireRole [Role.agent, Role.admin] user then
    (Response.error 403 "Forbidden", s)
  else
    match cleanId body.buyer_id with
    | none => (Response.error 400 "Zgjedh blerësin (buyer_id)", s)
    | some buyerIdClean =>
      match s.users.find? (fun u => u.id = user.id) with
      | none => (Response.thrown, s)
      | some me =>
        let normalized :=
          if body.items.length > 0 then normalizedItems s body.items else []
        let row := insertedRequest policy s user body buyerIdClean me.division_id
        let reqId := row.id
        let s1 : Store :=
          { s with requests := s.requests ++ [row], requests_id_seq := s.requests_id_seq + 1 }
        let s2 : Store :=
          if normalized.length ≠ 0 then
            { s1 with request_items := s1.request_items ++ itemRows reqId normalized }
          else s1
        (Response.created reqId, s2)

/-- The handler of `POST /requests` as the server runs it, with
`requiredRoleForAmount`. -/
def createRequest (s : Store) (user : AuthUser) (body : CreateBody) : Response × Store :=
  createRequestWith requiredRoleForAmount s user body

/-! ## Sequences of calls -/

/-- A call of one of the two handlers. -/
inductive Call where
  | create (user : AuthUser) (body : CreateBody)
  | act (user : AuthUser) (idParam : Option Int) (body : ActBody)
  deriving DecidableEq, Repr

/-- The store a call leaves. -/
def Call.run (s : Store) : Call → Store
  | .create user body => (Approvals.createRequest s user body).2
  | .act user idParam body => (Approvals.act s user idParam body).2

/-- The store a sequence of calls leaves, first call first. -/
def runCalls (s : Store) (calls : List Call) : Store :=
  calls.foldl Call.run s

/-- Status and required role of the request with the given id. -/
def requestState (s : Store) (id : Int) : Option (Status × Role) :=
  (getRequest s id).map (fun r => (r.status, r.required_role))

/-- The log of a request: its rows of `approvals`, oldest first. -/
def approvalLog (s : Store) (id : Int) : List Approval :=
  s.approvals.filter (fun a => a.request_id = id)

/-- The ids of `requests` come from the sequence: they are positive and below
its next value. -/
def Store.SeqFresh (s : Store) : Prop :=
  0 < s.requests_id_seq ∧ ∀ r ∈ s.requests, 0 < r.id ∧ r.id < s.requests_id_seq

/-- The record `act` appends to `approvals`. -/
def actRecord (user : AuthUser) (id : Int) (body : ActBody) : Approval :=
  { request_id := id, approver_id := user.id, approver_role := user.role,
    action := body.action, comment := commentOrNull body.comment }

/-! ## Concrete users, requests and stores for the worked examples -/

/-- An agent of division 1. -/
def exAgent : AuthUser := { id := 7, role := Role.agent, division_id := some 1 }

/-- A team lead of division 1. -/
def exLead : AuthUser := { id := 8, role := Role.team_lead, division_id := some 1 }

/-- A division manager of division 1. -/
def exManager : AuthUser := { id := 9, role := Role.division_manager, division_id := some 1 }

/-- A sales director. -/
def exDirector : AuthUser := { id := 10, role := Role.sales_director, division_id := none }

/-- A pending request with id 1, of the given amount and required role. -/
def exRequest (amount : ℚ) (role : Role) : Request :=
  { id := 1, agent_id := 7, division_id := some 1, buyer_id := 3, site_id := none,
    article_id := some 1, quantity := some 1, amount := amount, invoice_ref := none,
    reason := none, required_role := role, status := Status.pending }

/-- A store with the given rows of `requests`, one agent and one article. -/
def exStore (rows : List Request) : Store :=
  { users := [{ id := 7, role := Role.agent, division_id := some 1,
                email := some "agent@example.org" }],
    articles := [{ id := 1, sell_price := some 10 }],
    requests := rows, request_items := [], approvals := [],
    requests_id_seq := 2 }

/-- A legacy submission of amount 250 by the agent of the example store. -/
def exBody250 : CreateBody :=
  { buyer_id := some 3, site_id := none, article_id := some 1, quantity := some 1,
    amount := some 250, invoice_ref := none, reason := none, items := [] }

/-- The example store before any request: the sequence is at 1. -/
def exEmptyStore : Store := { exStore [] with requests_id_seq := 1 }

/-- The row an approval in turn leaves in place of a pending row: the branches
of `act` after the INSERT, on the row alone. -/
def approvedRow (r : Request) : Request :=
  if r.required_role = Role.team_lead then
    if r.amount ≤ 99 then { r with status := Status.approved }
    else { r with required_role := Role.division_manager }
  else if r.required_role = Role.division_manager then
    if r.amount ≤ 199 then { r with status := Status.approved }
    else { r with required_role := Role.sales_director }
  else { r with status := Status.approved }

/-- An approval: `act` with action approved. -/
def approve (s : Store) (user : AuthUser) (id : Int) (comment : Option String) :
    Response × Store :=
  act s user (some id) ⟨"approved", comment⟩

/-! ## `GET /approvals/pending` -/

/-- Equality of two nullable values in a WHERE clause: null equals nothing. -/
def sqlEq (a b : Option Int) : Bool :=
  match a, b with
  | some x, some y => decide (x = y)
  | _, _ => false

/-- The WHERE clause of `GET /approvals/pending`: pending, required role the
role of the user, and for a team lead or a division manager the division of
the user (`whereDiv`). -/
def pendingWhere (user : AuthUser) (r : Request) : Bool :=
  decide (r.status = Status.pending) && decide (r.required_role = user.role) &&
    (if user.role = Role.team_lead ∨ user.role = Role.division_manager then
      sqlEq r.division_id user.division_id
    else true)

/-- The requests the handler of `GET /approvals/pending` offers to a user,
behind `requireRole("team_lead", "division_manager", "sales_director")`. The
joins on the foreign keys of a request and the ordering are left out. -/
def approvalsPending (s : Store) (user : AuthUser) : List Request :=
  if requireRole [Role.team_lead, Role.division_manager, Role.sales_director] user then
    s.requests.filter (pendingWhere user)
  else []

/-! ## Line items and the catalog -/

/-- The rows of `request_items` of a request, in insertion order. -/
def itemsOf (s : Store) (id : Int) : List RequestItem :=
  s.request_items.filter (fun it => it.request_id = id)

/-- The rows of `request_items` belong to requests the sequence has given. -/
def Store.ItemsFresh (s : Store) : Prop :=
  ∀ it ∈ s.request_items, it.request_id < s.requests_id_seq

/-- The ids of `articles` are a key from a sequence: distinct and not 0. -/
def Store.ArticlesKeyed (s : Store) : Prop :=
  (s.articles.map (fun a => a.id)).Nodup ∧ ∀ a ∈ s.articles, a.id ≠ 0

/-- The catalog price of an article, `priceForArticle` of section 6: the
`sell_price` of its row; none when there is no row or no price. -/
def catalogPrice (s : Store) (aid : Int) : Option ℚ :=
  (s.articles.find? (fun a => a.id = aid)).bind (fun a => a.sell_price)

/-- The quantity of a normalized item in the words of section 4.2, with the
default of the handler: the submitted quantity, 1 when it is absent or 0. -/
def specQuantity (i : ItemInput) : ℚ :=
  match i.quantity with
  | some q => if q = 0 then 1 else q
  | none => 1

/-- The normalized item in the words of section 4.2: the supplied line amount
verbatim, otherwise catalog price times quantity, the price counting as 0
when the article has none. -/
def specNormalizeItem (s : Store) (i : ItemInput) : NormalizedItem :=
  { article_id := i.article_id,
    quantity := specQuantity i,
    line_amount :=
      match i.line_amount with
      | some x => x
      | none => (catalogPrice s i.article_id).getD 0 * specQuantity i }

/-- A team lead of division 2. -/
def exOtherLead : AuthUser := { id := 11, role := Role.team_lead, division_id := some 2 }

/-- A list submission by the agent of the example store. -/
def exItemsBody (items : List ItemInput) : CreateBody :=
  { buyer_id := some 3, site_id := none, article_id := none, quantity := none,
    amount := none, invoice_ref := none, reason := none, items := items }

/-- A legacy submission of the given amount by the agent of the example store. -/
def exLegacyBody (amount : ℚ) : CreateBody :=
  { buyer_id := some 3, site_id := none, article_id := some 1, quantity := some 1,
    amount := some amount, invoice_ref := none, reason := none, items := [] }

/-! ## Sites -/

/-- The site belongs to the buyer: `buyer_sites` has a row with the id of the
site and the id of the buyer. -/
def siteBelongs (s : Store) (site buyer : ℚ) : Bool :=
  s.buyer_sites.any (fun row => decide ((row.id : ℚ) = site) && decide ((row.buyer_id : ℚ) = buyer))

/-- The example store with site 5, a site of buyer 4. -/
def exSiteStore : Store := { exEmptyStore with buyer_sites := [{ id := 5, buyer_id := 4 }] }

/-! ## Notifications -/

/-- What the mail code reads from the process, and the outcome of its two
external steps: rendering the document and handing the mail to the
transport. `LEJIMET_EMAIL` is the empty string when it is not configured. -/
structure MailEnv where
  LEJIMET_EMAIL : String
  pdfFails : Bool
  transportFails : Bool
  deriving DecidableEq, Repr

/-- A line of the document: an item row, or the line made up for a legacy
request. -/
structure PdfItem where
  article_id : Int
  quantity : ℚ
  line_amount : ℚ
  deriving DecidableEq, Repr

/-- What `loadRequestForPdf` returns: the request row with the email of its
agent, its lines and its approvals. -/
structure LoadedRequest where
  reqRow : Request
  agent_email : Option String
  items : List PdfItem
  approvals : List Approval
  deriving DecidableEq, Repr

/-- `loadRequestForPdf`; `none` when it throws "Request not found". The joins
with `users` (the agent, the approvers) and `articles` are inner joins; the
buyer of the request is taken to exist. -/
def loadRequestForPdf (s : Store) (reqId : Int) : Option LoadedRequest :=
  match getRequest s reqId with
  | none => none
  | some reqRow =>
    match s.users.find? (fun u => u.id = reqRow.agent_id) with
    | none => none
    | some ag =>
      let rows := (itemsOf s reqId).filter
        (fun it => s.articles.any (fun a => decide (a.id = it.article_id)))
      let items : List PdfItem := rows.map
        (fun it => { article_id := it.article_id, quantity := it.quantity,
                     line_amount := it.line_amount })
      let items : List PdfItem :=
        match reqRow.article_id with
        | some a =>
          if items.length = 0 ∧ a ≠ 0 then
            [{ article_id := a, quantity := numOr reqRow.quantity 1,
               line_amount := reqRow.amount }]
          else items
        | none => items
      let approvals := (approvalLog s reqId).filter
        (fun a => s.users.any (fun u => decide (u.id = a.approver_id)))
      some { reqRow := reqRow, agent_email := ag.email, items := items,
             approvals := approvals }

/-- The emails of the users a WHERE clause keeps: `email IS NOT NULL`, then
`.map((x) => x.email).filter(Boolean)`. -/
def emailsWhere (s : Store) (p : UserRow → Bool) : List String :=
  ((s.users.filter p).filterMap (fun u => u.email)).filter (fun e => e ≠ "")

/-- `approverEmailsFor`. -/
def approverEmailsFor (s : Store) (reqRow : Request) : List String :=
  if reqRow.required_role = Role.team_lead then
    emailsWhere s (fun u => decide (u.role = Role.team_lead) &&
      sqlEq u.division_id reqRow.division_id)
  else if reqRow.required_role = Role.division_manager then
    emailsWhere s (fun u => decide (u.role = Role.division_manager) &&
      sqlEq u.division_id reqRow.division_id)
  else
    emailsWhere s (fun u => decide (u.role = Role.sales_director))

/-- The document `pdfFromRequestRows` renders, as the data it is rendered
from. -/
structure Document where
  reqRow : Request
  items : List PdfItem
  approvals : List Approval
  deriving DecidableEq, Repr

/-- The `to` argument of `sendMail`: an array, a string, or nothing. -/
inductive MailTo where
  | list (l : List String)
  | single (a : String)
  | absent
  deriving DecidableEq, Repr

/-- The mail `sendMail` hands to the transport; `toList` is its `to`. -/
structure Mail where
  toList : List String
  cc : Option String
  attachment : Document
  deriving DecidableEq, Repr

/-- How a call of `sendMail`, or a whole notification block, ends. -/
inductive SendResult where
  | sent (m : Mail)
  | skipped
  | thrown
  deriving DecidableEq, Repr

/-- The mails delivered. -/
def SendResult.mails : SendResult → List Mail
  | .sent m => [m]
  | .skipped => []
  | .thrown => []

/-- `sendMail`. -/
def sendMail (env : MailEnv) (toArg : MailTo) (cc : Option String) (attachment : Document) :
    SendResult :=
  let toList : List String :=
    match toArg with
    | .list l => l
    | .single a => if a = "" then [] else [a]
    | .absent => []
  let toList : List String :=
    if toList.length = 0 ∧ env.LEJIMET_EMAIL ≠ "" then [env.LEJIMET_EMAIL] else toList
  if toList.length = 0 then SendResult.skipped
  else if env.transportFails then SendResult.thrown
  else SendResult.sent { toList := toList, cc := cc, attachment := attachment }

/-- The body of the `try` of `POST /approvals/:id/act`, on the store the
updates leave. -/
def actNotification (env : MailEnv) (s : Store) (id : Int) : SendResult :=
  match loadRequestForPdf s id with
  | none => SendResult.thrown
  | some l =>
    if env.pdfFails then SendResult.thrown
    else sendMail env (MailTo.single env.LEJIMET_EMAIL) l.agent_email
      { reqRow := l.reqRow, items := l.items, approvals := l.approvals }

/-- The body of the `try` of `POST /requests`, on the store the inserts
leave. -/
def createNotification (env : MailEnv) (s : Store) (reqId : Int) : SendResult :=
  match loadRequestForPdf s reqId with
  | none => SendResult.thrown
  | some l =>
    let toEmails := approverEmailsFor s l.reqRow
    let toEmails :=
      if toEmails.length = 0 then (if env.LEJIMET_EMAIL ≠ "" then [env.LEJIMET_EMAIL] else [])
      else toEmails
    if env.pdfFails then SendResult.thrown
    else sendMail env (MailTo.list toEmails) l.agent_email
      { reqRow := l.reqRow, items := l.items, approvals := l.approvals }

/-- The handler of `POST /approvals/:id/act` with its notification: the
answer, the store and the mails delivered. The rejection returns before the
`try`; the `catch` logs what the `try` throws and the handler answers ok. -/
def actAndNotify (env : MailEnv) (s : Store) (user : AuthUser) (idParam : Option Int)
    (body : ActBody) : Response × Store × List Mail :=
  if !requireRole [Role.team_lead, Role.division_manager, Role.sales_director] user then
    (Response.error 403 "Forbidden", s, [])
  else
    match idParam with
    | none => (Response.error 400 "Bad request", s, [])
    | some id =>
      if id = 0 ∨ ¬ (body.action = "approved" ∨ body.action = "rejected") then
        (Response.error 400 "Bad request", s, [])
      else
        match getRequest s id with
        | none => (Response.error 404 "Not found", s, [])
        | some reqRow =>
          if reqRow.required_role ≠ user.role ∨ reqRow.status ≠ Status.pending then
            (Response.error 403 "Not your turn", s, [])
          else
            let s1 := insertApproval s
              { request_id := id, approver_id := user.id, approver_role := user.role,
                action := body.action, comment := commentOrNull body.comment }
            if body.action = "rejected" then
              (Response.ok, setStatus s1 id Status.rejected, [])
            else
              let s2 : Store :=
                if reqRow.required_role = Role.team_lead then
                  if reqRow.amount ≤ 99 then setStatus s1 id Status.approved
                  else setRequiredRole s1 id Role.division_manager
                else if reqRow.required_role = Role.division_manager then
                  if reqRow.amount ≤ 199 then setStatus s1 id Status.approved
                  else setRequiredRole s1 id Role.sales_director
                else setStatus s1 id Status.approved
              (Response.ok, s2, (actNotification env s2 id).mails)

/-- The handler of `POST /requests` with its notification: the answer, the
store and the mails delivered. -/
def createAndNotify (env : MailEnv) (s : Store) (user : AuthUser) (body : CreateBody) :
    Response × Store × List Mail :=
  match (createRequest s user body).1 with
  | .created id =>
    (Response.created id, (createRequest s user body).2,
      (createNotification env (createRequest s user body).2 id).mails)
  | other => (other, (createRequest s user body).2, [])

/-- An environment with the fallback address configured and no failure. -/
def exEnv : MailEnv :=
  { LEJIMET_EMAIL := "lejimet@example.org", pdfFails := false, transportFails := false }

/-- An environment without fallback address and with a failing transport. -/
def exNoMailEnv : MailEnv :=
  { LEJIMET_EMAIL := "", pdfFails := false, transportFails := true }

/-- An environment with the fallback address configured, where rendering the
document fails. -/
def exFailingEnv : MailEnv :=
  { LEJIMET_EMAIL := "lejimet@example.org", pdfFails := true, transportFails := false }

/-- A store with the given rows of `requests`, the agent and the three
approvers of the examples, each with an email. -/
def exMailStore (rows : List Request) : Store :=
  { users := [{ id := 7, role := Role.agent, division_id := some 1,
                email := some "agent@example.org" },
              { id := 8, role := Role.team_lead, division_id := some 1,
                email := some "lead@example.org" },
              { id := 9, role := Role.division_manager, division_id := some 1,
                email := some "manager@example.org" },
              { id := 10, role := Role.sales_director, division_id := none,
                email := some "director@example.org" }],
    articles := [{ id := 1, sell_price := some 10 }],
    requests := rows, request_items := [], approvals := [],
    requests_id_seq := 2 }

/-! ## Runs with any threshold function, and counting -/

/-- The store a call leaves, with the function the create handler calls for
the required role as a parameter. -/
def Call.runWith (policy : ℚ → Role) (s : Store) : Call → Store
  | .create user body => (Approvals.createRequestWith policy s user body).2
  | .act user idParam body => (Approvals.act s user idParam body).2

/-- The store a sequence of calls leaves, first call first. -/
def runCallsWith (policy : ℚ → Role) (s : Store) (calls : List Call) : Store :=
  calls.foldl (Call.runWith policy) s

/-- How many calls of a sequence are actions on the request `id` that are
answered ok, each call running on the store the calls before it leave. -/
def okActsOn (id : Int) : Store → List Call → Nat
  | _, [] => 0
  | s, c :: cs =>
    (match c with
      | .act user (some i) body =>
        if i = id ∧ (Approvals.act s user (some i) body).1 = Response.ok then 1 else 0
      | _ => 0) + okActsOn id (c.run s) cs

/-- The number of actions a request can still take: none when it is not
pending, otherwise the number of roles from its required role to the end of
the escalation order. -/
def stepsLeft (r : Request) : Nat :=
  if r.status = Status.pending then
    match escalationRank r.required_role with
    | some k => 3 - k
    | none => 0
  else 0

/-- Every request has the required role the threshold function gives for its
amount. -/
def Store.RolesFromPolicy (policy : ℚ → Role) (s : Store) : Prop :=
  ∀ r ∈ s.requests, r.required_role = policy r.amount

/-! ## Double-precision numbers

The numbers of `server.js` are IEEE 754 binary64 values. A finite double is
modelled by the rational it denotes, and `fl` rounds a rational to the nearest
double, ties going to the even significand: the result of `+` and of `*` on
doubles is `fl` of the exact result, and `Number` of a decimal is `fl` of the
decimal. The exponent is not bounded: overflow to `Infinity`, subnormal
results and `NaN` are not represented. -/

/-- The number of binary digits of `k`, by halving at most `fuel` times. -/
def bitLengthAux : Nat → Nat → Nat
  | 0, _ => 0
  | fuel + 1, k => if k = 0 then 0 else bitLengthAux fuel (k / 2) + 1

/-- The number of binary digits of `n`. -/
def bitLength (n : Nat) : Nat := bitLengthAux n n

/-- The exponent `e` of the positive rational `n / d`: `2 ^ e ≤ n / d < 2 ^ (e + 1)`. -/
def floorLog2 (n d : Nat) : Int :=
  let e0 : Int := (bitLength n : Int) - (bitLength d : Int)
  if d * 2 ^ e0.toNat ≤ n * 2 ^ (-e0).toNat then e0 else e0 - 1

/-- The positive rational `n / d` rounded to 53 significant binary digits, to
the nearest, ties to the even significand: the pair `(m, k)` stands for
`m * 2 ^ k`. -/
def roundPos (n d : Nat) : Nat × Int :=
  let k : Int := floorLog2 n d - 52
  let num := n * 2 ^ (-k).toNat
  let den := d * 2 ^ k.toNat
  let q := num / den
  let r := num % den
  let m :=
    if 2 * r < den then q
    else if den < 2 * r then q + 1
    else if q % 2 = 0 then q else q + 1
  (m, k)

/-- The double nearest to a rational, as a rational. -/
def fl (x : ℚ) : ℚ :=
  if x = 0 then 0
  else
    let r := roundPos x.num.natAbs x.den
    let v : ℚ := mkRat ((r.1 * 2 ^ r.2.toNat : ℕ) : ℤ) (2 ^ (-r.2).toNat)
    if 0 < x then v else -v

/-! ## `POST /requests` on the values of the body, in double precision

The handler once more, with the two things `createRequestWith` leaves out:
the results of `+` and `*` are rounded (by `rnd`, which is `fl` on the
server), and `quantity`, `line_amount` and `amount` may be strings. With
numbers in these fields and no rounding it is `createRequestWith`. -/

/-- A value of the body that the handler passes through `Number`: absent
(`undefined` or `null`), a number, or a string together with the number
`Number` gives for it. Strings that `Number` turns into `NaN` are not
represented. -/
inductive JsVal where
  | absent
  | num (x : ℚ)
  | str (t : String) (n : ℚ)
  deriving DecidableEq, Repr

/-- The JavaScript `Number(v || d)`: `d` when `v` is absent, the number 0 or
the empty string, otherwise the number of `v`. -/
def jsNumOr : JsVal → ℚ → ℚ
  | .absent, d => d
  | .num x, d => if x = 0 then d else x
  | .str t n, d => if t = "" then d else n

/-- The JavaScript `Number(v)` of a value that is not absent (0 for `null`). -/
def JsVal.number : JsVal → ℚ
  | .absent => 0
  | .num x => x
  | .str _ n => n

/-- One element of `items` in the body of `POST /requests`, as parsed. -/
structure ItemJs where
  article_id : Int
  quantity : JsVal
  line_amount : JsVal
  deriving DecidableEq, Repr

/-- The body of `POST /requests`, as parsed. `items` is the empty list when
the field is absent, is not an array, or is an empty array. -/
structure CreateBodyJs where
  buyer_id : Option ℚ
  site_id : Option ℚ
  article_id : Option Int
  quantity : Option ℚ
  amount : JsVal
  invoice_ref : Option String
  reason : Option String
  items : List ItemJs
  deriving DecidableEq, Repr

/-- `ids`: the distinct non-zero article ids of the items. -/
def articleIdsJs (items : List ItemJs) : List Int :=
  ((items.map (fun i => i.article_id)).filter (fun a => a ≠ 0)).dedup

/-- `priceById`, the map filled row by row with `Number(r.sell_price)`: the
double nearest to the price of the row. -/
def priceByIdJs (rnd : ℚ → ℚ) (rows : List ArticleRow) : Int → Option ℚ :=
  rows.foldl (fun m r => fun k => if k = r.id then some (rnd (r.sell_price.getD 0)) else m k)
    (fun _ => none)

/-- The function mapped over `items` to build `normalizedItems`. -/
def normalizeItemJs (rnd : ℚ → ℚ) (price : Int → Option ℚ) (i : ItemJs) : NormalizedItem :=
  let qty := jsNumOr i.quantity 1
  let aid := i.article_id
  let la :=
    match i.line_amount with
    | .absent => rnd (numOr (price aid) 0 * qty)
    | .num x => x
    | .str _ n => n
  { article_id := aid, quantity := qty, line_amount := la }

/-- `normalizedItems` for a non-empty `items`. -/
def normalizedItemsJs (rnd : ℚ → ℚ) (s : Store) (items : List ItemJs) : List NormalizedItem :=
  let ids := articleIdsJs items
  let price :=
    if ids.length ≠ 0 then priceByIdJs rnd (selectPrices s ids) else fun _ => none
  items.map (normalizeItemJs rnd price)

/-- The accumulation of the reduce: from 0, one rounded addition per value. -/
def sumJs (rnd : ℚ → ℚ) (l : List ℚ) : ℚ :=
  l.foldl (fun acc x => rnd (acc + x)) 0

/-- `totalAmount`: the reduce over `normalizedItems`, or `Number(amount || 0)`. -/
def totalAmountJs (rnd : ℚ → ℚ) (s : Store) (body : CreateBodyJs) : ℚ :=
  if body.items.length > 0 then
    (normalizedItemsJs rnd s body.items).foldl
      (fun acc it => rnd (acc + numOr (some it.line_amount) 0)) 0
  else jsNumOr body.amount 0

/-- The row `POST /requests` inserts into `requests`. -/
def insertedRequestJs (rnd : ℚ → ℚ) (policy : ℚ → Role) (s : Store) (user : AuthUser)
    (body : CreateBodyJs) (buyerIdClean : ℚ) (division_id : Option Int) : Request :=
  let isList : Bool := body.items.length > 0
  { id := s.requests_id_seq,
    agent_id := user.id,
    division_id := division_id,
    buyer_id := buyerIdClean,
    site_id := cleanId body.site_id,
    article_id :=
      if isList then none
      else (match body.article_id with
            | some a => if a = 0 then none else some a
            | none => none),
    quantity := if isList then none else some (numOr body.quantity 1),
    amount := totalAmountJs rnd s body,
    invoice_ref := strOrNull body.invoice_ref,
    reason := strOrNull body.reason,
    required_role := policy (totalAmountJs rnd s body),
    status := defaultStatus }

/-- The handler of `POST /requests`, behind `requireRole("agent", "admin")`,
with the rounding of its arithmetic and the function it calls for the
required role as parameters. -/
def createRequestJsWith (rnd : ℚ → ℚ) (policy : ℚ → Role) (s : Store) (user : AuthUser)
    (body : CreateBodyJs) : Response × Store :=
  if !requireRole [Role.agent, Role.admin] user then
    (Response.error 403 "Forbidden", s)
  else
    match cleanId body.buyer_id with
    | none => (Response.error 400 "Zgjedh blerësin (buyer_id)", s)
    | some buyerIdClean =>
      match s.users.find? (fun u => u.id = user.id) with
      | none => (Response.thrown, s)
      | some me =>
        let normalized :=
          if body.items.length > 0 then normalizedItemsJs rnd s body.items else []
        let row := insertedRequestJs rnd policy s user body buyerIdClean me.division_id
        let reqId := row.id
        let s1 : Store :=
          { s with requests := s.requests ++ [row], requests_id_seq := s.requests_id_seq + 1 }
        let s2 : Store :=
          if normalized.length ≠ 0 then
            { s1 with request_items := s1.request_items ++ itemRows reqId normalized }
          else s1
        (Response.created reqId, s2)

/-- The handler of `POST /requests` as the server runs it: double-precision
arithmetic and `requiredRoleForAmount`. -/
def createRequestJs (s : Store) (user : AuthUser) (body : CreateBodyJs) : Response × Store :=
  createRequestJsWith fl requiredRoleForAmount s user body

/-- A number or nothing, as a value of the body. -/
def JsVal.ofOption : Option ℚ → JsVal
  | some x => JsVal.num x
  | none => JsVal.absent

/-- An item with numbers in its fields, as a value of the body. -/
def ItemInput.toJs (i : ItemInput) : ItemJs :=
  { article_id := i.article_id, quantity := JsVal.ofOption i.quantity,
    line_amount := JsVal.ofOption i.line_amount }

/-- A body with numbers in its fields, as a value of the body. -/
def CreateBody.toJs (b : CreateBody) : CreateBodyJs :=
  { buyer_id := b.buyer_id, site_id := b.site_id, article_id := b.article_id,
    quantity := b.quantity, amount := JsVal.ofOption b.amount,
    invoice_ref := b.invoice_ref, reason := b.reason,
    items := b.items.map ItemInput.toJs }

/-- The normalized item in the words of section 4.2, with the arithmetic of
the handler: article and quantity of the submitted item, and as line amount
the supplied one verbatim, otherwise the catalog price, read as a double,
times the quantity, the product rounded. -/
def specNormalizeItemJs (rnd : ℚ → ℚ) (s : Store) (i : ItemJs) : NormalizedItem :=
  { article_id := i.article_id,
    quantity := i.quantity.number,
    line_amount :=
      match i.line_amount with
      | .absent => rnd (((catalogPrice s i.article_id).map rnd).getD 0 * i.quantity.number)
      | .num x => x
      | .str _ n => n }

/-- A list submission by the agent of the example store, as parsed. -/
def exItemsBodyJs (items : List ItemJs) : CreateBodyJs :=
  { buyer_id := some 3, site_id := none, article_id := none, quantity := none,
    amount := JsVal.absent, invoice_ref := none, reason := none, items := items }

/-- Three items of article 1 with the line amounts 0.01, 65.68 and 33.31 of
the body: the doubles nearest to these decimals. -/
def exCentItems : List ItemJs :=
  [{ article_id := 1, quantity := JsVal.num 1, line_amount := JsVal.num (fl 0.01) },
   { article_id := 1, quantity := JsVal.num 1, line_amount := JsVal.num (fl 65.68) },
   { article_id := 1, quantity := JsVal.num 1, line_amount := JsVal.num (fl 33.31) }]

/-- An item of article 1, quantity 90, without line amount. -/
def exNinetyItem : ItemJs :=
  { article_id := 1, quantity := JsVal.num 90, line_amount := JsVal.absent }

/-- The example store with article 1 priced 1.10 in the catalog. -/
def exDecimalPriceStore : Store :=
  { exEmptyStore with articles := [{ id := 1, sell_price := some 1.1 }] }

/-- Items with the quantities 0, -2 and the string "0", each with a line
amount of 5. -/
def exQuantityItems : List ItemJs :=
  [{ article_id := 1, quantity := JsVal.num 0, line_amount := JsVal.num 5 },
   { article_id := 1, quantity := JsVal.num (-2), line_amount := JsVal.num 5 },
   { article_id := 1, quantity := JsVal.str "0" 0, line_amount := JsVal.num 5 }]

/-- Items with the quantities 2 and 3, each with a line amount of 5. -/
def exPositiveItems : List ItemJs :=
  [{ article_id := 1, quantity := JsVal.num 2, line_amount := JsVal.num 5 },
   { article_id := 1, quantity := JsVal.num 3, line_amount := JsVal.num 5 }]

/-! ## `POST /approvals/:id/act`, query by query

The handler awaits three queries: the SELECT of the row, the INSERT into
`approvals` and the UPDATE of the row. Between two of them the queries of
another call can run. -/

/-- Where a call of `act` stands: before its SELECT, between the SELECT (with
the checks passed) and the INSERT, between the INSERT and the UPDATE, or
answered. The row is the one the SELECT returned. -/
inductive ActPhase where
  | start
  | selected (id : Int) (reqRow : Request)
  | inserted (id : Int) (reqRow : Request)
  | answered (r : Response)
  deriving DecidableEq, Repr

/-- A call of `act` in flight. -/
structure ActCall where
  user : AuthUser
  idParam : Option Int
  body : ActBody
  phase : ActPhase
  deriving DecidableEq, Repr

/-- The UPDATE `act` issues after its INSERT, chosen from the row its SELECT
returned. -/
def actUpdate (s : Store) (id : Int) (body : ActBody) (reqRow : Request) : Store :=
  if body.action = "rejected" then setStatus s id Status.rejected
  else if reqRow.required_role = Role.team_lead then
    if reqRow.amount ≤ 99 then setStatus s id Status.approved
    else setRequiredRole s id Role.division_manager
  else if reqRow.required_role = Role.division_manager then
    if reqRow.amount ≤ 199 then setStatus s id Status.approved
    else setRequiredRole s id Role.sales_director
  else setStatus s id Status.approved

/-- One step of a call: its next query with the code that runs up to the
following `await`, or up to the answer. -/
def ActCall.step (s : Store) (c : ActCall) : ActCall × Store :=
  match c.phase with
  | .start =>
    if !requireRole [Role.team_lead, Role.division_manager, Role.sales_director] c.user then
      ({ c with phase := .answered (Response.error 403 "Forbidden") }, s)
    else
      match c.idParam with
      | none => ({ c with phase := .answered (Response.error 400 "Bad request") }, s)
      | some id =>
        if id = 0 ∨ ¬ (c.body.action = "approved" ∨ c.body.action = "rejected") then
          ({ c with phase := .answered (Response.error 400 "Bad request") }, s)
        else
          match getRequest s id with
          | none => ({ c with phase := .answered (Response.error 404 "Not found") }, s)
          | some reqRow =>
            if reqRow.required_role ≠ c.user.role ∨ reqRow.status ≠ Status.pending then
              ({ c with phase := .answered (Response.error 403 "Not your turn") }, s)
            else ({ c with phase := .selected id reqRow }, s)
  | .selected id reqRow =>
    ({ c with phase := .inserted id reqRow },
      insertApproval s
        { request_id := id, approver_id := c.user.id, approver_role := c.user.role,
          action := c.body.action, comment := commentOrNull c.body.comment })
  | .inserted id reqRow =>
    ({ c with phase := .answered Response.ok }, actUpdate s id c.body reqRow)
  | .answered _ => (c, s)

/-- The call of the given position takes one step. -/
def stepAt (s : Store) (calls : List ActCall) (i : Nat) : List ActCall × Store :=
  match calls.get? i with
  | none => (calls, s)
  | some c => (calls.set i (c.step s).1, (c.step s).2)

/-- The calls take their steps in the order of the schedule, which names the
position of the call that steps next. -/
def runSchedule (s : Store) (calls : List ActCall) : List Nat → List ActCall × Store
  | [] => (calls, s)
  | i :: rest => runSchedule (stepAt s calls i).2 (stepAt s calls i).1 rest

/-- A call of `act` that has not started. -/
def newActCall (user : AuthUser) (idParam : Option Int) (body : ActBody) : ActCall :=
  { user := user, idParam := idParam, body := body, phase := ActPhase.start }

/-- A second team lead of division 1. -/
def exSecondLead : AuthUser := { id := 12, role := Role.team_lead, division_id := some 1 }

/-- Two calls on request 1 that have not started: the team lead approves, the
second team lead rejects. -/
def exTwoCalls : List ActCall :=
  [newActCall exLead (some 1) ⟨"approved", none⟩,
   newActCall exSecondLead (some 1) ⟨"rejected", none⟩]

/-- Both calls run their SELECT before either runs its INSERT. -/
def exOverlap : List Nat := [0, 1, 0, 0, 1, 1]

/-- The first call runs its three queries, then the second. -/
def exOneAfterTheOther : List Nat := [0, 0, 0, 1, 1, 1]

/-! ## Lemmas on the store operations -/

theorem requireRole_approvers (user : AuthUser) :
    requireRole [Role.team_lead, Role.division_manager, Role.sales_director] user
      = user.role.isApprover := by
  cases user with
  | mk id role div => cases role <;> rfl

theorem find_map_update (l : List Request) (id id' : Int) (f : Request → Request)
    (hf : ∀ r, (f r).id = r.id) :
    (l.map (fun r => if r.id = id then f r else r)).find? (fun r => r.id = id')
      = (l.find? (fun r => r.id = id')).map (fun r => if r.id = id then f r else r) := by
  have hcomp : ((fun r : Request => decide (r.id = id')) ∘
      fun r => if r.id = id then f r else r) = fun r => decide (r.id = id') := by
    funext r
    by_cases hr : r.id = id <;> simp [hr, hf]
  rw [List.find?_map, hcomp]

theorem getRequest_setStatus (s : Store) (id id' : Int) (st : Status) :
    getRequest (setStatus s id st) id'
      = (getRequest s id').map (fun r => if r.id = id then { r with status := st } else r) := by
  unfold getRequest setStatus
  exact find_map_update s.requests id id' (fun r => { r with status := st }) (fun _ => rfl)

theorem getRequest_setRequiredRole (s : Store) (id id' : Int) (role : Role) :
    getRequest (setRequiredRole s id role) id'
      = (getRequest s id').map
          (fun r => if r.id = id then { r with required_role := role } else r) := by
  unfold getRequest setRequiredRole
  exact find_map_update s.requests id id' (fun r => { r with required_role := role })
    (fun _ => rfl)

theorem getRequest_insertApproval (s : Store) (a : Approval) (id : Int) :
    getRequest (insertApproval s a) id = getRequest s id := rfl

theorem getRequest_id {s : Store} {id : Int} {r : Request} (h : getRequest s id = some r) :
    r.id = id := by
  unfold getRequest at h
  have := List.find?_some h
  simpa using this

theorem getRequest_mem {s : Store} {id : Int} {r : Request} (h : getRequest s id = some r) :
    r ∈ s.requests := by
  unfold getRequest at h
  exact List.mem_of_find?_eq_some h

/-! ## The four outcomes of `act` on an existing request -/

/-- A user the middleware stops gets 403 and the store stays. -/
theorem act_not_approver (s : Store) (user : AuthUser) (idParam : Option Int) (body : ActBody)
    (h : user.role.isApprover = false) :
    act s user idParam body = (Response.error 403 "Forbidden", s) := by
  simp [act, requireRole_approvers, h]

/-- Out of turn, or on a request that is not pending: 403 and the store stays. -/
theorem act_not_your_turn (s : Store) (user : AuthUser) (id : Int) (body : ActBody)
    (r : Request) (happ : user.role.isApprover = true) (hid : id ≠ 0)
    (hact : body.action = "approved" ∨ body.action = "rejected")
    (hget : getRequest s id = some r)
    (h : r.required_role ≠ user.role ∨ r.status ≠ Status.pending) :
    act s user (some id) body = (Response.error 403 "Not your turn", s) := by
  simp [act, requireRole_approvers, happ, hid, hact, hget, h]

/-- A rejection in turn. -/
theorem act_rejected_eq (s : Store) (user : AuthUser) (id : Int) (comment : Option String)
    (r : Request) (happ : user.role.isApprover = true) (hid : id ≠ 0)
    (hget : getRequest s id = some r)
    (hrole : r.required_role = user.role) (hpend : r.status = Status.pending) :
    act s user (some id) ⟨"rejected", comment⟩
      = (Response.ok,
          setStatus (insertApproval s (actRecord user id ⟨"rejected", comment⟩)) id
            Status.rejected) := by
  simp [act, requireRole_approvers, happ, hid, hget, hrole, hpend, actRecord]

/-- An approval in turn. -/
theorem act_approved_eq (s : Store) (user : AuthUser) (id : Int) (comment : Option String)
    (r : Request) (happ : user.role.isApprover = true) (hid : id ≠ 0)
    (hget : getRequest s id = some r)
    (hrole : r.required_role = user.role) (hpend : r.status = Status.pending) :
    act s user (some id) ⟨"approved", comment⟩
      = (Response.ok,
          let s1 := insertApproval s (actRecord user id ⟨"approved", comment⟩)
          if r.required_role = Role.team_lead then
            if r.amount ≤ 99 then setStatus s1 id Status.approved
            else setRequiredRole s1 id Role.division_manager
          else if r.required_role = Role.division_manager then
            if r.amount ≤ 199 then setStatus s1 id Status.approved
            else setRequiredRole s1 id Role.sales_director
          else setStatus s1 id Status.approved) := by
  simp only [act, requireRole_approvers, happ, hid, hget, hrole, hpend, actRecord]
  simp
  split_ifs <;> rfl

/-- Every call of `act` either fails and leaves the store as it was, or is an
action in turn on a pending request: it answers ok, appends one record and
updates the status or the required role of that request. -/
theorem act_cases (s : Store) (user : AuthUser) (idParam : Option Int) (body : ActBody) :
    ((act s user idParam body).1 ≠ Response.ok ∧ (act s user idParam body).2 = s) ∨
    ∃ id r, idParam = some id ∧ id ≠ 0 ∧
      (body.action = "approved" ∨ body.action = "rejected") ∧
      user.role.isApprover = true ∧ getRequest s id = some r ∧
      r.status = Status.pending ∧ r.required_role = user.role ∧
      (act s user idParam body).1 = Response.ok ∧
      ((∃ st, (act s user idParam body).2
          = setStatus (insertApproval s (actRecord user id body)) id st) ∨
       (∃ role, (act s user idParam body).2
          = setRequiredRole (insertApproval s (actRecord user id body)) id role)) := by
  by_cases happ : user.role.isApprover = true
  swap
  · left
    rw [act_not_approver s user idParam body (by simpa using happ)]
    simp
  cases idParam with
  | none => left; simp [act, requireRole_approvers, happ]
  | some id =>
    by_cases hbad : id = 0 ∨ ¬ (body.action = "approved" ∨ body.action = "rejected")
    · left
      have hbad' := hbad
      simp only [not_or] at hbad'
      simp [act, requireRole_approvers, happ, hbad']
    · have hid : id ≠ 0 := fun h => hbad (Or.inl h)
      have hact : body.action = "approved" ∨ body.action = "rejected" := by
        by_contra h; exact hbad (Or.inr h)
      cases hget : getRequest s id with
      | none => left; simp [act, requireRole_approvers, happ, hid, hact, hget]
      | some r =>
        by_cases hturn : r.required_role ≠ user.role ∨ r.status ≠ Status.pending
        · left
          rw [act_not_your_turn s user id body r happ hid hact hget hturn]
          simp
        · have hrole : r.required_role = user.role := by
            by_contra h; exact hturn (Or.inl h)
          have hpend : r.status = Status.pending := by
            by_contra h; exact hturn (Or.inr h)
          right
          refine ⟨id, r, rfl, hid, hact, happ, hget, hpend, hrole, ?_⟩
          obtain ⟨action, comment⟩ := body
          rcases hact with h | h
          · simp only at h
            subst h
            rw [act_approved_eq s user id comment r happ hid hget hrole hpend]
            refine ⟨rfl, ?_⟩
            dsimp only
            split_ifs
            · exact Or.inl ⟨_, rfl⟩
            · exact Or.inr ⟨_, rfl⟩
            · exact Or.inl ⟨_, rfl⟩
            · exact Or.inr ⟨_, rfl⟩
            · exact Or.inl ⟨_, rfl⟩
          · simp only at h
            subst h
            rw [act_rejected_eq s user id comment r happ hid hget hrole hpend]
            exact ⟨rfl, Or.inl ⟨_, rfl⟩⟩

/-! ## The outcomes of `createRequestWith` -/

/-- Every call of the create handler either stores nothing, or answers with
the id the sequence gives and appends one row to `requests`. -/
theorem createRequestWith_cases (policy : ℚ → Role) (s : Store) (user : AuthUser)
    (body : CreateBody) :
    ((∀ id, (createRequestWith policy s user body).1 ≠ Response.created id) ∧
      (createRequestWith policy s user body).2 = s) ∨
    ∃ b me, requireRole [Role.agent, Role.admin] user = true ∧
      cleanId body.buyer_id = some b ∧
      s.users.find? (fun u => u.id = user.id) = some me ∧
      (createRequestWith policy s user body).1 = Response.created s.requests_id_seq ∧
      (createRequestWith policy s user body).2.requests
        = s.requests ++ [insertedRequest policy s user body b me.division_id] ∧
      (createRequestWith policy s user body).2.approvals = s.approvals ∧
      (createRequestWith policy s user body).2.users = s.users ∧
      (createRequestWith policy s user body).2.articles = s.articles ∧
      (createRequestWith policy s user body).2.requests_id_seq = s.requests_id_seq + 1 := by
  by_cases hrole : requireRole [Role.agent, Role.admin] user = true
  swap
  · left; simp [createRequestWith, hrole]
  cases hb : cleanId body.buyer_id with
  | none => left; simp [createRequestWith, hrole, hb]
  | some b =>
    cases hme : s.users.find? (fun u => u.id = user.id) with
    | none => left; simp [createRequestWith, hrole, hb, hme]
    | some me =>
      right
      refine ⟨b, me, hrole, rfl, rfl, ?_⟩
      simp only [createRequestWith, hrole, hb, hme, Bool.not_true, Bool.false_eq_true,
        if_false]
      refine ⟨rfl, ?_, ?_, ?_, ?_, ?_⟩ <;> dsimp only <;> split_ifs <;> rfl

theorem getRequest_append_of_some {s s' : Store} {id : Int} {r : Request} (row : Request)
    (hreq : s'.requests = s.requests ++ [row]) (hget : getRequest s id = some r) :
    getRequest s' id = some r := by
  unfold getRequest at *
  rw [hreq, List.find?_append, hget]
  rfl

/-- A request that is not pending is left as it is by every call. -/
theorem Call.run_keeps_terminal (s : Store) (c : Call) (id : Int) (r : Request)
    (hget : getRequest s id = some r) (hterm : r.status ≠ Status.pending) :
    getRequest (c.run s) id = some r := by
  cases c with
  | create user body =>
    rcases createRequestWith_cases requiredRoleForAmount s user body with h | h
    · simp only [Call.run, createRequest, h.2, hget]
    · obtain ⟨b, me, -, -, -, -, hreq, -⟩ := h
      exact getRequest_append_of_some _ hreq hget
  | act user idParam body =>
    rcases act_cases s user idParam body with h | h
    · simp only [Call.run, h.2, hget]
    · obtain ⟨id', r', -, -, -, -, hget', hpend', -, -, hst⟩ := h
      have hne : r.id ≠ id' := by
        intro heq
        rw [getRequest_id hget] at heq
        subst heq
        rw [hget] at hget'
        cases hget'
        exact hterm hpend'
      rcases hst with ⟨st, h2⟩ | ⟨role, h2⟩
      · simp only [Call.run, h2, getRequest_setStatus, getRequest_insertApproval, hget,
          Option.map_some', if_neg hne]
      · simp only [Call.run, h2, getRequest_setRequiredRole, getRequest_insertApproval, hget,
          Option.map_some', if_neg hne]

/-- A request that is not pending is left as it is by every sequence of calls. -/
theorem runCalls_keeps_terminal (calls : List Call) (s : Store) (id : Int) (r : Request)
    (hget : getRequest s id = some r) (hterm : r.status ≠ Status.pending) :
    getRequest (runCalls s calls) id = some r := by
  induction calls generalizing s with
  | nil => exact hget
  | cons c cs ih =>
    exact ih (c.run s) (Call.run_keeps_terminal s c id r hget hterm)

/-- On an existing request, an action out of turn or on a request that is not
pending is answered 403 and changes nothing, whoever the user is. -/
theorem act_forbidden (s : Store) (user : AuthUser) (id : Int) (body : ActBody) (r : Request)
    (hid : id ≠ 0) (hact : body.action = "approved" ∨ body.action = "rejected")
    (hget : getRequest s id = some r)
    (h : r.required_role ≠ user.role ∨ r.status ≠ Status.pending) :
    (act s user (some id) body).1.Forbidden ∧ (act s user (some id) body).2 = s := by
  by_cases happ : user.role.isApprover = true
  · rw [act_not_your_turn s user id body r happ hid hact hget h]
    exact ⟨rfl, rfl⟩
  · rw [act_not_approver s user (some id) body (by simpa using happ)]
    exact ⟨rfl, rfl⟩

/-! ## The approval state machine -/

/-- C1: on a pending request, an approval by a user whose role is the required
role follows the transition table: team_lead with amount ≤ 99 approves,
team_lead with amount > 99 hands over to division_manager, division_manager
with amount ≤ 199 approves, division_manager with amount > 199 hands over to
sales_director, sales_director approves whatever the amount. (The id is not 0,
as every id the sequence gives.) -/
theorem act_approved_transition_table (s : Store) (user : AuthUser) (id : Int)
    (comment : Option String) (r : Request) (hid : id ≠ 0)
    (hget : getRequest s id = some r) (hpend : r.status = Status.pending)
    (hrole : user.role = r.required_role) :
    (r.required_role = Role.team_lead ∧ r.amount ≤ 99 →
      (act s user (some id) ⟨"approved", comment⟩).1 = Response.ok ∧
      requestState (act s user (some id) ⟨"approved", comment⟩).2 id
        = some (Status.approved, Role.team_lead)) ∧
    (r.required_role = Role.team_lead ∧ 99 < r.amount →
      (act s user (some id) ⟨"approved", comment⟩).1 = Response.ok ∧
      requestState (act s user (some id) ⟨"approved", comment⟩).2 id
        = some (Status.pending, Role.division_manager)) ∧
    (r.required_role = Role.division_manager ∧ r.amount ≤ 199 →
      (act s user (some id) ⟨"approved", comment⟩).1 = Response.ok ∧
      requestState (act s user (some id) ⟨"approved", comment⟩).2 id
        = some (Status.approved, Role.division_manager)) ∧
    (r.required_role = Role.division_manager ∧ 199 < r.amount →
      (act s user (some id) ⟨"approved", comment⟩).1 = Response.ok ∧
      requestState (act s user (some id) ⟨"approved", comment⟩).2 id
        = some (Status.pending, Role.sales_director)) ∧
    (r.required_role = Role.sales_director →
      (act s user (some id) ⟨"approved", comment⟩).1 = Response.ok ∧
      requestState (act s user (some id) ⟨"approved", comment⟩).2 id
        = some (Status.approved, Role.sales_director)) := by
  have hrid := getRequest_id hget
  refine ⟨?_, ?_, ?_, ?_, ?_⟩
  · rintro ⟨h1, h2⟩
    rw [act_approved_eq s user id comment r (by rw [hrole, h1]; rfl) hid hget hrole.symm hpend]
    simp [requestState, h1, h2, getRequest_setStatus, getRequest_insertApproval, hget, hrid]
  · rintro ⟨h1, h2⟩
    rw [act_approved_eq s user id comment r (by rw [hrole, h1]; rfl) hid hget hrole.symm hpend]
    simp [requestState, h1, not_le.mpr h2, getRequest_setRequiredRole,
      getRequest_insertApproval, hget, hrid, hpend]
  · rintro ⟨h1, h2⟩
    rw [act_approved_eq s user id comment r (by rw [hrole, h1]; rfl) hid hget hrole.symm hpend]
    simp [requestState, h1, h2, getRequest_setStatus, getRequest_insertApproval, hget, hrid]
  · rintro ⟨h1, h2⟩
    rw [act_approved_eq s user id comment r (by rw [hrole, h1]; rfl) hid hget hrole.symm hpend]
    simp [requestState, h1, not_le.mpr h2, getRequest_setRequiredRole,
      getRequest_insertApproval, hget, hrid, hpend]
  · intro h1
    rw [act_approved_eq s user id comment r (by rw [hrole, h1]; rfl) hid hget hrole.symm hpend]
    simp [requestState, h1, getRequest_setStatus, getRequest_insertApproval, hget, hrid]

/-- Witness of C1: a team lead approves a pending request of 250 that waits
for a team lead; it stays pending and waits for a division manager. -/
theorem act_approved_transition_table_witness :
    getRequest (exStore [exRequest 250 Role.team_lead]) 1
        = some (exRequest 250 Role.team_lead) ∧
      (act (exStore [exRequest 250 Role.team_lead]) exLead (some 1) ⟨"approved", none⟩).1
        = Response.ok ∧
      requestState
        (act (exStore [exRequest 250 Role.team_lead]) exLead (some 1) ⟨"approved", none⟩).2 1
        = some (Status.pending, Role.division_manager) :=
  ⟨rfl,
    (act_approved_transition_table (exStore [exRequest 250 Role.team_lead]) exLead 1 none
      (exRequest 250 Role.team_lead) (by decide) rfl rfl rfl).2.1
      ⟨rfl, by norm_num [exRequest]⟩⟩

/-- C2: on a pending request, a rejection by a user whose role is the required
role (one of the three approver roles) is answered ok, sets the status to
rejected, leaves the required role, appends exactly one record, with action
rejected, to the log, and the request is terminal: after any further calls of
the two handlers its state is the same and every action on it, approved or
rejected, by any user, is answered 403 and changes nothing. (The id is not 0,
as every id the sequence gives.) -/
theorem act_rejected_terminal (s : Store) (user : AuthUser) (id : Int)
    (comment : Option String) (r : Request) (hid : id ≠ 0)
    (hget : getRequest s id = some r) (hpend : r.status = Status.pending)
    (hrole : user.role = r.required_role) (happ : r.required_role.isApprover = true) :
    (act s user (some id) ⟨"rejected", comment⟩).1 = Response.ok ∧
    requestState (act s user (some id) ⟨"rejected", comment⟩).2 id
      = some (Status.rejected, r.required_role) ∧
    (act s user (some id) ⟨"rejected", comment⟩).2.approvals
      = s.approvals ++
          [{ request_id := id, approver_id := user.id, approver_role := user.role,
             action := "rejected", comment := commentOrNull comment }] ∧
    ∀ (calls : List Call) (user' : AuthUser) (body' : ActBody),
      body'.action = "approved" ∨ body'.action = "rejected" →
      requestState (runCalls (act s user (some id) ⟨"rejected", comment⟩).2 calls) id
        = some (Status.rejected, r.required_role) ∧
      (act (runCalls (act s user (some id) ⟨"rejected", comment⟩).2 calls) user' (some id)
        body').1.Forbidden ∧
      (act (runCalls (act s user (some id) ⟨"rejected", comment⟩).2 calls) user' (some id)
        body').2 = runCalls (act s user (some id) ⟨"rejected", comment⟩).2 calls := by
  have hrid := getRequest_id hget
  have hget' : getRequest (act s user (some id) ⟨"rejected", comment⟩).2 id
      = some { r with status := Status.rejected } := by
    rw [act_rejected_eq s user id comment r (by rw [hrole]; exact happ) hid hget hrole.symm
      hpend]
    simp [getRequest_setStatus, getRequest_insertApproval, hget, hrid]
  refine ⟨?_, ?_, ?_, ?_⟩
  · rw [act_rejected_eq s user id comment r (by rw [hrole]; exact happ) hid hget hrole.symm
      hpend]
  · simp [requestState, hget']
  · rw [act_rejected_eq s user id comment r (by rw [hrole]; exact happ) hid hget hrole.symm
      hpend]
    rfl
  · intro calls user' body' hact
    have hlater := runCalls_keeps_terminal calls _ id _ hget' (by simp)
    refine ⟨by simp [requestState, hlater], ?_⟩
    exact act_forbidden _ user' id body' _ hid hact hlater (Or.inr (by simp))

/-- Witness of C2: a division manager rejects a pending request of 150 that
waits for a division manager; a later approval by the same user is refused. -/
theorem act_rejected_terminal_witness :
    requestState
        (act (exStore [exRequest 150 Role.division_manager]) exManager (some 1)
          ⟨"rejected", some "no"⟩).2 1
      = some (Status.rejected, Role.division_manager) ∧
    (act (exStore [exRequest 150 Role.division_manager]) exManager (some 1)
          ⟨"rejected", some "no"⟩).2.approvals
      = [{ request_id := 1, approver_id := 9, approver_role := Role.division_manager,
           action := "rejected", comment := some "no" }] ∧
    (act (runCalls (act (exStore [exRequest 150 Role.division_manager]) exManager (some 1)
          ⟨"rejected", some "no"⟩).2 []) exManager (some 1) ⟨"approved", none⟩).1.Forbidden :=
  have h := act_rejected_terminal (exStore [exRequest 150 Role.division_manager]) exManager 1
    (some "no") (exRequest 150 Role.division_manager) (by decide) rfl rfl rfl rfl
  ⟨h.2.1, h.2.2.1, (h.2.2.2 [] exManager ⟨"approved", none⟩ (Or.inl rfl)).2.1⟩

/-- C3: on a pending request, an action (approved or rejected) by a user whose
role is not the required role is answered 403, and the store, so the status
and the required role of the request, stay as they were. (The id is not 0, as
every id the sequence gives.) -/
theorem act_wrong_role_forbidden (s : Store) (user : AuthUser) (id : Int) (body : ActBody)
    (r : Request) (hid : id ≠ 0)
    (hact : body.action = "approved" ∨ body.action = "rejected")
    (hget : getRequest s id = some r) (hpend : r.status = Status.pending)
    (hrole : user.role ≠ r.required_role) :
    (act s user (some id) body).1.Forbidden ∧
    (act s user (some id) body).2 = s ∧
    requestState (act s user (some id) body).2 id = some (Status.pending, r.required_role) := by
  have h := act_forbidden s user id body r hid hact hget (Or.inl (Ne.symm hrole))
  refine ⟨h.1, h.2, ?_⟩
  rw [h.2]
  simp [requestState, hget, hpend]

/-- Witness of C3: a division manager acts on a request that waits for a team
lead. -/
theorem act_wrong_role_forbidden_witness :
    (act (exStore [exRequest 50 Role.team_lead]) exManager (some 1)
        ⟨"approved", none⟩).1.Forbidden ∧
    (act (exStore [exRequest 50 Role.team_lead]) exManager (some 1) ⟨"approved", none⟩).2
      = exStore [exRequest 50 Role.team_lead] ∧
    requestState
        (act (exStore [exRequest 50 Role.team_lead]) exManager (some 1) ⟨"approved", none⟩).2 1
      = some (Status.pending, Role.team_lead) :=
  act_wrong_role_forbidden (exStore [exRequest 50 Role.team_lead]) exManager 1
    ⟨"approved", none⟩ (exRequest 50 Role.team_lead) (by decide) (Or.inl rfl) rfl rfl
    (by decide)

/-- C4: on a request whose status is approved or rejected, every action
(approved or rejected) by every user is answered 403, and the store, so the
status and the required role of the request, stay as they were. (The id is
not 0, as every id the sequence gives.) -/
theorem act_terminal_forbidden (s : Store) (user : AuthUser) (id : Int) (body : ActBody)
    (r : Request) (hid : id ≠ 0)
    (hact : body.action = "approved" ∨ body.action = "rejected")
    (hget : getRequest s id = some r)
    (hterm : r.status = Status.approved ∨ r.status = Status.rejected) :
    (act s user (some id) body).1.Forbidden ∧
    (act s user (some id) body).2 = s ∧
    requestState (act s user (some id) body).2 id = some (r.status, r.required_role) := by
  have hnp : r.status ≠ Status.pending := by
    rcases hterm with h | h <;> rw [h] <;> decide
  have h := act_forbidden s user id body r hid hact hget (Or.inr hnp)
  refine ⟨h.1, h.2, ?_⟩
  rw [h.2]
  simp [requestState, hget]

/-- Witness of C4: a sales director acts on a request already approved. -/
theorem act_terminal_forbidden_witness :
    (act (exStore [{ exRequest 250 Role.sales_director with status := Status.approved }])
        exDirector (some 1) ⟨"rejected", none⟩).1.Forbidden ∧
    (act (exStore [{ exRequest 250 Role.sales_director with status := Status.approved }])
        exDirector (some 1) ⟨"rejected", none⟩).2
      = exStore [{ exRequest 250 Role.sales_director with status := Status.approved }] ∧
    requestState
        (act (exStore [{ exRequest 250 Role.sales_director with status := Status.approved }])
          exDirector (some 1) ⟨"rejected", none⟩).2 1
      = some (Status.approved, Role.sales_director) :=
  act_terminal_forbidden
    (exStore [{ exRequest 250 Role.sales_director with status := Status.approved }])
    exDirector 1 ⟨"rejected", none⟩
    { exRequest 250 Role.sales_director with status := Status.approved }
    (by decide) (Or.inr rfl) rfl (Or.inl rfl)

/-! ## The threshold policy -/

theorem requiredRoleForAmount_eq_roleForAmount (a : ℚ) :
    requiredRoleForAmount a = roleForAmount a := by
  unfold requiredRoleForAmount roleForAmount
  by_cases h1 : a ≤ 99
  · simp [h1]
  · by_cases h2 : a ≤ 199
    · simp [h1, h2, not_le.mp h1]
    · simp [h1, h2]

/-- C5: the threshold policy, the client's `roleForAmount` and the server's
`requiredRoleForAmount` alike, gives team_lead for an amount a ≤ 99,
division_manager for 99 < a ≤ 199 and sales_director for a > 199, for every
amount a (non-negative or not); 99.00 gives team_lead, 99.01 division_manager,
199.00 division_manager and 199.01 sales_director. -/
theorem threshold_policy_bands :
    (∀ a : ℚ,
      (a ≤ 99 → roleForAmount a = Role.team_lead ∧
        requiredRoleForAmount a = Role.team_lead) ∧
      (99 < a ∧ a ≤ 199 → roleForAmount a = Role.division_manager ∧
        requiredRoleForAmount a = Role.division_manager) ∧
      (199 < a → roleForAmount a = Role.sales_director ∧
        requiredRoleForAmount a = Role.sales_director)) ∧
    (roleForAmount 99.00 = Role.team_lead ∧
      roleForAmount 99.01 = Role.division_manager ∧
      roleForAmount 199.00 = Role.division_manager ∧
      roleForAmount 199.01 = Role.sales_director) ∧
    (requiredRoleForAmount 99.00 = Role.team_lead ∧
      requiredRoleForAmount 99.01 = Role.division_manager ∧
      requiredRoleForAmount 199.00 = Role.division_manager ∧
      requiredRoleForAmount 199.01 = Role.sales_director) := by
  refine ⟨fun a => ⟨?_, ?_, ?_⟩, ?_, ?_⟩
  · intro h
    rw [requiredRoleForAmount_eq_roleForAmount]
    simp [roleForAmount, h]
  · rintro ⟨h1, h2⟩
    rw [requiredRoleForAmount_eq_roleForAmount]
    simp [roleForAmount, not_le.mpr h1, h2]
  · intro h
    rw [requiredRoleForAmount_eq_roleForAmount]
    have h1 : ¬ a ≤ 99 := by linarith
    simp [roleForAmount, h1, not_le.mpr h]
  · refine ⟨?_, ?_, ?_, ?_⟩ <;> norm_num [roleForAmount]
  · simp only [requiredRoleForAmount_eq_roleForAmount]
    refine ⟨?_, ?_, ?_, ?_⟩ <;> norm_num [roleForAmount]

theorem roleForAmount_notLaterThan (a b : ℚ) (hab : a ≤ b) :
    (roleForAmount a).notLaterThan (roleForAmount b) = true := by
  unfold roleForAmount
  by_cases hb1 : b ≤ 99
  · have ha1 : a ≤ 99 := le_trans hab hb1
    simp [ha1, hb1, Role.notLaterThan, escalationRank]
  · by_cases hb2 : b ≤ 199
    · have ha2 : a ≤ 199 := le_trans hab hb2
      by_cases ha1 : a ≤ 99 <;> simp [ha1, ha2, hb1, hb2, Role.notLaterThan, escalationRank]
    · by_cases ha1 : a ≤ 99
      · simp [ha1, hb1, hb2, Role.notLaterThan, escalationRank]
      · by_cases ha2 : a ≤ 199 <;>
          simp [ha1, ha2, hb1, hb2, Role.notLaterThan, escalationRank]

/-- C6: the threshold policy, `roleForAmount` and `requiredRoleForAmount`
alike, is monotonic in the escalation order team_lead, division_manager,
sales_director: for amounts a ≤ b the role for a is not later than the role
for b. -/
theorem threshold_policy_monotone (a b : ℚ) (hab : a ≤ b) :
    (roleForAmount a).notLaterThan (roleForAmount b) = true ∧
    (requiredRoleForAmount a).notLaterThan (requiredRoleForAmount b) = true := by
  simp only [requiredRoleForAmount_eq_roleForAmount]
  exact ⟨roleForAmount_notLaterThan a b hab, roleForAmount_notLaterThan a b hab⟩

/-- Witness of C6: the amounts 99.00 and 99.01. -/
theorem threshold_policy_monotone_witness :
    (99.00 : ℚ) ≤ 99.01 ∧
    (roleForAmount 99.00).notLaterThan (roleForAmount 99.01) = true ∧
    (requiredRoleForAmount 99.00).notLaterThan (requiredRoleForAmount 99.01) = true :=
  ⟨by norm_num, threshold_policy_monotone 99.00 99.01 (by norm_num)⟩

/-! ## Creation -/

theorem numOr_some_zero (x : ℚ) : numOr (some x) 0 = x := by
  unfold numOr
  by_cases h : x = 0 <;> simp [h]

theorem foldl_line_amounts (l : List NormalizedItem) (init : ℚ) :
    l.foldl (fun acc it => acc + numOr (some it.line_amount) 0) init
      = init + (l.map (fun it => it.line_amount)).sum := by
  induction l generalizing init with
  | nil => simp
  | cons x xs ih =>
    rw [List.foldl_cons, ih, List.map_cons, List.sum_cons, numOr_some_zero]
    ring

/-- For list input the total is the sum of the line amounts. -/
theorem totalAmount_items (s : Store) (body : CreateBody) (h : body.items ≠ []) :
    totalAmount s body = ((normalizedItems s body.items).map (fun it => it.line_amount)).sum := by
  have hlen : body.items.length > 0 := List.length_pos.mpr h
  simp only [totalAmount, hlen, if_true, foldl_line_amounts, zero_add]

/-- For legacy input with an amount the total is that amount. -/
theorem totalAmount_legacy (s : Store) (body : CreateBody) (a : ℚ) (h : body.items = [])
    (ha : body.amount = some a) : totalAmount s body = a := by
  simp only [totalAmount, h, ha, List.length_nil, gt_iff_lt, lt_self_iff_false, if_false]
  unfold numOr
  by_cases h0 : a = 0 <;> simp [h0]

/-! ## Approvals in turn, step by step -/

/-- An approval in turn answers ok, appends its record and leaves `approvedRow`
in place of the row. -/
theorem approve_in_turn (s : Store) (user : AuthUser) (id : Int) (comment : Option String)
    (r : Request) (hid : id ≠ 0) (hget : getRequest s id = some r)
    (hpend : r.status = Status.pending) (hrole : user.role = r.required_role)
    (happ : r.required_role.isApprover = true) :
    (approve s user id comment).1 = Response.ok ∧
    getRequest (approve s user id comment).2 id = some (approvedRow r) ∧
    (approve s user id comment).2.approvals
      = s.approvals ++ [actRecord user id ⟨"approved", comment⟩] := by
  have hrid := getRequest_id hget
  unfold approve
  rw [act_approved_eq s user id comment r (by rw [hrole]; exact happ) hid hget hrole.symm hpend]
  refine ⟨rfl, ?_, ?_⟩
  · unfold approvedRow
    dsimp only
    split_ifs <;>
      simp [getRequest_setStatus, getRequest_setRequiredRole, getRequest_insertApproval, hget,
        hrid]
  · dsimp only
    split_ifs <;> rfl

/-- The row a create call appends is the one found under its id, when the ids
of the store come from the sequence. -/
theorem getRequest_append_new {s s' : Store} (row : Request)
    (hreq : s'.requests = s.requests ++ [row]) (hfresh : ∀ r ∈ s.requests, r.id ≠ row.id) :
    getRequest s' row.id = some row := by
  unfold getRequest
  rw [hreq, List.find?_append]
  have hnone : s.requests.find? (fun r => decide (r.id = row.id)) = none := by
    rw [List.find?_eq_none]
    intro r hr
    simpa using hfresh r hr
  rw [hnone]
  simp

/-- Calls keep the ids of `requests` positive and below the sequence. -/
theorem Call.run_seqFresh (s : Store) (c : Call) (h : s.SeqFresh) : (c.run s).SeqFresh := by
  cases c with
  | create user body =>
    rcases createRequestWith_cases requiredRoleForAmount s user body with hc | hc
    · simp only [Call.run, createRequest, hc.2]
      exact h
    · obtain ⟨b, me, -, -, -, -, hreq, -, -, -, hseq⟩ := hc
      refine ⟨?_, ?_⟩
      · show 0 < (createRequestWith requiredRoleForAmount s user body).2.requests_id_seq
        rw [hseq]
        linarith [h.1]
      · intro r hr
        change r ∈ (createRequestWith requiredRoleForAmount s user body).2.requests at hr
        show 0 < r.id ∧
          r.id < (createRequestWith requiredRoleForAmount s user body).2.requests_id_seq
        rw [hseq]
        rw [hreq, List.mem_append, List.mem_singleton] at hr
        rcases hr with hr | hr
        · have := h.2 r hr
          exact ⟨this.1, by linarith [this.2]⟩
        · subst hr
          exact ⟨h.1, by show s.requests_id_seq < s.requests_id_seq + 1; linarith⟩
  | act user idParam body =>
    rcases act_cases s user idParam body with ha | ha
    · simp only [Call.run, ha.2]
      exact h
    · obtain ⟨id', r', -, -, -, -, -, -, -, -, hst⟩ := ha
      rcases hst with ⟨st, h2⟩ | ⟨role, h2⟩
      · simp only [Call.run, h2]
        refine ⟨h.1, ?_⟩
        intro r hr
        simp only [setStatus, insertApproval, List.mem_map] at hr
        obtain ⟨r0, hr0, rfl⟩ := hr
        have := h.2 r0 hr0
        split_ifs <;> exact this
      · simp only [Call.run, h2]
        refine ⟨h.1, ?_⟩
        intro r hr
        simp only [setRequiredRole, insertApproval, List.mem_map] at hr
        obtain ⟨r0, hr0, rfl⟩ := hr
        have := h.2 r0 hr0
        split_ifs <;> exact this

/-- Sequences of calls keep the ids of `requests` positive and below the sequence. -/
theorem runCalls_seqFresh (calls : List Call) (s : Store) (h : s.SeqFresh) :
    (runCalls s calls).SeqFresh := by
  induction calls generalizing s with
  | nil => exact h
  | cons c cs ih => exact ih (c.run s) (Call.run_seqFresh s c h)

/-! ## The escalation sequence for 250.00 -/

/-- C8, counterexample: a legacy submission of 250.00 in the empty example
store is stored with id 1, pending, and required role sales_director, not
team_lead; an approval by a team lead is then answered 403 and nothing is
logged. -/
theorem escalation_sequence_250_counterexample :
    (createRequest exEmptyStore exAgent exBody250).1 = Response.created 1 ∧
    requestState (createRequest exEmptyStore exAgent exBody250).2 1
      = some (Status.pending, Role.sales_director) ∧
    requestState (createRequest exEmptyStore exAgent exBody250).2 1
      ≠ some (Status.pending, Role.team_lead) ∧
    (approve (createRequest exEmptyStore exAgent exBody250).2 exLead 1 none).1
      = Response.error 403 "Not your turn" ∧
    (approve (createRequest exEmptyStore exAgent exBody250).2 exLead 1 none).2.approvals
      = [] := by
  refine ⟨rfl, rfl, ?_, rfl, rfl⟩
  decide

/-- C8, amended: a request created with a total of 250.00 is pending with
required role sales_director, and one approval by a sales director approves it
and logs exactly one record. A pending request of 250.00 whose required role
is team_lead goes, by the approvals of a team lead, a division manager and a
sales director in that order, to division_manager (pending), sales_director
(pending) and approved, and exactly these three records are logged, in that
order. -/
theorem escalation_sequence_250 :
    (∀ (s : Store) (user : AuthUser) (body : CreateBody) (id : Int) (director : AuthUser)
        (comment : Option String),
      s.SeqFresh → (createRequest s user body).1 = Response.created id →
      totalAmount s body = 250 → director.role = Role.sales_director →
      requestState (createRequest s user body).2 id
        = some (Status.pending, Role.sales_director) ∧
      (approve (createRequest s user body).2 director id comment).1 = Response.ok ∧
      requestState (approve (createRequest s user body).2 director id comment).2 id
        = some (Status.approved, Role.sales_director) ∧
      (approve (createRequest s user body).2 director id comment).2.approvals
        = s.approvals ++ [actRecord director id ⟨"approved", comment⟩]) ∧
    (∀ (s : Store) (id : Int) (r : Request) (lead manager director : AuthUser)
        (c1 c2 c3 : Option String),
      id ≠ 0 → getRequest s id = some r → r.amount = 250 → r.status = Status.pending →
      r.required_role = Role.team_lead → lead.role = Role.team_lead →
      manager.role = Role.division_manager → director.role = Role.sales_director →
      (approve s lead id c1).1 = Response.ok ∧
      requestState (approve s lead id c1).2 id
        = some (Status.pending, Role.division_manager) ∧
      (approve (approve s lead id c1).2 manager id c2).1 = Response.ok ∧
      requestState (approve (approve s lead id c1).2 manager id c2).2 id
        = some (Status.pending, Role.sales_director) ∧
      (approve (approve (approve s lead id c1).2 manager id c2).2 director id c3).1
        = Response.ok ∧
      requestState (approve (approve (approve s lead id c1).2 manager id c2).2 director id c3).2
          id
        = some (Status.approved, Role.sales_director) ∧
      (approve (approve (approve s lead id c1).2 manager id c2).2 director id c3).2.approvals
        = s.approvals ++
            [actRecord lead id ⟨"approved", c1⟩, actRecord manager id ⟨"approved", c2⟩,
             actRecord director id ⟨"approved", c3⟩]) := by
  constructor
  · intro s user body id director comment hfresh hcreated htotal hdir
    rcases createRequestWith_cases requiredRoleForAmount s user body with hc | hc
    · exact absurd hcreated (hc.1 id)
    · obtain ⟨b, me, -, -, -, hres, hreq, happr, -⟩ := hc
      have hid : id = s.requests_id_seq := by
        have h := hcreated
        unfold createRequest at h
        rw [hres] at h
        cases h
        rfl
      have hrowid : (insertedRequest requiredRoleForAmount s user body b me.division_id).id
          = id := hid.symm
      have hget : getRequest (createRequest s user body).2 id
          = some (insertedRequest requiredRoleForAmount s user body b me.division_id) := by
        rw [← hrowid]
        apply getRequest_append_new _ hreq
        intro r hr
        have := (hfresh.2 r hr).2
        show r.id ≠ s.requests_id_seq
        exact ne_of_lt this
      have hrole : (insertedRequest requiredRoleForAmount s user body b me.division_id).required_role
          = Role.sales_director := by
        show requiredRoleForAmount (totalAmount s body) = Role.sales_director
        rw [htotal]
        norm_num [requiredRoleForAmount]
      have hid0 : id ≠ 0 := by
        rw [hid]
        exact ne_of_gt hfresh.1
      have hstep := approve_in_turn (createRequest s user body).2 director id comment _ hid0
        hget rfl (by rw [hdir, hrole]) (by rw [hrole]; rfl)
      refine ⟨?_, hstep.1, ?_, ?_⟩
      · simp only [requestState, hget, Option.map_some', hrole]
        rfl
      · simp only [requestState, hstep.2.1, Option.map_some']
        simp [approvedRow, hrole]
      · rw [hstep.2.2]
        unfold createRequest
        rw [happr]
  · intro s id r lead manager director c1 c2 c3 hid hget hamt hpend hrole hlead hman hdir
    have h1 := approve_in_turn s lead id c1 r hid hget hpend (by rw [hlead, hrole])
      (by rw [hrole]; rfl)
    have hr1 : approvedRow r = { r with required_role := Role.division_manager } := by
      simp [approvedRow, hrole, hamt]
      norm_num
    rw [hr1] at h1
    have h2 := approve_in_turn (approve s lead id c1).2 manager id c2 _ hid h1.2.1 hpend
      (by rw [hman]) rfl
    have hr2 : approvedRow { r with required_role := Role.division_manager }
        = { r with required_role := Role.sales_director } := by
      simp [approvedRow, hamt]
      norm_num
    rw [hr2] at h2
    have h3 := approve_in_turn (approve (approve s lead id c1).2 manager id c2).2 director id c3
      _ hid h2.2.1 hpend (by rw [hdir]) rfl
    have hr3 : approvedRow { r with required_role := Role.sales_director }
        = { r with required_role := Role.sales_director, status := Status.approved } := by
      simp [approvedRow]
    rw [hr3] at h3
    refine ⟨h1.1, ?_, h2.1, ?_, h3.1, ?_, ?_⟩
    · simp [requestState, h1.2.1, hpend]
    · simp [requestState, h2.2.1, hpend]
    · simp [requestState, h3.2.1]
    · rw [h3.2.2, h2.2.2, h1.2.2]
      simp

/-- Witness of C8, amended: the created request of 250.00 of the example is
approved by one sales director; the request of 250.00 that waits for a team
lead is approved after three approvals, logged in order. -/
theorem escalation_sequence_250_witness :
    requestState
        (approve (createRequest exEmptyStore exAgent exBody250).2 exDirector 1 none).2 1
      = some (Status.approved, Role.sales_director) ∧
    requestState
        (approve (approve (approve (exStore [exRequest 250 Role.team_lead]) exLead 1 none).2
          exManager 1 none).2 exDirector 1 none).2 1
      = some (Status.approved, Role.sales_director) ∧
    (approve (approve (approve (exStore [exRequest 250 Role.team_lead]) exLead 1 none).2
          exManager 1 none).2 exDirector 1 none).2.approvals
      = (exStore [exRequest 250 Role.team_lead]).approvals ++
          [actRecord exLead 1 ⟨"approved", none⟩, actRecord exManager 1 ⟨"approved", none⟩,
           actRecord exDirector 1 ⟨"approved", none⟩] :=
  have hA := escalation_sequence_250.1 exEmptyStore exAgent exBody250 1 exDirector none
    ⟨by decide, by simp [exEmptyStore, exStore]⟩ rfl rfl rfl
  have hB := escalation_sequence_250.2 (exStore [exRequest 250 Role.team_lead]) 1
    (exRequest 250 Role.team_lead) exLead exManager exDirector none none none
    (by decide) rfl rfl rfl rfl rfl rfl rfl
  ⟨hA.2.2.1, hB.2.2.2.2.2.1, hB.2.2.2.2.2.2⟩

/-! ## Escalation and the threshold policy -/

/-- The row an approval leaves is approved exactly when the threshold role of
its amount is not later than its required role; otherwise it is handed to the
successor. -/
theorem approvedRow_policy (r : Request) (happ : r.required_role.isApprover = true) :
    ((roleForAmount r.amount).notLaterThan r.required_role = true →
      approvedRow r = { r with status := Status.approved }) ∧
    ((roleForAmount r.amount).notLaterThan r.required_role = false →
      ∃ next, r.required_role.successor = some next ∧
        approvedRow r = { r with required_role := next }) := by
  obtain ⟨id, ag, dv, by_, si, ar, qu, amount, inv, re, role, st⟩ := r
  simp only at happ ⊢
  cases role
  · exact absurd happ (by decide)
  · by_cases h1 : amount ≤ 99
    · simp [approvedRow, roleForAmount, h1, Role.notLaterThan, escalationRank]
    · by_cases h2 : amount ≤ 199 <;>
        simp [approvedRow, roleForAmount, h1, h2, Role.notLaterThan, escalationRank,
          Role.successor]
  · by_cases h1 : amount ≤ 99
    · have h2 : amount ≤ 199 := by linarith
      simp [approvedRow, roleForAmount, h1, h2, Role.notLaterThan, escalationRank]
    · by_cases h2 : amount ≤ 199 <;>
        simp [approvedRow, roleForAmount, h1, h2, Role.notLaterThan, escalationRank,
          Role.successor]
  · by_cases h1 : amount ≤ 99
    · simp [approvedRow, roleForAmount, h1, Role.notLaterThan, escalationRank]
    · by_cases h2 : amount ≤ 199 <;>
        simp [approvedRow, roleForAmount, h1, h2, Role.notLaterThan, escalationRank]
  · exact absurd happ (by decide)

/-- C9: escalation re-checks the bands of the threshold policy. On a pending
request of amount a and required role r, one of the three approver roles, an
approval in turn is answered ok; it sets the status to approved, r unchanged,
if and only if the threshold role of a (`requiredRoleForAmount`, and equally
the client's `roleForAmount`) is not later than r in the escalation order,
and otherwise leaves the request pending with the immediate successor of r as
required role. (The id is not 0, as every id the sequence gives.) -/
theorem escalation_matches_threshold_policy (s : Store) (user : AuthUser) (id : Int)
    (comment : Option String) (r : Request) (hid : id ≠ 0)
    (hget : getRequest s id = some r) (hpend : r.status = Status.pending)
    (hrole : user.role = r.required_role) (happ : r.required_role.isApprover = true) :
    (act s user (some id) ⟨"approved", comment⟩).1 = Response.ok ∧
    ((∃ role, requestState (act s user (some id) ⟨"approved", comment⟩).2 id
          = some (Status.approved, role)) ↔
      (requiredRoleForAmount r.amount).notLaterThan r.required_role = true) ∧
    ((requiredRoleForAmount r.amount).notLaterThan r.required_role = true →
      requestState (act s user (some id) ⟨"approved", comment⟩).2 id
        = some (Status.approved, r.required_role)) ∧
    ((requiredRoleForAmount r.amount).notLaterThan r.required_role = false →
      ∃ next, r.required_role.successor = some next ∧
        requestState (act s user (some id) ⟨"approved", comment⟩).2 id
          = some (Status.pending, next)) ∧
    roleForAmount r.amount = requiredRoleForAmount r.amount := by
  have hstep := approve_in_turn s user id comment r hid hget hpend hrole happ
  unfold approve at hstep
  have hpol := approvedRow_policy r happ
  rw [requiredRoleForAmount_eq_roleForAmount]
  have hyes : (roleForAmount r.amount).notLaterThan r.required_role = true →
      requestState (act s user (some id) ⟨"approved", comment⟩).2 id
        = some (Status.approved, r.required_role) := by
    intro h
    simp only [requestState, hstep.2.1, hpol.1 h, Option.map_some']
  have hno : (roleForAmount r.amount).notLaterThan r.required_role = false →
      ∃ next, r.required_role.successor = some next ∧
        requestState (act s user (some id) ⟨"approved", comment⟩).2 id
          = some (Status.pending, next) := by
    intro h
    obtain ⟨next, hnext, hrow⟩ := hpol.2 h
    refine ⟨next, hnext, ?_⟩
    simp only [requestState, hstep.2.1, hrow, Option.map_some', hpend]
  refine ⟨hstep.1, ⟨?_, fun h => ⟨_, hyes h⟩⟩, hyes, hno, rfl⟩
  rintro ⟨role, hstate⟩
  by_contra hnot
  obtain ⟨next, -, hpending⟩ := hno (by simpa using hnot)
  rw [hpending] at hstate
  cases hstate

/-- Witness of C9: a division manager approves a pending request of 199.01
that waits for a division manager; the threshold role of 199.01 is
sales_director, later than division_manager, and the request is handed over. -/
theorem escalation_matches_threshold_policy_witness :
    (requiredRoleForAmount 199.01).notLaterThan Role.division_manager = false ∧
    requestState
        (act (exStore [exRequest 199.01 Role.division_manager]) exManager (some 1)
          ⟨"approved", none⟩).2 1
      = some (Status.pending, Role.sales_director) :=
  have h := escalation_matches_threshold_policy (exStore [exRequest 199.01 Role.division_manager])
    exManager 1 none (exRequest 199.01 Role.division_manager) (by decide) rfl rfl rfl rfl
  have hlate : (requiredRoleForAmount (exRequest 199.01 Role.division_manager).amount).notLaterThan
      (exRequest 199.01 Role.division_manager).required_role = false := by
    norm_num [requiredRoleForAmount, exRequest, Role.notLaterThan, escalationRank]
  ⟨hlate, by
    obtain ⟨next, hnext, hstate⟩ := h.2.2.2.1 hlate
    cases hnext
    exact hstate⟩

/-! ## The approval log -/

/-- C10, counterexample: a team lead approves, in turn, with the empty comment
the client sends; the record appended carries no comment (null), not the empty
comment of the call. -/
theorem act_log_record_counterexample :
    (act (exStore [exRequest 50 Role.team_lead]) exLead (some 1) ⟨"approved", some ""⟩).1
      = Response.ok ∧
    (act (exStore [exRequest 50 Role.team_lead]) exLead (some 1)
        ⟨"approved", some ""⟩).2.approvals
      = [{ request_id := 1, approver_id := 8, approver_role := Role.team_lead,
           action := "approved", comment := none }] ∧
    (act (exStore [exRequest 50 Role.team_lead]) exLead (some 1)
        ⟨"approved", some ""⟩).2.approvals
      ≠ [{ request_id := 1, approver_id := 8, approver_role := Role.team_lead,
           action := "approved", comment := some "" }] := by
  refine ⟨rfl, rfl, ?_⟩
  decide

/-- C10, amended: every call of `act` that is answered ok appends exactly one
record to `approvals`, so to the log of the request, after the records already
there: it carries the id and the role of the user, the action, which is
approved or rejected, and the comment, where an empty comment is stored as
null. Every call answered otherwise (403, 404, 400) leaves the store, so the
log, as it was. -/
theorem act_log_append (s : Store) (user : AuthUser) (idParam : Option Int) (body : ActBody) :
    ((act s user idParam body).1 = Response.ok →
      ∃ id, idParam = some id ∧
        (body.action = "approved" ∨ body.action = "rejected") ∧
        (act s user idParam body).2.approvals
          = s.approvals ++
              [{ request_id := id, approver_id := user.id, approver_role := user.role,
                 action := body.action, comment := commentOrNull body.comment }] ∧
        approvalLog (act s user idParam body).2 id
          = approvalLog s id ++
              [{ request_id := id, approver_id := user.id, approver_role := user.role,
                 action := body.action, comment := commentOrNull body.comment }]) ∧
    ((act s user idParam body).1 ≠ Response.ok →
      (act s user idParam body).2 = s ∧
      (act s user idParam body).2.approvals = s.approvals) := by
  rcases act_cases s user idParam body with h | h
  · refine ⟨fun hok => absurd hok h.1, fun _ => ⟨h.2, by rw [h.2]⟩⟩
  · obtain ⟨id, r, hparam, -, hact, -, -, -, -, hok, hst⟩ := h
    have happr : (act s user idParam body).2.approvals
        = s.approvals ++ [actRecord user id body] := by
      rcases hst with ⟨st, h2⟩ | ⟨role, h2⟩ <;> rw [h2] <;> rfl
    refine ⟨fun _ => ⟨id, hparam, hact, happr, ?_⟩, fun hne => absurd hok hne⟩
    unfold approvalLog
    rw [happr, List.filter_append]
    simp [actRecord]

/-- Witness of C10, amended: a team lead approves in turn with a comment; a
division manager, out of turn, logs nothing. -/
theorem act_log_append_witness :
    (act (exStore [exRequest 50 Role.team_lead]) exLead (some 1)
        ⟨"approved", some "fine"⟩).2.approvals
      = [{ request_id := 1, approver_id := 8, approver_role := Role.team_lead,
           action := "approved", comment := some "fine" }] ∧
    (act (exStore [exRequest 50 Role.team_lead]) exManager (some 1)
        ⟨"approved", some "fine"⟩).2.approvals = [] :=
  ⟨by
    obtain ⟨id, hid, -, h, -⟩ :=
      (act_log_append (exStore [exRequest 50 Role.team_lead]) exLead (some 1)
        ⟨"approved", some "fine"⟩).1 rfl
    cases hid
    exact h,
   ((act_log_append (exStore [exRequest 50 Role.team_lead]) exManager (some 1)
        ⟨"approved", some "fine"⟩).2 (by decide)).2⟩

/-! ## What a call of `act` does to a row -/

/-- A row found before a call of `act` is found after it, and is the same
row, or the row with status rejected, or `approvedRow` of it; it changes only
when it is pending and the user holds its required role, an approver role. -/
theorem act_row_cases (s : Store) (user : AuthUser) (idParam : Option Int) (body : ActBody)
    (id' : Int) (r : Request) (hget : getRequest s id' = some r) :
    getRequest (act s user idParam body).2 id' = some r ∨
    (r.status = Status.pending ∧ user.role = r.required_role ∧
      r.required_role.isApprover = true ∧ (act s user idParam body).1 = Response.ok ∧
      (getRequest (act s user idParam body).2 id' = some { r with status := Status.rejected } ∨
       getRequest (act s user idParam body).2 id' = some (approvedRow r))) := by
  have hrid := getRequest_id hget
  rcases act_cases s user idParam body with h | h
  · left
    rw [h.2, hget]
  · obtain ⟨id, r0, hparam, hid, hact, happ, hget0, hpend0, hrole0, hok, hst⟩ := h
    by_cases hne : id' = id
    · subst hne
      rw [hget] at hget0
      cases hget0
      right
      refine ⟨hpend0, hrole0.symm, by rw [hrole0]; exact happ, hok, ?_⟩
      subst hparam
      obtain ⟨action, comment⟩ := body
      rcases hact with ha | ha
      · right
        simp only at ha
        subst ha
        exact (approve_in_turn s user id' comment r hid hget hpend0 hrole0.symm
          (by rw [hrole0]; exact happ)).2.1
      · left
        simp only at ha
        subst ha
        rw [act_rejected_eq s user id' comment r happ hid hget hrole0 hpend0]
        simp [getRequest_setStatus, getRequest_insertApproval, hget, hrid]
    · left
      have hne' : r.id ≠ id := by rw [hrid]; exact hne
      rcases hst with ⟨st, h2⟩ | ⟨role, h2⟩
      · simp only [h2, getRequest_setStatus, getRequest_insertApproval, hget,
          Option.map_some', if_neg hne']
      · simp only [h2, getRequest_setRequiredRole, getRequest_insertApproval, hget,
          Option.map_some', if_neg hne']

/-- The required role of `approvedRow` is the required role of the row or a
later one. -/
theorem approvedRow_required_role (r : Request) (happ : r.required_role.isApprover = true) :
    r.required_role.notLaterThan (approvedRow r).required_role = true := by
  obtain ⟨id, ag, dv, by_, si, ar, qu, amount, inv, re, role, st⟩ := r
  simp only at happ ⊢
  cases role
  · exact absurd happ (by decide)
  · by_cases h1 : amount ≤ 99 <;> simp [approvedRow, h1, Role.notLaterThan, escalationRank]
  · by_cases h2 : amount ≤ 199 <;> simp [approvedRow, h2, Role.notLaterThan, escalationRank]
  · simp [approvedRow, Role.notLaterThan, escalationRank]
  · exact absurd happ (by decide)

/-- `approvedRow` changes only the status and the required role. -/
theorem approvedRow_frame (r : Request) :
    ∃ st role, approvedRow r = { r with status := st, required_role := role } := by
  unfold approvedRow
  split_ifs
  · exact ⟨Status.approved, r.required_role, rfl⟩
  · exact ⟨r.status, Role.division_manager, rfl⟩
  · exact ⟨Status.approved, r.required_role, rfl⟩
  · exact ⟨r.status, Role.sales_director, rfl⟩
  · exact ⟨Status.approved, r.required_role, rfl⟩

/-- C11: the required role never regresses. For every request of the store
and every call of `act`, answered ok or not, on that request or on another,
the request is still there after the call and its required role is the one
before the call or a later one in the escalation order team_lead,
division_manager, sales_director. -/
theorem act_required_role_never_regresses (s : Store) (user : AuthUser)
    (idParam : Option Int) (body : ActBody) (id : Int) (r : Request)
    (hget : getRequest s id = some r) :
    ∃ r', getRequest (act s user idParam body).2 id = some r' ∧
      (r'.required_role = r.required_role ∨
        (r.required_role.notLaterThan r'.required_role = true ∧
          r'.required_role ≠ r.required_role)) := by
  rcases act_row_cases s user idParam body id r hget with h | ⟨-, -, happ, -, h | h⟩
  · exact ⟨r, h, Or.inl rfl⟩
  · exact ⟨_, h, Or.inl rfl⟩
  · refine ⟨_, h, ?_⟩
    by_cases heq : (approvedRow r).required_role = r.required_role
    · exact Or.inl heq
    · exact Or.inr ⟨approvedRow_required_role r happ, heq⟩

/-- Witness of C11: a team lead approves a pending request of 150 that waits
for a team lead; it now waits for a division manager, a later role. -/
theorem act_required_role_never_regresses_witness :
    ∃ r', getRequest
        (act (exStore [exRequest 150 Role.team_lead]) exLead (some 1) ⟨"approved", none⟩).2 1
        = some r' ∧
      (r'.required_role = (exRequest 150 Role.team_lead).required_role ∨
        ((exRequest 150 Role.team_lead).required_role.notLaterThan r'.required_role = true ∧
          r'.required_role ≠ (exRequest 150 Role.team_lead).required_role)) :=
  act_required_role_never_regresses (exStore [exRequest 150 Role.team_lead]) exLead (some 1)
    ⟨"approved", none⟩ 1 (exRequest 150 Role.team_lead) rfl

/-- C12: a call of `act` changes no field of a request other than status and
required role. For every request of the store and every call of `act`, the
request is still there after the call, with the same id, agent_id,
division_id, buyer_id, site_id, article_id, quantity, amount, invoice_ref and
reason. -/
theorem act_frame (s : Store) (user : AuthUser) (idParam : Option Int) (body : ActBody)
    (id : Int) (r : Request) (hget : getRequest s id = some r) :
    ∃ r', getRequest (act s user idParam body).2 id = some r' ∧
      r'.id = r.id ∧ r'.agent_id = r.agent_id ∧ r'.division_id = r.division_id ∧
      r'.buyer_id = r.buyer_id ∧ r'.site_id = r.site_id ∧ r'.article_id = r.article_id ∧
      r'.quantity = r.quantity ∧ r'.amount = r.amount ∧ r'.invoice_ref = r.invoice_ref ∧
      r'.reason = r.reason := by
  rcases act_row_cases s user idParam body id r hget with h | ⟨-, -, -, -, h | h⟩
  · exact ⟨r, h, rfl, rfl, rfl, rfl, rfl, rfl, rfl, rfl, rfl, rfl⟩
  · exact ⟨_, h, rfl, rfl, rfl, rfl, rfl, rfl, rfl, rfl, rfl, rfl⟩
  · obtain ⟨st, role, hrow⟩ := approvedRow_frame r
    rw [hrow] at h
    exact ⟨_, h, rfl, rfl, rfl, rfl, rfl, rfl, rfl, rfl, rfl, rfl⟩

/-- Witness of C12: a team lead approves a pending request of 150; the amount
stored is still 150 and the division still 1. -/
theorem act_frame_witness :
    ∃ r', getRequest
        (act (exStore [exRequest 150 Role.team_lead]) exLead (some 1) ⟨"approved", none⟩).2 1
        = some r' ∧ r'.amount = 150 ∧ r'.division_id = some 1 ∧ r'.agent_id = 7 :=
  have h := act_frame (exStore [exRequest 150 Role.team_lead]) exLead (some 1)
    ⟨"approved", none⟩ 1 (exRequest 150 Role.team_lead) rfl
  h.elim fun r' hr' => ⟨r', hr'.1, hr'.2.2.2.2.2.2.2.2.1, hr'.2.2.2.1, hr'.2.2.1⟩

/-! ## Division scoping -/

/-- What `GET /approvals/pending` offers to a team lead or a division manager
is pending, waits for the role of the user and is of the division of the
user. -/
theorem approvalsPending_own_division (s : Store) (user : AuthUser) (r : Request)
    (hmem : r ∈ approvalsPending s user)
    (hscoped : user.role = Role.team_lead ∨ user.role = Role.division_manager) :
    r.status = Status.pending ∧ r.required_role = user.role ∧
      r.division_id = user.division_id := by
  unfold approvalsPending at hmem
  split_ifs at hmem with hgate
  · rw [List.mem_filter] at hmem
    have hw := hmem.2
    simp only [pendingWhere, hscoped, if_true, Bool.and_eq_true, decide_eq_true_eq] at hw
    refine ⟨hw.1.1, hw.1.2, ?_⟩
    have hdiv := hw.2
    unfold sqlEq at hdiv
    split at hdiv
    · rename_i x y hx hy
      rw [hx, hy]
      simpa using hdiv
    · exact absurd hdiv (by decide)
  · exact absurd hmem (List.not_mem_nil r)

/-- C13, the code at the failing input: a pending request of division 1 waits
for a team lead; `GET /approvals/pending` does not offer it to the team lead
of division 2, yet `act` lets that team lead approve it: the call is answered
ok, the request is approved and the approval is logged. -/
theorem act_ignores_division :
    (exRequest 50 Role.team_lead).division_id = some 1 ∧
    exOtherLead.division_id = some 2 ∧
    approvalsPending (exStore [exRequest 50 Role.team_lead]) exOtherLead = [] ∧
    approvalsPending (exStore [exRequest 50 Role.team_lead]) exLead
      = [exRequest 50 Role.team_lead] ∧
    (act (exStore [exRequest 50 Role.team_lead]) exOtherLead (some 1) ⟨"approved", none⟩).1
      = Response.ok ∧
    requestState
        (act (exStore [exRequest 50 Role.team_lead]) exOtherLead (some 1)
          ⟨"approved", none⟩).2 1
      = some (Status.approved, Role.team_lead) ∧
    (act (exStore [exRequest 50 Role.team_lead]) exOtherLead (some 1)
        ⟨"approved", none⟩).2.approvals
      = [{ request_id := 1, approver_id := 11, approver_role := Role.team_lead,
           action := "approved", comment := none }] := by
  refine ⟨rfl, rfl, ?_, ?_, rfl, rfl, rfl⟩ <;> decide

/-! ## The line items a create call persists -/

/-- A create call answered with an id has taken that id from the sequence and
has appended to `request_items` the rows of its normalized items, none for
legacy input. -/
theorem createRequestWith_request_items (policy : ℚ → Role) (s : Store) (user : AuthUser)
    (body : CreateBody) (id : Int)
    (h : (createRequestWith policy s user body).1 = Response.created id) :
    id = s.requests_id_seq ∧
    (createRequestWith policy s user body).2.request_items
      = s.request_items ++
          itemRows id (if body.items.length > 0 then normalizedItems s body.items else []) := by
  by_cases hrole : requireRole [Role.agent, Role.admin] user = true
  swap
  · simp [createRequestWith, hrole] at h
  cases hb : cleanId body.buyer_id with
  | none => simp [createRequestWith, hrole, hb] at h
  | some b =>
    cases hme : s.users.find? (fun u => u.id = user.id) with
    | none => simp [createRequestWith, hrole, hb, hme] at h
    | some me =>
      simp only [createRequestWith, hrole, hb, hme, Bool.not_true, Bool.false_eq_true,
        if_false] at h ⊢
      have hid : id = s.requests_id_seq := by
        cases h
        rfl
      subst hid
      refine ⟨rfl, ?_⟩
      by_cases hlen : body.items.length > 0
      · have hne : (normalizedItems s body.items).length ≠ 0 := by
          simp only [normalizedItems, List.length_map]
          exact ne_of_gt hlen
        simp only [hlen, if_true, hne, ne_eq, not_false_eq_true]
        rfl
      · simp only [hlen, if_false, List.length_nil, ne_eq, not_true_eq_false]
        simp [itemRows]

theorem itemRows_filter (id : Int) (l : List NormalizedItem) :
    (itemRows id l).filter (fun it => decide (it.request_id = id)) = itemRows id l := by
  rw [List.filter_eq_self]
  intro it hit
  simp only [itemRows, List.mem_map] at hit
  obtain ⟨n, -, rfl⟩ := hit
  simp

theorem itemsOf_fresh (s : Store) (hfresh : s.ItemsFresh) :
    itemsOf s s.requests_id_seq = [] := by
  unfold itemsOf
  rw [List.filter_eq_nil_iff]
  intro it hit
  have := hfresh it hit
  simp only [decide_eq_true_eq]
  exact ne_of_lt this

theorem itemRows_line_amounts (id : Int) (l : List NormalizedItem) :
    (itemRows id l).map (fun it => it.line_amount) = l.map (fun it => it.line_amount) := by
  simp [itemRows, List.map_map, Function.comp]

/-- The line items of the request a create call stores are the rows of its
normalized items, when the rows already there belong to earlier requests. -/
theorem createRequestWith_itemsOf (policy : ℚ → Role) (s : Store) (user : AuthUser)
    (body : CreateBody) (id : Int) (hfresh : s.ItemsFresh)
    (h : (createRequestWith policy s user body).1 = Response.created id) :
    itemsOf (createRequestWith policy s user body).2 id
      = itemRows id (if body.items.length > 0 then normalizedItems s body.items else []) := by
  obtain ⟨hid, hitems⟩ := createRequestWith_request_items policy s user body id h
  unfold itemsOf
  rw [hitems, List.filter_append, itemRows_filter]
  have := itemsOf_fresh s hfresh
  unfold itemsOf at this
  rw [hid, this, List.nil_append]

/-- The row a create call answered with an id has appended. -/
theorem createRequestWith_row (policy : ℚ → Role) (s : Store) (user : AuthUser)
    (body : CreateBody) (id : Int)
    (h : (createRequestWith policy s user body).1 = Response.created id) :
    ∃ b me, cleanId body.buyer_id = some b ∧
      (createRequestWith policy s user body).2.requests
        = s.requests ++ [insertedRequest policy s user body b me] ∧
      (insertedRequest policy s user body b me).id = id := by
  rcases createRequestWith_cases policy s user body with hc | hc
  · exact absurd h (hc.1 id)
  · obtain ⟨b, me, -, hb, -, hres, hreq, -⟩ := hc
    refine ⟨b, me.division_id, hb, hreq, ?_⟩
    rw [hres] at h
    cases h
    rfl

/-- C16: for legacy input (no item list, or an empty one) the create handler
stores the supplied amount as the amount of the request and appends nothing
to `request_items`, so the request has no line items. -/
theorem created_legacy_amount_no_items (policy : ℚ → Role) (s : Store) (user : AuthUser)
    (body : CreateBody) (id : Int)
    (h : (createRequestWith policy s user body).1 = Response.created id)
    (hlegacy : body.items = []) :
    ∃ row, (createRequestWith policy s user body).2.requests = s.requests ++ [row] ∧
      row.id = id ∧
      (∀ a, body.amount = some a → row.amount = a) ∧
      (createRequestWith policy s user body).2.request_items = s.request_items ∧
      (s.ItemsFresh → itemsOf (createRequestWith policy s user body).2 id = []) := by
  obtain ⟨b, me, -, hreq, hrowid⟩ := createRequestWith_row policy s user body id h
  refine ⟨_, hreq, hrowid, ?_, ?_, ?_⟩
  · intro a ha
    exact totalAmount_legacy s body a hlegacy ha
  · rw [(createRequestWith_request_items policy s user body id h).2]
    simp [hlegacy, itemRows]
  · intro hfresh
    rw [createRequestWith_itemsOf policy s user body id hfresh h]
    simp [hlegacy, itemRows]

/-- Witness of C16: the legacy submission of 250. -/
theorem created_legacy_amount_no_items_witness :
    ∃ row, (createRequest exEmptyStore exAgent exBody250).2.requests
        = exEmptyStore.requests ++ [row] ∧
      row.id = 1 ∧ row.amount = 250 ∧
      (createRequest exEmptyStore exAgent exBody250).2.request_items = [] ∧
      itemsOf (createRequest exEmptyStore exAgent exBody250).2 1 = [] :=
  have h := created_legacy_amount_no_items requiredRoleForAmount exEmptyStore exAgent
    exBody250 1 rfl rfl
  h.elim fun row hr =>
    ⟨row, hr.1, hr.2.1, hr.2.2.1 250 rfl, hr.2.2.2.1,
      hr.2.2.2.2 (fun it hit => absurd hit (List.not_mem_nil it))⟩

/-! ## Validation at creation -/

theorem cleanId_eq_none_iff (v : Option ℚ) :
    cleanId v = none ↔ ¬ ∃ n, v = some n ∧ 0 < n := by
  cases v with
  | none => simp [cleanId]
  | some n =>
    by_cases hn : n > 0
    · simp [cleanId, hn]
    · simp only [cleanId, hn, if_false, true_iff]
      rintro ⟨m, hm, hpos⟩
      cases hm
      exact hn hpos

/-- C19: behind its role gate, the create handler answers with the validation
error (400) if and only if `buyer_id` is absent or invalid, that is `cleanId`
gives null, and then it stores nothing; `cleanId` gives null exactly when the
value is not a number greater than 0. -/
theorem create_validation_iff_buyer_invalid (policy : ℚ → Role) (s : Store) (user : AuthUser)
    (body : CreateBody) (hgate : requireRole [Role.agent, Role.admin] user = true) :
    ((createRequestWith policy s user body).1.status = some 400 ↔
      cleanId body.buyer_id = none) ∧
    ((createRequestWith policy s user body).1.status = some 400 →
      (createRequestWith policy s user body).2 = s) ∧
    (cleanId body.buyer_id = none ↔ ¬ ∃ n, body.buyer_id = some n ∧ 0 < n) := by
  refine ⟨?_, ?_, cleanId_eq_none_iff body.buyer_id⟩
  · cases hb : cleanId body.buyer_id with
    | none => simp [createRequestWith, hgate, hb, Response.status]
    | some b =>
      cases hme : s.users.find? (fun u => u.id = user.id) with
      | none => simp [createRequestWith, hgate, hb, hme, Response.status]
      | some me => simp [createRequestWith, hgate, hb, hme, Response.status]
  · intro h400
    rcases createRequestWith_cases policy s user body with hc | hc
    · exact hc.2
    · obtain ⟨b, me, -, -, -, hres, -⟩ := hc
      rw [hres] at h400
      simp [Response.status] at h400

/-- Witness of C19: a submission without buyer_id. -/
theorem create_validation_iff_buyer_invalid_witness :
    (createRequest exEmptyStore exAgent { exBody250 with buyer_id := none }).1.status
      = some 400 ∧
    (createRequest exEmptyStore exAgent { exBody250 with buyer_id := none }).2
      = exEmptyStore :=
  have h := create_validation_iff_buyer_invalid requiredRoleForAmount exEmptyStore exAgent
    { exBody250 with buyer_id := none } rfl
  ⟨h.1.mpr rfl, h.2.1 (h.1.mpr rfl)⟩

/-! ## The sign of the stored amount -/

theorem foldl_priceById_mem (rows : List ArticleRow) (m : Int → Option ℚ) (k : Int) (p : ℚ)
    (h : rows.foldl (fun m r => fun k => if k = r.id then some (r.sell_price.getD 0) else m k)
      m k = some p) :
    m k = some p ∨ ∃ r ∈ rows, r.id = k ∧ p = r.sell_price.getD 0 := by
  induction rows generalizing m with
  | nil => exact Or.inl h
  | cons x xs ih =>
    rw [List.foldl_cons] at h
    rcases ih _ h with h1 | ⟨r, hr, hrk, hp⟩
    · by_cases hk : k = x.id
      · right
        simp only [hk, if_true, Option.some.injEq] at h1
        exact ⟨x, List.mem_cons_self _ _, hk.symm, h1.symm⟩
      · left
        simpa only [hk, if_false] using h1
    · exact Or.inr ⟨r, List.mem_cons_of_mem _ hr, hrk, hp⟩

/-- A price `priceById` holds is the price of a row it was filled from. -/
theorem priceById_mem (rows : List ArticleRow) (k : Int) (p : ℚ)
    (h : priceById rows k = some p) : ∃ r ∈ rows, r.id = k ∧ p = r.sell_price.getD 0 := by
  rcases foldl_priceById_mem rows (fun _ => none) k p h with h1 | h1
  · cases h1
  · exact h1

theorem numOr_nonneg (v : Option ℚ) (d : ℚ) (hd : 0 ≤ d) (hv : ∀ x, v = some x → 0 ≤ x) :
    0 ≤ numOr v d := by
  unfold numOr
  cases v with
  | none => exact hd
  | some n =>
    by_cases h0 : n = 0
    · simp only [h0, if_true]
      exact hd
    · simp only [h0, if_false]
      exact hv n rfl

/-- The normalized line amounts are non-negative when the supplied line
amounts, the quantities and the prices of the catalog are. -/
theorem normalizedItems_nonneg (s : Store) (items : List ItemInput)
    (hla : ∀ i ∈ items, ∀ x, i.line_amount = some x → 0 ≤ x)
    (hq : ∀ i ∈ items, ∀ q, i.quantity = some q → 0 ≤ q)
    (hp : ∀ a ∈ s.articles, ∀ p, a.sell_price = some p → 0 ≤ p) :
    ∀ it ∈ normalizedItems s items, 0 ≤ it.line_amount := by
  intro it hit
  simp only [normalizedItems, List.mem_map] at hit
  obtain ⟨i, hi, rfl⟩ := hit
  simp only [normalizeItem]
  cases hl : i.line_amount with
  | some x => exact hla i hi x hl
  | none =>
    simp only
    apply mul_nonneg
    · apply numOr_nonneg _ _ le_rfl
      intro x hx
      split_ifs at hx with hids
      obtain ⟨r, hr, -, hpr⟩ := priceById_mem _ _ _ hx
      have hrs : r ∈ s.articles := (List.mem_filter.mp hr).1
      rw [hpr]
      cases hsp : r.sell_price with
      | none => simp
      | some p => simpa using hp r hrs p hsp
    · exact numOr_nonneg _ _ zero_le_one (hq i hi)

theorem sum_nonneg_of_forall (l : List ℚ) (h : ∀ x ∈ l, 0 ≤ x) : 0 ≤ l.sum := by
  induction l with
  | nil => simp
  | cons x xs ih =>
    rw [List.sum_cons]
    exact add_nonneg (h x (List.mem_cons_self _ _))
      (ih (fun y hy => h y (List.mem_cons_of_mem _ hy)))

/-- C20, counterexample: a legacy submission with amount -5 is accepted and
stored with amount -5. -/
theorem created_amount_counterexample :
    (createRequest exEmptyStore exAgent (exLegacyBody (-5))).1 = Response.created 1 ∧
    (getRequest (createRequest exEmptyStore exAgent (exLegacyBody (-5))).2 1).map
        (fun r => r.amount) = some (-5) ∧
    ¬ ∀ r ∈ (createRequest exEmptyStore exAgent (exLegacyBody (-5))).2.requests,
        0 ≤ r.amount := by
  have hamt : totalAmount exEmptyStore (exLegacyBody (-5)) = -5 := by
    norm_num [totalAmount, exLegacyBody, numOr]
  have hreq : (createRequest exEmptyStore exAgent (exLegacyBody (-5))).2.requests
      = [insertedRequest requiredRoleForAmount exEmptyStore exAgent (exLegacyBody (-5)) 3
          (some 1)] := by
    have h3 : cleanId (exLegacyBody (-5)).buyer_id = some 3 := by
      norm_num [cleanId, exLegacyBody]
    simp [createRequest, createRequestWith, requireRole, exAgent, h3, exEmptyStore, exStore]
    rfl
  refine ⟨rfl, ?_, ?_⟩
  · simp only [getRequest, hreq]
    show Option.map _ (some _) = _
    simp only [Option.map_some', insertedRequest, hamt]
  · intro hall
    have := hall _ (by rw [hreq]; exact List.mem_singleton.mpr rfl)
    simp only [insertedRequest, hamt] at this
    norm_num at this

/-- C20, amended: the request the create handler stores has a non-negative
amount when what the submission supplies is non-negative: for legacy input
the amount (an absent amount counts as 0), for list input every normalized
line amount, which is the case when the supplied line amounts, the quantities
and the catalog prices are non-negative. -/
theorem created_amount_nonneg (policy : ℚ → Role) (s : Store) (user : AuthUser)
    (body : CreateBody) (id : Int)
    (h : (createRequestWith policy s user body).1 = Response.created id) :
    ∃ row, (createRequestWith policy s user body).2.requests = s.requests ++ [row] ∧
      row.id = id ∧
      (body.items = [] → (∀ a, body.amount = some a → 0 ≤ a) → 0 ≤ row.amount) ∧
      (body.items ≠ [] → (∀ it ∈ normalizedItems s body.items, 0 ≤ it.line_amount) →
        0 ≤ row.amount) ∧
      (body.items ≠ [] →
        (∀ i ∈ body.items, ∀ x, i.line_amount = some x → 0 ≤ x) →
        (∀ i ∈ body.items, ∀ q, i.quantity = some q → 0 ≤ q) →
        (∀ a ∈ s.articles, ∀ p, a.sell_price = some p → 0 ≤ p) → 0 ≤ row.amount) := by
  obtain ⟨b, me, -, hreq, hrowid⟩ := createRequestWith_row policy s user body id h
  have hlist : body.items ≠ [] →
      (∀ it ∈ normalizedItems s body.items, 0 ≤ it.line_amount) →
      0 ≤ totalAmount s body := by
    intro hne hall
    rw [totalAmount_items s body hne]
    apply sum_nonneg_of_forall
    intro x hx
    rw [List.mem_map] at hx
    obtain ⟨it, hit, rfl⟩ := hx
    exact hall it hit
  refine ⟨_, hreq, hrowid, ?_, hlist, ?_⟩
  · intro hnil hamt
    show 0 ≤ totalAmount s body
    simp only [totalAmount, hnil, List.length_nil, gt_iff_lt, lt_self_iff_false, if_false]
    exact numOr_nonneg _ _ le_rfl hamt
  · intro hne hla hq hp
    exact hlist hne (normalizedItems_nonneg s body.items hla hq hp)

/-- Witness of C20, amended: the legacy submission of 250. -/
theorem created_amount_nonneg_witness :
    ∃ row, (createRequest exEmptyStore exAgent exBody250).2.requests
        = exEmptyStore.requests ++ [row] ∧ row.id = 1 ∧ 0 ≤ row.amount :=
  have h := created_amount_nonneg requiredRoleForAmount exEmptyStore exAgent exBody250 1 rfl
  h.elim fun row hr =>
    ⟨row, hr.1, hr.2.1, hr.2.2.1 rfl (fun a ha => by
      have h250 : a = 250 := by
        simp only [exBody250, Option.some.injEq] at ha
        exact ha.symm
      rw [h250]
      norm_num)⟩

/-! ## The price lookup of the aggregator -/

theorem foldl_priceById_nodup (rows : List ArticleRow) (m : Int → Option ℚ) (k : Int)
    (hnd : (rows.map (fun a => a.id)).Nodup) :
    rows.foldl (fun m r => fun k => if k = r.id then some (r.sell_price.getD 0) else m k) m k
      = match rows.find? (fun a => decide (a.id = k)) with
        | some r => some (r.sell_price.getD 0)
        | none => m k := by
  induction rows generalizing m with
  | nil => rfl
  | cons x xs ih =>
    rw [List.map_cons, List.nodup_cons] at hnd
    rw [List.foldl_cons, ih _ hnd.2]
    by_cases hk : x.id = k
    · have hnone : xs.find? (fun a => decide (a.id = k)) = none := by
        rw [List.find?_eq_none]
        intro a ha hak
        apply hnd.1
        rw [List.mem_map]
        exact ⟨a, ha, by rw [hk]; simpa using hak⟩
      simp [List.find?, hk, hnone]
    · have hk' : ¬ k = x.id := fun h => hk h.symm
      simp [List.find?, hk, hk']

/-- When the ids are a key, `priceById` holds for an id the price of its row. -/
theorem priceById_of_nodup (rows : List ArticleRow) (k : Int)
    (hnd : (rows.map (fun a => a.id)).Nodup) :
    priceById rows k
      = (rows.find? (fun a => decide (a.id = k))).map (fun r => r.sell_price.getD 0) := by
  unfold priceById
  rw [foldl_priceById_nodup rows _ k hnd]
  cases rows.find? (fun a => decide (a.id = k)) <;> rfl

theorem selectPrices_nodup (s : Store) (ids : List Int) (hkey : s.ArticlesKeyed) :
    ((selectPrices s ids).map (fun a => a.id)).Nodup :=
  List.Nodup.sublist (List.Sublist.map _ (List.filter_sublist _)) hkey.1

theorem selectPrices_find (s : Store) (ids : List Int) (k : Int) (hk : k ∈ ids) :
    (selectPrices s ids).find? (fun a => decide (a.id = k))
      = s.articles.find? (fun a => decide (a.id = k)) := by
  unfold selectPrices
  induction s.articles with
  | nil => rfl
  | cons x xs ih =>
    by_cases hx : x.id = k
    · simp [List.filter_cons, List.find?_cons, hk, hx]
    · by_cases hmem : x.id ∈ ids
      · simp [List.filter_cons, List.find?_cons, hmem, hx, ih]
      · simp [List.filter_cons, List.find?_cons, hmem, hx, ih]

theorem mem_articleIds (items : List ItemInput) (i : ItemInput) (hi : i ∈ items)
    (h0 : i.article_id ≠ 0) : i.article_id ∈ articleIds items := by
  unfold articleIds
  rw [List.mem_dedup, List.mem_filter]
  exact ⟨List.mem_map.mpr ⟨i, hi, rfl⟩, by simpa using h0⟩

/-- The price the aggregator multiplies by is the catalog price of the
article, 0 when it has none, when the ids of `articles` are a key. -/
theorem aggregator_price (s : Store) (items : List ItemInput) (i : ItemInput)
    (hkey : s.ArticlesKeyed) (hi : i ∈ items) :
    numOr ((if (articleIds items).length ≠ 0 then priceById (selectPrices s (articleIds items))
        else fun _ => none) i.article_id) 0
      = (catalogPrice s i.article_id).getD 0 := by
  by_cases h0 : i.article_id = 0
  · have hcat : s.articles.find? (fun a => decide (a.id = i.article_id)) = none := by
      rw [List.find?_eq_none]
      intro a ha hak
      exact hkey.2 a ha (by rw [← h0]; simpa using hak)
    have hzero : (catalogPrice s i.article_id).getD 0 = 0 := by
      simp [catalogPrice, hcat]
    rw [hzero]
    unfold numOr
    split
    · rename_i n hn
      split_ifs at hn with hids
      obtain ⟨r, hr, hrk, -⟩ := priceById_mem _ _ _ hn
      have hrs : r ∈ s.articles := (List.mem_filter.mp hr).1
      exact absurd (hrk.trans h0) (hkey.2 r hrs)
    · rfl
  · have hmem := mem_articleIds items i hi h0
    have hlen : (articleIds items).length ≠ 0 := by
      intro hl
      rw [List.length_eq_zero] at hl
      rw [hl] at hmem
      exact absurd hmem (List.not_mem_nil _)
    simp only [hlen, ne_eq, not_false_eq_true, if_true]
    rw [priceById_of_nodup _ _ (selectPrices_nodup s _ hkey), selectPrices_find s _ _ hmem]
    unfold catalogPrice
    cases hf : s.articles.find? (fun a => decide (a.id = i.article_id)) with
    | none => simp [numOr]
    | some a =>
      simp only [Option.map_some', numOr_some_zero]
      rfl

theorem numOr_one_eq_specQuantity (i : ItemInput) : numOr i.quantity 1 = specQuantity i := by
  unfold numOr specQuantity
  cases i.quantity <;> rfl

/-- The aggregator of the handler and the one in the words of section 4.2
give the same items, when the ids of `articles` are a key. -/
theorem normalizedItems_eq_spec (s : Store) (items : List ItemInput) (hkey : s.ArticlesKeyed) :
    normalizedItems s items = items.map (specNormalizeItem s) := by
  unfold normalizedItems
  apply List.map_congr_left
  intro i hi
  have hprice := aggregator_price s items i hkey hi
  simp only [normalizeItem, specNormalizeItem, numOr_one_eq_specQuantity]
  cases hl : i.line_amount with
  | some x => rfl
  | none =>
    simp only
    rw [hprice]

/-- Behind the role gate, with a valid buyer and the row of the user, the
create handler answers with the id of the sequence and stores the request,
whatever the items are. -/
theorem createRequestWith_created (policy : ℚ → Role) (s : Store) (user : AuthUser)
    (body : CreateBody) (b : ℚ) (me : UserRow)
    (hgate : requireRole [Role.agent, Role.admin] user = true)
    (hb : cleanId body.buyer_id = some b)
    (hme : s.users.find? (fun u => u.id = user.id) = some me) :
    (createRequestWith policy s user body).1 = Response.created s.requests_id_seq ∧
    (createRequestWith policy s user body).2.requests
      = s.requests ++ [insertedRequest policy s user body b me.division_id] := by
  rcases createRequestWith_cases policy s user body with hc | hc
  · exfalso
    have hne := hc.1 s.requests_id_seq
    simp [createRequestWith, hgate, hb, hme, insertedRequest] at hne
  · obtain ⟨b', me', -, hb', hme', hres, hreq, -⟩ := hc
    rw [hb] at hb'
    rw [hme] at hme'
    cases hb'
    cases hme'
    exact ⟨hres, hreq⟩

/-! ## The aggregator on list input -/

/-- C17, counterexample: an item of article 99, which is not in the catalog,
with quantity 2 and no line amount: the create handler answers with the id 1
and stores the request with amount 0 and one line item with line amount 0. -/
theorem unresolved_article_counterexample :
    catalogPrice exEmptyStore 99 = none ∧
    (createRequest exEmptyStore exAgent (exItemsBody [⟨99, some 2, none⟩])).1
      = Response.created 1 ∧
    (getRequest (createRequest exEmptyStore exAgent (exItemsBody [⟨99, some 2, none⟩])).2
        1).map (fun r => r.amount) = some 0 ∧
    (createRequest exEmptyStore exAgent (exItemsBody [⟨99, some 2, none⟩])).2.request_items
      = [{ request_id := 1, article_id := 99, quantity := 2, line_amount := 0 }] := by
  have hn : normalizedItems exEmptyStore [⟨99, some 2, none⟩]
      = [{ article_id := 99, quantity := 2, line_amount := 0 }] := by
    simp [normalizedItems, articleIds, selectPrices, priceById, normalizeItem, numOr,
      exEmptyStore, exStore]
  have h3 : cleanId (exItemsBody [⟨99, some 2, none⟩]).buyer_id = some 3 := by
    norm_num [cleanId, exItemsBody]
  have hc := createRequestWith_created requiredRoleForAmount exEmptyStore exAgent
    (exItemsBody [⟨99, some 2, none⟩]) 3
    { id := 7, role := Role.agent, division_id := some 1, email := some "agent@example.org" }
    rfl h3 rfl
  have hit := (createRequestWith_request_items requiredRoleForAmount exEmptyStore exAgent
    (exItemsBody [⟨99, some 2, none⟩]) 1 hc.1).2
  refine ⟨rfl, hc.1, ?_, ?_⟩
  · have hget := getRequest_append_new _ hc.2 (fun r hr => absurd hr (List.not_mem_nil r))
    have hamt : totalAmount exEmptyStore (exItemsBody [⟨99, some 2, none⟩]) = 0 := by
      rw [totalAmount_items _ _ (by simp [exItemsBody])]
      simp [exItemsBody, hn]
    unfold createRequest
    have hid : (insertedRequest requiredRoleForAmount exEmptyStore exAgent
        (exItemsBody [⟨99, some 2, none⟩]) 3 (some 1)).id = 1 := rfl
    rw [hid] at hget
    rw [hget]
    simp only [Option.map_some', insertedRequest, hamt]
  · unfold createRequest
    have hitems : (exItemsBody [⟨99, some 2, none⟩]).items = [⟨99, some 2, none⟩] := rfl
    rw [hit, hitems]
    simp only [List.length_singleton, gt_iff_lt, zero_lt_one, if_true, hn]
    rfl

/-- C17, amended: for list input, an item that omits its line amount and
whose article has no catalog price is given the line amount 0; it does not
make creation fail: behind the role gate, with a valid buyer and the row of
the user, the handler answers with the new id, stores the request and
persists the item with line amount 0. (The ids of `articles` are a key.) -/
theorem unresolved_article_counts_zero (policy : ℚ → Role) (s : Store) (user : AuthUser)
    (body : CreateBody) (b : ℚ) (me : UserRow) (i : ItemInput) (hkey : s.ArticlesKeyed)
    (hgate : requireRole [Role.agent, Role.admin] user = true)
    (hb : cleanId body.buyer_id = some b)
    (hme : s.users.find? (fun u => u.id = user.id) = some me)
    (hi : i ∈ body.items) (hla : i.line_amount = none)
    (hprice : catalogPrice s i.article_id = none) :
    (createRequestWith policy s user body).1 = Response.created s.requests_id_seq ∧
    (createRequestWith policy s user body).2.requests
      = s.requests ++ [insertedRequest policy s user body b me.division_id] ∧
    { request_id := s.requests_id_seq, article_id := i.article_id,
      quantity := specQuantity i, line_amount := 0 }
      ∈ (createRequestWith policy s user body).2.request_items := by
  have hc := createRequestWith_created policy s user body b me hgate hb hme
  refine ⟨hc.1, hc.2, ?_⟩
  rw [(createRequestWith_request_items policy s user body _ hc.1).2]
  have hlen : body.items.length > 0 := List.length_pos.mpr (List.ne_nil_of_mem hi)
  simp only [hlen, if_true, normalizedItems_eq_spec s body.items hkey, List.mem_append]
  right
  simp only [itemRows, List.map_map, List.mem_map, Function.comp]
  refine ⟨i, hi, ?_⟩
  simp [specNormalizeItem, hla, hprice]

/-- Witness of C17, amended: the item of article 99 in the example store. -/
theorem unresolved_article_counts_zero_witness :
    (createRequest exEmptyStore exAgent (exItemsBody [⟨99, some 2, none⟩])).1
      = Response.created 1 ∧
    { request_id := 1, article_id := 99, quantity := 2, line_amount := 0 }
      ∈ (createRequest exEmptyStore exAgent
          (exItemsBody [⟨99, some 2, none⟩])).2.request_items :=
  have h3 : cleanId (exItemsBody [⟨99, some 2, none⟩]).buyer_id = some 3 := by
    norm_num [cleanId, exItemsBody]
  have h := unresolved_article_counts_zero requiredRoleForAmount exEmptyStore exAgent
    (exItemsBody [⟨99, some 2, none⟩]) 3
    { id := 7, role := Role.agent, division_id := some 1, email := some "agent@example.org" }
    ⟨99, some 2, none⟩ ⟨by decide, by decide⟩ rfl h3 rfl (by simp [exItemsBody]) rfl rfl
  ⟨h.1, by
    have h2 := h.2.2
    have hq : specQuantity ⟨99, some 2, none⟩ = 2 := by norm_num [specQuantity]
    rw [hq] at h2
    exact h2⟩

/-! ## The line items stay with requests the sequence has given -/

/-- Calls keep the rows of `request_items` with requests below the sequence. -/
theorem Call.run_itemsFresh (s : Store) (c : Call) (h : s.ItemsFresh) :
    (c.run s).ItemsFresh := by
  cases c with
  | create user body =>
    rcases createRequestWith_cases requiredRoleForAmount s user body with hc | hc
    · simp only [Call.run, createRequest, hc.2]
      exact h
    · obtain ⟨b, me, -, -, -, hres, -, -, -, -, hseq⟩ := hc
      have hit := (createRequestWith_request_items requiredRoleForAmount s user body _ hres).2
      intro it hmem
      change it ∈ (createRequestWith requiredRoleForAmount s user body).2.request_items at hmem
      show it.request_id < (createRequestWith requiredRoleForAmount s user body).2.requests_id_seq
      rw [hseq]
      rw [hit, List.mem_append] at hmem
      rcases hmem with hmem | hmem
      · have := h it hmem
        linarith
      · simp only [itemRows, List.mem_map] at hmem
        obtain ⟨n, -, rfl⟩ := hmem
        show s.requests_id_seq < s.requests_id_seq + 1
        linarith
  | act user idParam body =>
    rcases act_cases s user idParam body with ha | ha
    · simp only [Call.run, ha.2]
      exact h
    · obtain ⟨id', r', -, -, -, -, -, -, -, -, hst⟩ := ha
      rcases hst with ⟨st, h2⟩ | ⟨role, h2⟩
      · simp only [Call.run, h2]
        exact h
      · simp only [Call.run, h2]
        exact h

/-- Sequences of calls keep the rows of `request_items` with requests below
the sequence. -/
theorem runCalls_itemsFresh (calls : List Call) (s : Store) (h : s.ItemsFresh) :
    (runCalls s calls).ItemsFresh := by
  induction calls generalizing s with
  | nil => exact h
  | cons c cs ih => exact ih (c.run s) (Call.run_itemsFresh s c h)

/-! ## Sites at creation -/

theorem createRequestWith_buyer_sites (policy : ℚ → Role) (s : Store) (user : AuthUser)
    (body : CreateBody) :
    (createRequestWith policy s user body).2.buyer_sites = s.buyer_sites := by
  by_cases hrole : requireRole [Role.agent, Role.admin] user = true
  swap
  · simp [createRequestWith, hrole]
  cases hb : cleanId body.buyer_id with
  | none => simp [createRequestWith, hrole, hb]
  | some b =>
    cases hme : s.users.find? (fun u => u.id = user.id) with
    | none => simp [createRequestWith, hrole, hb, hme]
    | some me =>
      simp only [createRequestWith, hrole, hb, hme, Bool.not_true, Bool.false_eq_true,
        if_false]
      split_ifs <;> rfl

/-- C21, counterexample: site 5 is a site of buyer 4; a submission with
buyer_id 3 and site_id 5 is accepted and stored with buyer 3 and site 5. -/
theorem created_site_counterexample :
    (createRequest exSiteStore exAgent { exBody250 with site_id := some 5 }).1
      = Response.created 1 ∧
    (getRequest (createRequest exSiteStore exAgent { exBody250 with site_id := some 5 }).2
        1).map (fun r => (r.buyer_id, r.site_id)) = some (3, some 5) ∧
    siteBelongs (createRequest exSiteStore exAgent { exBody250 with site_id := some 5 }).2
        5 3 = false ∧
    siteBelongs (createRequest exSiteStore exAgent { exBody250 with site_id := some 5 }).2
        5 4 = true := by
  have hsites : (createRequest exSiteStore exAgent
      { exBody250 with site_id := some 5 }).2.buyer_sites = [{ id := 5, buyer_id := 4 }] :=
    createRequestWith_buyer_sites _ _ _ _
  refine ⟨rfl, rfl, ?_, ?_⟩
  · simp only [siteBelongs, hsites]
    norm_num
  · simp only [siteBelongs, hsites]
    norm_num

/-- C21, amended: the request the create handler stores has the buyer_id and
the site_id of the submission, each when it is a number greater than 0, and
the handler leaves `buyer_sites` as it is; so the stored site belongs to the
stored buyer exactly when the submitted site belongs to the submitted buyer,
which the handler does not check. -/
theorem created_site_as_submitted (policy : ℚ → Role) (s : Store) (user : AuthUser)
    (body : CreateBody) (id : Int)
    (h : (createRequestWith policy s user body).1 = Response.created id) :
    ∃ row, (createRequestWith policy s user body).2.requests = s.requests ++ [row] ∧
      row.id = id ∧
      cleanId body.buyer_id = some row.buyer_id ∧
      row.site_id = cleanId body.site_id ∧
      (createRequestWith policy s user body).2.buyer_sites = s.buyer_sites ∧
      (∀ site, row.site_id = some site →
        siteBelongs (createRequestWith policy s user body).2 site row.buyer_id
          = siteBelongs s site row.buyer_id) := by
  obtain ⟨b, me, hb, hreq, hrowid⟩ := createRequestWith_row policy s user body id h
  have hsites := createRequestWith_buyer_sites policy s user body
  refine ⟨_, hreq, hrowid, hb, rfl, hsites, ?_⟩
  intro site _
  simp only [siteBelongs, hsites]

/-- Witness of C21, amended: the submission with buyer_id 3 and site_id 5. -/
theorem created_site_as_submitted_witness :
    ∃ row, (createRequest exSiteStore exAgent
          { exBody250 with site_id := some 5 }).2.requests = exSiteStore.requests ++ [row] ∧
      row.id = 1 ∧
      cleanId ({ exBody250 with site_id := some 5 } : CreateBody).buyer_id
        = some row.buyer_id ∧
      row.site_id = cleanId ({ exBody250 with site_id := some 5 } : CreateBody).site_id :=
  have h := created_site_as_submitted requiredRoleForAmount exSiteStore exAgent
    { exBody250 with site_id := some 5 } 1 rfl
  h.elim fun row hr => ⟨row, hr.1, hr.2.1, hr.2.2.1, hr.2.2.2.1⟩

/-! ## The handler of `act` with its notification -/

/-- The handler with its notification is `act` followed, after an approval
answered ok, by the notification block on the store `act` leaves. -/
theorem actAndNotify_cases (env : MailEnv) (s : Store) (user : AuthUser)
    (idParam : Option Int) (body : ActBody) :
    actAndNotify env s user idParam body
      = ((act s user idParam body).1, (act s user idParam body).2,
          if (act s user idParam body).1 = Response.ok ∧ body.action ≠ "rejected" then
            (match idParam with
              | some id => (actNotification env (act s user idParam body).2 id).mails
              | none => [])
          else []) := by
  by_cases happ : user.role.isApprover = true
  swap
  · simp [actAndNotify, act, requireRole_approvers, happ]
  cases idParam with
  | none => simp [actAndNotify, act, requireRole_approvers, happ]
  | some id =>
    by_cases hbad : id = 0 ∨ ¬ (body.action = "approved" ∨ body.action = "rejected")
    · have hbad' := hbad
      simp only [not_or] at hbad'
      simp [actAndNotify, act, requireRole_approvers, happ, hbad']
    · have hid : id ≠ 0 := fun h => hbad (Or.inl h)
      have hact : body.action = "approved" ∨ body.action = "rejected" := by
        by_contra h; exact hbad (Or.inr h)
      cases hget : getRequest s id with
      | none => simp [actAndNotify, act, requireRole_approvers, happ, hid, hact, hget]
      | some r =>
        by_cases hturn : r.required_role ≠ user.role ∨ r.status ≠ Status.pending
        · simp [actAndNotify, act, requireRole_approvers, happ, hid, hact, hget, hturn]
        · have hrole : r.required_role = user.role := by
            by_contra h; exact hturn (Or.inl h)
          have hpend : r.status = Status.pending := by
            by_contra h; exact hturn (Or.inr h)
          obtain ⟨action, comment⟩ := body
          rcases hact with h | h
          · simp only at h
            subst h
            simp only [actAndNotify, act, requireRole_approvers, happ, hid, hget, hrole, hpend]
            simp only [Bool.not_true, Bool.false_eq_true, if_false, false_or, ne_eq,
              not_true_eq_false, or_self, not_false_eq_true, true_or, and_true]
            split_ifs <;> simp_all
          · simp only at h
            subst h
            simp [actAndNotify, act, requireRole_approvers, happ, hid, hget, hrole, hpend]

/-- The answer and the store of `actAndNotify` are those of `act`, whatever
the environment. -/
theorem actAndNotify_eq_act (env : MailEnv) (s : Store) (user : AuthUser)
    (idParam : Option Int) (body : ActBody) :
    (actAndNotify env s user idParam body).1 = (act s user idParam body).1 ∧
    (actAndNotify env s user idParam body).2.1 = (act s user idParam body).2 := by
  rw [actAndNotify_cases]
  exact ⟨rfl, rfl⟩

/-- A rejection delivers no mail. -/
theorem actAndNotify_rejected_mails (env : MailEnv) (s : Store) (user : AuthUser)
    (idParam : Option Int) (comment : Option String) :
    (actAndNotify env s user idParam ⟨"rejected", comment⟩).2.2 = [] := by
  rw [actAndNotify_cases]
  simp

/-- A mail the notification block of `act` delivers goes to `LEJIMET_EMAIL`,
which is configured, with the email of the agent in cc and the loaded request
as document; nothing has failed. -/
theorem actNotification_mails (env : MailEnv) (s : Store) (id : Int) (m : Mail)
    (hm : m ∈ (actNotification env s id).mails) :
    env.LEJIMET_EMAIL ≠ "" ∧ env.pdfFails = false ∧ env.transportFails = false ∧
    ∃ l, loadRequestForPdf s id = some l ∧
      m = { toList := [env.LEJIMET_EMAIL], cc := l.agent_email,
            attachment := { reqRow := l.reqRow, items := l.items,
                            approvals := l.approvals } } := by
  unfold actNotification at hm
  cases hl : loadRequestForPdf s id with
  | none => simp [hl, SendResult.mails] at hm
  | some l =>
    simp only [hl] at hm
    by_cases hpdf : env.pdfFails = true
    · simp [hpdf, SendResult.mails] at hm
    · by_cases hle : env.LEJIMET_EMAIL = ""
      · simp [hpdf, sendMail, hle, SendResult.mails] at hm
      · by_cases htr : env.transportFails = true
        · simp [hpdf, sendMail, hle, htr, SendResult.mails] at hm
        · simp only [hpdf, sendMail, hle, htr, SendResult.mails, Bool.false_eq_true, if_false,
            List.length_singleton, one_ne_zero, false_and, ne_eq, not_false_eq_true,
            List.mem_singleton] at hm
          refine ⟨hle, by simpa using hpdf, by simpa using htr, l, rfl, hm⟩

/-- C22, the code at the failing input: a rejection delivers no mail, whatever
the environment, the store and the user. In the example store, with the
fallback address configured and nothing failing, the rejection in turn by the
division manager is answered ok and sets the request to rejected without any
mail, while the approval in turn delivers one mail, whose document carries
the request after the update and its approval log. -/
theorem reject_sends_no_notification :
    (∀ (env : MailEnv) (s : Store) (user : AuthUser) (idParam : Option Int)
        (comment : Option String),
      (actAndNotify env s user idParam ⟨"rejected", comment⟩).2.2 = []) ∧
    (actAndNotify exEnv (exMailStore [exRequest 150 Role.division_manager]) exManager (some 1)
        ⟨"rejected", none⟩).1 = Response.ok ∧
    requestState
        (actAndNotify exEnv (exMailStore [exRequest 150 Role.division_manager]) exManager
          (some 1) ⟨"rejected", none⟩).2.1 1
      = some (Status.rejected, Role.division_manager) ∧
    (actAndNotify exEnv (exMailStore [exRequest 150 Role.division_manager]) exManager (some 1)
        ⟨"rejected", none⟩).2.2 = [] ∧
    (actAndNotify exEnv (exMailStore [exRequest 150 Role.division_manager]) exManager (some 1)
        ⟨"approved", none⟩).2.2
      = [{ toList := ["lejimet@example.org"], cc := some "agent@example.org",
           attachment :=
            { reqRow := { exRequest 150 Role.division_manager with
                            status := Status.approved },
              items := [{ article_id := 1, quantity := 1, line_amount := 150 }],
              approvals := [{ request_id := 1, approver_id := 9,
                              approver_role := Role.division_manager,
                              action := "approved", comment := none }] } }] := by
  refine ⟨actAndNotify_rejected_mails, rfl, rfl, rfl, ?_⟩
  decide

/-- C23, counterexample: a team lead approves a request of 150 of division 1;
it now waits for a division manager, and division 1 has a division manager
with an email, yet the mail goes to the fallback address, not to the
recipients `approverEmailsFor` gives for the request after the transition. -/
theorem act_recipients_counterexample :
    requestState
        (actAndNotify exEnv (exMailStore [exRequest 150 Role.team_lead]) exLead (some 1)
          ⟨"approved", none⟩).2.1 1
      = some (Status.pending, Role.division_manager) ∧
    approverEmailsFor
        (actAndNotify exEnv (exMailStore [exRequest 150 Role.team_lead]) exLead (some 1)
          ⟨"approved", none⟩).2.1
        { exRequest 150 Role.team_lead with required_role := Role.division_manager }
      = ["manager@example.org"] ∧
    (actAndNotify exEnv (exMailStore [exRequest 150 Role.team_lead]) exLead (some 1)
        ⟨"approved", none⟩).2.2.map (fun m => m.toList)
      = [["lejimet@example.org"]] := by
  refine ⟨rfl, ?_, ?_⟩ <;> decide

/-- C23, amended: every mail a call of `act` delivers comes from an approval
answered ok and is addressed to the configured `LEJIMET_EMAIL` address alone,
with the email of the agent of the request in cc, whatever the required role
after the transition; its document is the request as loaded after the
update, with its lines and its approval log. -/
theorem act_mail_recipients (env : MailEnv) (s : Store) (user : AuthUser)
    (idParam : Option Int) (body : ActBody) (m : Mail)
    (hm : m ∈ (actAndNotify env s user idParam body).2.2) :
    (actAndNotify env s user idParam body).1 = Response.ok ∧
    body.action = "approved" ∧
    m.toList = [env.LEJIMET_EMAIL] ∧ env.LEJIMET_EMAIL ≠ "" ∧
    ∃ id l, idParam = some id ∧
      loadRequestForPdf (actAndNotify env s user idParam body).2.1 id = some l ∧
      m.cc = l.agent_email ∧
      m.attachment = { reqRow := l.reqRow, items := l.items, approvals := l.approvals } := by
  have hcases := actAndNotify_cases env s user idParam body
  rw [hcases] at hm ⊢
  simp only at hm ⊢
  split_ifs at hm with hok
  · cases idParam with
    | none => simp at hm
    | some id =>
      simp only at hm
      obtain ⟨hle, -, -, l, hl, hmail⟩ := actNotification_mails env _ id m hm
      have hact : body.action = "approved" := by
        rcases act_cases s user (some id) body with h | h
        · exact absurd hok.1 h.1
        · obtain ⟨_, _, _, _, ha, -⟩ := h
          rcases ha with ha | ha
          · exact ha
          · exact absurd ha hok.2
      refine ⟨hok.1, hact, ?_, hle, id, l, rfl, hl, ?_, ?_⟩ <;> rw [hmail]
  · simp at hm

/-- Witness of C23, amended: the mail of the approval of the team lead. -/
theorem act_mail_recipients_witness :
    ∃ m, m ∈ (actAndNotify exEnv (exMailStore [exRequest 150 Role.team_lead]) exLead (some 1)
        ⟨"approved", none⟩).2.2 ∧
      m.toList = ["lejimet@example.org"] ∧ m.cc = some "agent@example.org" :=
  have hlist : (actAndNotify exEnv (exMailStore [exRequest 150 Role.team_lead]) exLead (some 1)
      ⟨"approved", none⟩).2.2
      = [{ toList := ["lejimet@example.org"], cc := some "agent@example.org",
           attachment :=
            { reqRow := { exRequest 150 Role.team_lead with
                            required_role := Role.division_manager },
              items := [{ article_id := 1, quantity := 1, line_amount := 150 }],
              approvals := [{ request_id := 1, approver_id := 8,
                              approver_role := Role.team_lead,
                              action := "approved", comment := none }] } }] := by decide
  have hmem := hlist ▸ List.mem_singleton_self _
  have h := act_mail_recipients exEnv (exMailStore [exRequest 150 Role.team_lead]) exLead
    (some 1) ⟨"approved", none⟩ _ hmem
  ⟨_, hmem, h.2.2.1, rfl⟩

/-! ## `approverEmailsFor` and `sendMail` -/

/-- C24: over any `users` table, for a request whose required role is one of
the three approver roles, `approverEmailsFor` returns exactly the non-empty
emails of the users whose role is the required role and, when that role is
team_lead or division_manager, whose division is the division of the request
(both present and equal, as the WHERE clause compares them); for
sales_director no division filter is applied. -/
theorem approverEmailsFor_spec (s : Store) (r : Request)
    (happ : r.required_role.isApprover = true) :
    approverEmailsFor s r
      = ((s.users.filter (fun u => decide (u.role = r.required_role) &&
            (decide (r.required_role = Role.sales_director) ||
              sqlEq u.division_id r.division_id))).filterMap
          (fun u => u.email)).filter (fun e => e ≠ "") ∧
    ∀ e, e ∈ approverEmailsFor s r ↔
      e ≠ "" ∧ ∃ u ∈ s.users, u.email = some e ∧ u.role = r.required_role ∧
        (r.required_role = Role.sales_director ∨
          ∃ d, u.division_id = some d ∧ r.division_id = some d) := by
  have heq : approverEmailsFor s r
      = ((s.users.filter (fun u => decide (u.role = r.required_role) &&
            (decide (r.required_role = Role.sales_director) ||
              sqlEq u.division_id r.division_id))).filterMap
          (fun u => u.email)).filter (fun e => e ≠ "") := by
    obtain ⟨id, ag, dv, by_, si, ar, qu, amount, inv, re, role, st⟩ := r
    simp only at happ ⊢
    cases role
    · exact absurd happ (by decide)
    · simp [approverEmailsFor, emailsWhere]
    · simp [approverEmailsFor, emailsWhere]
    · simp [approverEmailsFor, emailsWhere]
    · exact absurd happ (by decide)
  refine ⟨heq, ?_⟩
  intro e
  rw [heq]
  simp only [List.mem_filter, List.mem_filterMap, Bool.and_eq_true, Bool.or_eq_true,
    decide_eq_true_eq, ne_eq, decide_not, Bool.not_eq_true']
  constructor
  · rintro ⟨⟨u, ⟨hu, hrole, hdiv⟩, hemail⟩, hne⟩
    refine ⟨by simpa using hne, u, hu, hemail, hrole, ?_⟩
    rcases hdiv with hsd | hsql
    · exact Or.inl hsd
    · right
      unfold sqlEq at hsql
      split at hsql
      · rename_i x y hx hy
        exact ⟨x, hx, by rw [hy]; simpa using (decide_eq_true_eq.mp hsql).symm ▸ rfl⟩
      · exact absurd hsql (by decide)
  · rintro ⟨hne, u, hu, hemail, hrole, hdiv⟩
    refine ⟨⟨u, ⟨hu, hrole, ?_⟩, hemail⟩, by simpa using hne⟩
    rcases hdiv with hsd | ⟨d, hud, hrd⟩
    · exact Or.inl hsd
    · right
      simp [sqlEq, hud, hrd]

/-- Witness of C24: the division managers of division 1 in the example
store. -/
theorem approverEmailsFor_spec_witness :
    approverEmailsFor (exMailStore []) (exRequest 150 Role.division_manager)
      = ["manager@example.org"] ∧
    ("manager@example.org" ∈ approverEmailsFor (exMailStore [])
        (exRequest 150 Role.division_manager) ↔
      "manager@example.org" ≠ "" ∧ ∃ u ∈ (exMailStore []).users,
        u.email = some "manager@example.org" ∧
        u.role = (exRequest 150 Role.division_manager).required_role ∧
        ((exRequest 150 Role.division_manager).required_role = Role.sales_director ∨
          ∃ d, u.division_id = some d ∧
            (exRequest 150 Role.division_manager).division_id = some d)) :=
  have h := approverEmailsFor_spec (exMailStore []) (exRequest 150 Role.division_manager) rfl
  ⟨by decide, h.2 "manager@example.org"⟩

/-- C25: `sendMail` resolves its recipients as follows. A non-empty list, or
a non-empty single address, is used as given. An empty or absent recipient
set is replaced by the single address `LEJIMET_EMAIL` when it is configured.
When the recipient set is empty and `LEJIMET_EMAIL` is not configured,
nothing is handed to the transport and `sendMail` returns without error, even
with a transport that would fail. (In the first two cases the mail is handed
to the transport, whose failure `sendMail` lets through.) -/
theorem sendMail_recipients (env : MailEnv) (cc : Option String) (doc : Document) :
    (∀ l : List String, l ≠ [] →
      sendMail env (MailTo.list l) cc doc
        = if env.transportFails then SendResult.thrown
          else SendResult.sent { toList := l, cc := cc, attachment := doc }) ∧
    (∀ a : String, a ≠ "" →
      sendMail env (MailTo.single a) cc doc
        = if env.transportFails then SendResult.thrown
          else SendResult.sent { toList := [a], cc := cc, attachment := doc }) ∧
    (∀ t : MailTo, t = MailTo.list [] ∨ t = MailTo.single "" ∨ t = MailTo.absent →
      env.LEJIMET_EMAIL ≠ "" →
      sendMail env t cc doc
        = if env.transportFails then SendResult.thrown
          else SendResult.sent { toList := [env.LEJIMET_EMAIL], cc := cc,
                                 attachment := doc }) ∧
    (∀ t : MailTo, t = MailTo.list [] ∨ t = MailTo.single "" ∨ t = MailTo.absent →
      env.LEJIMET_EMAIL = "" →
      sendMail env t cc doc = SendResult.skipped) := by
  refine ⟨?_, ?_, ?_, ?_⟩
  · intro l hl
    have hlen : l.length ≠ 0 := fun h => hl (List.length_eq_zero.mp h)
    simp [sendMail, hlen]
  · intro a ha
    simp [sendMail, ha]
  · rintro t (rfl | rfl | rfl) hle <;> simp [sendMail, hle]
  · rintro t (rfl | rfl | rfl) hle <;> simp [sendMail, hle]

/-- Witness of C25: the recipients found are used as given; without any and
with `LEJIMET_EMAIL` configured the mail goes there; without any and without
`LEJIMET_EMAIL` nothing is sent, even with a failing transport. -/
theorem sendMail_recipients_witness :
    sendMail exEnv (MailTo.list ["manager@example.org"]) none
        ⟨exRequest 150 Role.division_manager, [], []⟩
      = SendResult.sent
          ⟨["manager@example.org"], none, ⟨exRequest 150 Role.division_manager, [], []⟩⟩ ∧
    sendMail exEnv (MailTo.list []) none ⟨exRequest 150 Role.division_manager, [], []⟩
      = SendResult.sent
          ⟨["lejimet@example.org"], none, ⟨exRequest 150 Role.division_manager, [], []⟩⟩ ∧
    sendMail exNoMailEnv MailTo.absent none ⟨exRequest 150 Role.division_manager, [], []⟩
      = SendResult.skipped :=
  ⟨(sendMail_recipients exEnv none ⟨exRequest 150 Role.division_manager, [], []⟩).1
      ["manager@example.org"] (by decide),
   (sendMail_recipients exEnv none ⟨exRequest 150 Role.division_manager, [], []⟩).2.2.1
      (MailTo.list []) (Or.inl rfl) (by decide),
   (sendMail_recipients exNoMailEnv none ⟨exRequest 150 Role.division_manager, [], []⟩).2.2.2
      MailTo.absent (Or.inr (Or.inr rfl)) rfl⟩

/-! ## Notification failures -/

/-- The handler of `act` answers; no exception leaves it. -/
theorem act_ne_thrown (s : Store) (user : AuthUser) (idParam : Option Int) (body : ActBody) :
    (act s user idParam body).1 ≠ Response.thrown := by
  by_cases happ : user.role.isApprover = true
  swap
  · rw [act_not_approver s user idParam body (by simpa using happ)]
    exact fun h => Response.noConfusion h
  cases idParam with
  | none => simp [act, requireRole_approvers, happ]
  | some id =>
    by_cases hbad : id = 0 ∨ ¬ (body.action = "approved" ∨ body.action = "rejected")
    · have hbad' := hbad
      simp only [not_or] at hbad'
      simp [act, requireRole_approvers, happ, hbad']
    · have hid : id ≠ 0 := fun h => hbad (Or.inl h)
      have hact : body.action = "approved" ∨ body.action = "rejected" := by
        by_contra h; exact hbad (Or.inr h)
      cases hget : getRequest s id with
      | none => simp [act, requireRole_approvers, happ, hid, hact, hget]
      | some r =>
        rcases act_cases s user (some id) body with hc | hc
        · by_cases hturn : r.required_role ≠ user.role ∨ r.status ≠ Status.pending
          · rw [act_not_your_turn s user id body r happ hid hact hget hturn]
            exact fun h => Response.noConfusion h
          · exfalso
            have hrole : r.required_role = user.role := by
              by_contra h; exact hturn (Or.inl h)
            have hpend : r.status = Status.pending := by
              by_contra h; exact hturn (Or.inr h)
            obtain ⟨action, comment⟩ := body
            rcases hact with ha | ha
            · simp only at ha
              subst ha
              exact hc.1 (approve_in_turn s user id comment r hid hget hpend hrole.symm
                (by rw [hrole]; exact happ)).1
            · simp only at ha
              subst ha
              apply hc.1
              rw [act_rejected_eq s user id comment r happ hid hget hrole hpend]
        · obtain ⟨_, _, _, _, _, _, _, _, _, hok, _⟩ := hc
          rw [hok]
          decide

/-- C26: the answer of the handler of `act` and the store it leaves, so the
status and the required role of every request, are those of `act` alone, the
same in every environment: whether the document is rendered or not and
whether the transport delivers or not. A failure of either only means that no
mail is delivered; the handler never ends with the exception. -/
theorem notification_failure_harmless (env env' : MailEnv) (s : Store) (user : AuthUser)
    (idParam : Option Int) (body : ActBody) :
    (actAndNotify env s user idParam body).1 = (act s user idParam body).1 ∧
    (actAndNotify env s user idParam body).2.1 = (act s user idParam body).2 ∧
    (actAndNotify env s user idParam body).1 = (actAndNotify env' s user idParam body).1 ∧
    (actAndNotify env s user idParam body).2.1
      = (actAndNotify env' s user idParam body).2.1 ∧
    (actAndNotify env s user idParam body).1 ≠ Response.thrown ∧
    (env.pdfFails = true ∨ env.transportFails = true →
      (actAndNotify env s user idParam body).2.2 = []) := by
  have h := actAndNotify_eq_act env s user idParam body
  have h' := actAndNotify_eq_act env' s user idParam body
  refine ⟨h.1, h.2, h.1.trans h'.1.symm, h.2.trans h'.2.symm, ?_, ?_⟩
  · rw [h.1]
    exact act_ne_thrown s user idParam body
  · intro hfail
    cases hmails : (actAndNotify env s user idParam body).2.2 with
    | nil => rfl
    | cons m ms =>
      exfalso
      have hm : m ∈ (actAndNotify env s user idParam body).2.2 := by
        rw [hmails]
        exact List.mem_cons_self _ _
      rw [actAndNotify_cases] at hm
      simp only at hm
      split_ifs at hm with hok
      · cases idParam with
        | none => simp at hm
        | some id =>
          obtain ⟨-, hpdf, htr, -⟩ := actNotification_mails env _ id m hm
          rcases hfail with hf | hf
          · rw [hpdf] at hf
            cases hf
          · rw [htr] at hf
            cases hf
      · simp at hm

/-- An approval in a failing environment: the team lead approves the request
of 50 while the rendering fails; the call is answered ok, the request
is approved and no mail is delivered. -/
theorem notification_failure_example :
    (actAndNotify exFailingEnv (exMailStore [exRequest 50 Role.team_lead]) exLead (some 1)
        ⟨"approved", none⟩).1 = Response.ok ∧
    requestState
        (actAndNotify exFailingEnv (exMailStore [exRequest 50 Role.team_lead]) exLead
          (some 1) ⟨"approved", none⟩).2.1 1
      = some (Status.approved, Role.team_lead) ∧
    (actAndNotify exFailingEnv (exMailStore [exRequest 50 Role.team_lead]) exLead (some 1)
        ⟨"approved", none⟩).2.2 = [] := by
  refine ⟨rfl, rfl, rfl⟩

/-! ## What a call of `act` answered ok does to its request -/

/-- A call of `act` on an existing request that is answered ok was in turn on
a pending request, and leaves the rejected row after a rejection and
`approvedRow` after an approval. -/
theorem act_ok_row (s : Store) (user : AuthUser) (id : Int) (body : ActBody) (r : Request)
    (hget : getRequest s id = some r) (hok : (act s user (some id) body).1 = Response.ok) :
    id ≠ 0 ∧ r.status = Status.pending ∧ user.role = r.required_role ∧
    r.required_role.isApprover = true ∧
    ((body.action = "rejected" ∧
        getRequest (act s user (some id) body).2 id
          = some { r with status := Status.rejected }) ∨
     (body.action = "approved" ∧
        getRequest (act s user (some id) body).2 id = some (approvedRow r))) := by
  have hrid := getRequest_id hget
  rcases act_cases s user (some id) body with h | h
  · exact absurd hok h.1
  · obtain ⟨id0, r0, hparam, hid, hact, happ, hget0, hpend0, hrole0, -, -⟩ := h
    cases hparam
    rw [hget] at hget0
    cases hget0
    refine ⟨hid, hpend0, hrole0.symm, by rw [hrole0]; exact happ, ?_⟩
    obtain ⟨action, comment⟩ := body
    rcases hact with ha | ha
    · right
      simp only at ha
      subst ha
      exact ⟨rfl, (approve_in_turn s user id comment r hid hget hpend0 hrole0.symm
        (by rw [hrole0]; exact happ)).2.1⟩
    · left
      simp only at ha
      subst ha
      refine ⟨rfl, ?_⟩
      rw [act_rejected_eq s user id comment r happ hid hget hrole0 hpend0]
      simp [getRequest_setStatus, getRequest_insertApproval, hget, hrid]

/-- `approvedRow` of a pending row is not pending or waits for another role. -/
theorem approvedRow_moves (r : Request) :
    (approvedRow r).status ≠ Status.pending ∨
      (approvedRow r).required_role ≠ r.required_role := by
  unfold approvedRow
  split_ifs with h1 h2 h3 h4
  · left; simp
  · right; simp only [h1]; decide
  · left; simp
  · right; simp only [h3]; decide
  · left; simp

/-- C27: only the first action has effect on re-attempt. When a call of `act`
on a request is answered ok and a user with the same role, in particular the
same user, then calls `act` on that request, with action approved or
rejected, the second call is answered 403 and leaves the store, so the status
and the required role of the request, as the first call left them. -/
theorem act_reattempt_forbidden (s : Store) (user user' : AuthUser) (id : Int)
    (body body' : ActBody) (r : Request) (hget : getRequest s id = some r)
    (hok : (act s user (some id) body).1 = Response.ok)
    (hsame : user'.role = user.role)
    (hact' : body'.action = "approved" ∨ body'.action = "rejected") :
    (act (act s user (some id) body).2 user' (some id) body').1.Forbidden ∧
    (act (act s user (some id) body).2 user' (some id) body').2
      = (act s user (some id) body).2 ∧
    requestState (act (act s user (some id) body).2 user' (some id) body').2 id
      = requestState (act s user (some id) body).2 id := by
  obtain ⟨hid, hpend, hrole, -, hrow⟩ := act_ok_row s user id body r hget hok
  have hforb : (act (act s user (some id) body).2 user' (some id) body').1.Forbidden ∧
      (act (act s user (some id) body).2 user' (some id) body').2
        = (act s user (some id) body).2 := by
    rcases hrow with ⟨-, hrow⟩ | ⟨-, hrow⟩
    · exact act_forbidden _ user' id body' _ hid hact' hrow (Or.inr (by simp))
    · apply act_forbidden _ user' id body' _ hid hact' hrow
      rcases approvedRow_moves r with h | h
      · exact Or.inr h
      · left
        rw [hsame, hrole]
        exact h
  exact ⟨hforb.1, hforb.2, by rw [hforb.2]⟩

/-- Witness of C27: the team lead approves the request of 150, which then
waits for a division manager; the second approval of the team lead is
refused. -/
theorem act_reattempt_forbidden_witness :
    (act (act (exStore [exRequest 150 Role.team_lead]) exLead (some 1) ⟨"approved", none⟩).2
        exLead (some 1) ⟨"approved", none⟩).1.Forbidden ∧
    requestState
        (act (act (exStore [exRequest 150 Role.team_lead]) exLead (some 1)
          ⟨"approved", none⟩).2 exLead (some 1) ⟨"approved", none⟩).2 1
      = requestState
          (act (exStore [exRequest 150 Role.team_lead]) exLead (some 1)
            ⟨"approved", none⟩).2 1 :=
  have h := act_reattempt_forbidden (exStore [exRequest 150 Role.team_lead]) exLead exLead 1
    ⟨"approved", none⟩ ⟨"approved", none⟩ (exRequest 150 Role.team_lead) rfl rfl rfl
    (Or.inl rfl)
  ⟨h.1, h.2.2⟩

/-! ## Requests whose required role comes from the threshold policy -/

/-- When the required role of a row is the threshold role of its amount, an
approval in turn approves it. -/
theorem approvedRow_of_policy (r : Request) (h : r.required_role = roleForAmount r.amount) :
    approvedRow r = { r with status := Status.approved } := by
  unfold approvedRow
  unfold roleForAmount at h
  split_ifs with h1 h2 h3 h4
  · rfl
  · exfalso
    rw [h1] at h
    simp only [h2, if_false] at h
    split_ifs at h
  · rfl
  · exfalso
    rw [h3] at h
    simp only [h4, if_false] at h
    split_ifs at h
  · rfl

/-- When every required role is the threshold role of the amount, a call of
`act` changes nothing or sets the status of its request: it never sets a
required role. -/
theorem act_store_of_policy (s : Store) (user : AuthUser) (idParam : Option Int)
    (body : ActBody) (hinv : ∀ r ∈ s.requests, r.required_role = roleForAmount r.amount) :
    (act s user idParam body).2 = s ∨
    ∃ id st, (act s user idParam body).2
      = setStatus (insertApproval s (actRecord user id body)) id st := by
  rcases act_cases s user idParam body with h | h
  · exact Or.inl h.2
  · obtain ⟨id, r, hparam, hid, hact, happ, hget, hpend, hrole, -, -⟩ := h
    subst hparam
    right
    have hcons := hinv r (getRequest_mem hget)
    unfold roleForAmount at hcons
    obtain ⟨action, comment⟩ := body
    rcases hact with ha | ha
    · simp only at ha
      subst ha
      rw [act_approved_eq s user id comment r happ hid hget hrole hpend]
      dsimp only
      split_ifs with h1 h2 h3 h4
      · exact ⟨id, _, rfl⟩
      · exfalso
        rw [h1] at hcons
        simp only [h2, if_false] at hcons
        split_ifs at hcons
      · exact ⟨id, _, rfl⟩
      · exfalso
        rw [h3] at hcons
        simp only [h4, if_false] at hcons
        split_ifs at hcons
      · exact ⟨id, _, rfl⟩
    · simp only at ha
      subst ha
      rw [act_rejected_eq s user id comment r happ hid hget hrole hpend]
      exact ⟨id, _, rfl⟩

theorem setStatus_rolesFromPolicy (policy : ℚ → Role) (s : Store) (a : Approval) (id : Int)
    (st : Status) (h : s.RolesFromPolicy policy) :
    (setStatus (insertApproval s a) id st).RolesFromPolicy policy := by
  intro r hr
  simp only [setStatus, insertApproval, List.mem_map] at hr
  obtain ⟨r0, hr0, rfl⟩ := hr
  have := h r0 hr0
  split_ifs <;> exact this

/-- Calls keep every required role equal to the threshold role of the amount,
when the function the create handler calls has the bands of the policy. -/
theorem Call.runWith_rolesFromPolicy (policy : ℚ → Role)
    (hpol : ∀ a, policy a = roleForAmount a) (s : Store) (c : Call)
    (h : s.RolesFromPolicy policy) : (c.runWith policy s).RolesFromPolicy policy := by
  cases c with
  | create user body =>
    rcases createRequestWith_cases policy s user body with hc | hc
    · simp only [Call.runWith, hc.2]
      exact h
    · obtain ⟨b, me, -, -, -, -, hreq, -⟩ := hc
      intro r hr
      change r ∈ (createRequestWith policy s user body).2.requests at hr
      rw [hreq, List.mem_append, List.mem_singleton] at hr
      rcases hr with hr | hr
      · exact h r hr
      · subst hr
        rfl
  | act user idParam body =>
    have hinv : ∀ r ∈ s.requests, r.required_role = roleForAmount r.amount := by
      intro r hr
      rw [← hpol]
      exact h r hr
    rcases act_store_of_policy s user idParam body hinv with ha | ⟨id, st, ha⟩
    · simp only [Call.runWith, ha]
      exact h
    · simp only [Call.runWith, ha]
      exact setStatus_rolesFromPolicy policy s _ id st h

theorem runCallsWith_rolesFromPolicy (policy : ℚ → Role)
    (hpol : ∀ a, policy a = roleForAmount a) (calls : List Call) (s : Store)
    (h : s.RolesFromPolicy policy) : (runCallsWith policy s calls).RolesFromPolicy policy := by
  induction calls generalizing s with
  | nil => exact h
  | cons c cs ih => exact ih (c.runWith policy s) (Call.runWith_rolesFromPolicy policy hpol s c h)

/-- C29: assume the function the create handler calls for the required role
has the bands of the threshold policy. Then in every store reached from a
store without requests by calls of the two handlers, every request has the
required role the policy gives for its amount; an approval of a request that
is answered ok sets its status to approved and leaves its required role; and
no call of `act` changes the required role of any request, so the two
escalating branches are never taken. -/
theorem created_requests_never_escalate (policy : ℚ → Role)
    (hpol : ∀ a, policy a = roleForAmount a) (s0 : Store) (h0 : s0.requests = [])
    (calls : List Call) :
    (∀ r ∈ (runCallsWith policy s0 calls).requests, r.required_role = policy r.amount) ∧
    (∀ (user : AuthUser) (id : Int) (comment : Option String) (r : Request),
      getRequest (runCallsWith policy s0 calls) id = some r →
      (act (runCallsWith policy s0 calls) user (some id) ⟨"approved", comment⟩).1
        = Response.ok →
      requestState (act (runCallsWith policy s0 calls) user (some id)
          ⟨"approved", comment⟩).2 id
        = some (Status.approved, r.required_role)) ∧
    (∀ (user : AuthUser) (idParam : Option Int) (body : ActBody) (id : Int) (r : Request),
      getRequest (runCallsWith policy s0 calls) id = some r →
      ∃ r', getRequest (act (runCallsWith policy s0 calls) user idParam body).2 id = some r' ∧
        r'.required_role = r.required_role) := by
  have hinit : s0.RolesFromPolicy policy := by
    intro r hr
    rw [h0] at hr
    exact absurd hr (List.not_mem_nil r)
  have hinv := runCallsWith_rolesFromPolicy policy hpol calls s0 hinit
  have hrow : ∀ (id : Int) (r : Request),
      getRequest (runCallsWith policy s0 calls) id = some r →
      approvedRow r = { r with status := Status.approved } := by
    intro id r hget
    apply approvedRow_of_policy
    rw [← hpol]
    exact hinv r (getRequest_mem hget)
  refine ⟨hinv, ?_, ?_⟩
  · intro user id comment r hget hok
    obtain ⟨-, -, -, -, hcase⟩ := act_ok_row _ user id ⟨"approved", comment⟩ r hget hok
    rcases hcase with ⟨hrej, -⟩ | ⟨-, hafter⟩
    · simp at hrej
    · rw [hrow id r hget] at hafter
      simp only [requestState, hafter, Option.map_some']
  · intro user idParam body id r hget
    rcases act_row_cases _ user idParam body id r hget with h | ⟨-, -, -, -, h | h⟩
    · exact ⟨r, h, rfl⟩
    · exact ⟨_, h, rfl⟩
    · rw [hrow id r hget] at h
      exact ⟨_, h, rfl⟩

/-- Witness of C29: the request of 250 the agent creates in the example store
waits for a sales director, whose approval approves it. -/
theorem created_requests_never_escalate_witness :
    (∀ r ∈ (runCallsWith requiredRoleForAmount exEmptyStore
        [Call.create exAgent exBody250]).requests,
      r.required_role = requiredRoleForAmount r.amount) ∧
    requestState (act (runCallsWith requiredRoleForAmount exEmptyStore
        [Call.create exAgent exBody250]) exDirector (some 1) ⟨"approved", none⟩).2 1
      = some (Status.approved, Role.sales_director) :=
  have h := created_requests_never_escalate requiredRoleForAmount
    requiredRoleForAmount_eq_roleForAmount exEmptyStore rfl [Call.create exAgent exBody250]
  ⟨h.1, h.2.1 exDirector 1 none
    (insertedRequest requiredRoleForAmount exEmptyStore exAgent exBody250 3 (some 1))
    rfl rfl⟩

/-! ## At most three actions -/

theorem stepsLeft_le_three (r : Request) : stepsLeft r ≤ 3 := by
  unfold stepsLeft
  split_ifs
  · split <;> omega
  · omega

/-- An approval in turn uses up at least one of the actions left. -/
theorem stepsLeft_approvedRow (r : Request) (hpend : r.status = Status.pending)
    (happ : r.required_role.isApprover = true) :
    stepsLeft (approvedRow r) + 1 ≤ stepsLeft r := by
  obtain ⟨id, ag, dv, by_, si, ar, qu, amount, inv, re, role, st⟩ := r
  simp only at hpend happ
  subst hpend
  cases role
  · exact absurd happ (by decide)
  · by_cases h1 : amount ≤ 99 <;> simp [approvedRow, stepsLeft, escalationRank, h1]
  · by_cases h2 : amount ≤ 199 <;> simp [approvedRow, stepsLeft, escalationRank, h2]
  · simp [approvedRow, stepsLeft, escalationRank]
  · exact absurd happ (by decide)

/-- A rejection in turn uses up all the actions left, and there was one. -/
theorem stepsLeft_rejected (r : Request) (hpend : r.status = Status.pending)
    (happ : r.required_role.isApprover = true) :
    stepsLeft { r with status := Status.rejected } + 1 ≤ stepsLeft r := by
  obtain ⟨id, ag, dv, by_, si, ar, qu, amount, inv, re, role, st⟩ := r
  simp only at hpend happ
  subst hpend
  cases role
  · exact absurd happ (by decide)
  · simp [stepsLeft, escalationRank]
  · simp [stepsLeft, escalationRank]
  · simp [stepsLeft, escalationRank]
  · exact absurd happ (by decide)

/-- A call leaves the request in place, with no more actions left than
before, and one less when the call is an action on it answered ok. -/
theorem callRun_stepsLeft (s : Store) (c : Call) (id : Int) (r : Request)
    (hget : getRequest s id = some r) :
    ∃ r', getRequest (c.run s) id = some r' ∧
      okActsOn id s [c] + stepsLeft r' ≤ stepsLeft r := by
  have hrow : ∀ (user : AuthUser) (idParam : Option Int) (body : ActBody),
      ∃ r', getRequest (act s user idParam body).2 id = some r' ∧
        stepsLeft r' ≤ stepsLeft r := by
    intro user idParam body
    rcases act_row_cases s user idParam body id r hget with h | ⟨hpend, -, happ, -, h | h⟩
    · exact ⟨r, h, le_rfl⟩
    · exact ⟨_, h, by have := stepsLeft_rejected r hpend happ; omega⟩
    · exact ⟨_, h, by have := stepsLeft_approvedRow r hpend happ; omega⟩
  cases c with
  | create user body =>
    refine ⟨r, ?_, by simp [okActsOn]⟩
    rcases createRequestWith_cases requiredRoleForAmount s user body with hc | hc
    · simp only [Call.run, createRequest, hc.2, hget]
    · obtain ⟨b, me, -, -, -, -, hreq, -⟩ := hc
      exact getRequest_append_of_some _ hreq hget
  | act user idParam body =>
    cases idParam with
    | none =>
      obtain ⟨r', hr', hle⟩ := hrow user none body
      exact ⟨r', hr', by simpa [okActsOn] using hle⟩
    | some i =>
      by_cases hhit : i = id ∧ (act s user (some i) body).1 = Response.ok
      · obtain ⟨hi, hok⟩ := hhit
        subst hi
        obtain ⟨-, hpend, -, happ, hcase⟩ := act_ok_row s user i body r hget hok
        have hone : okActsOn i s [Call.act user (some i) body] = 1 := by
          simp [okActsOn, hok]
        rw [hone]
        rcases hcase with ⟨-, h⟩ | ⟨-, h⟩
        · exact ⟨_, h, by have := stepsLeft_rejected r hpend happ; omega⟩
        · exact ⟨_, h, by have := stepsLeft_approvedRow r hpend happ; omega⟩
      · obtain ⟨r', hr', hle⟩ := hrow user (some i) body
        have hzero : okActsOn id s [Call.act user (some i) body] = 0 := by
          simp only [okActsOn, hhit, if_false, add_zero]
        rw [hzero]
        exact ⟨r', hr', by omega⟩

theorem okActsOn_cons (id : Int) (s : Store) (c : Call) (cs : List Call) :
    okActsOn id s (c :: cs) = okActsOn id s [c] + okActsOn id (c.run s) cs := by
  simp [okActsOn]

/-- The actions on a request answered ok in a sequence of calls are at most
the actions the request has left. -/
theorem okActsOn_le_stepsLeft (calls : List Call) (s : Store) (id : Int) (r : Request)
    (hget : getRequest s id = some r) : okActsOn id s calls ≤ stepsLeft r := by
  induction calls generalizing s r with
  | nil => simp [okActsOn]
  | cons c cs ih =>
    obtain ⟨r', hr', hle⟩ := callRun_stepsLeft s c id r hget
    have := ih (c.run s) r' hr'
    rw [okActsOn_cons]
    omega

/-- The approval of a sales director in turn approves. -/
theorem approvedRow_sales_director (r : Request) (h : r.required_role = Role.sales_director) :
    approvedRow r = { r with status := Status.approved } := by
  unfold approvedRow
  simp [h]

/-- C30: for every request of the store, whatever its amount and required
role, in any sequence of calls of the two handlers at most 3 are actions on
that request answered ok; and after an action on it answered ok whose actor
is a sales director or whose action is rejected, its status is approved or
rejected. -/
theorem at_most_three_successful_acts (s : Store) (id : Int) (r : Request)
    (hget : getRequest s id = some r) :
    (∀ calls : List Call, okActsOn id s calls ≤ 3) ∧
    (∀ (user : AuthUser) (body : ActBody),
      (act s user (some id) body).1 = Response.ok →
      user.role = Role.sales_director ∨ body.action = "rejected" →
      ∃ st, (st = Status.approved ∨ st = Status.rejected) ∧
        requestState (act s user (some id) body).2 id = some (st, r.required_role)) := by
  constructor
  · intro calls
    exact le_trans (okActsOn_le_stepsLeft calls s id r hget) (stepsLeft_le_three r)
  · intro user body hok hterm
    obtain ⟨-, -, hrole, -, hcase⟩ := act_ok_row s user id body r hget hok
    rcases hcase with ⟨-, h⟩ | ⟨happr, h⟩
    · exact ⟨Status.rejected, Or.inr rfl, by simp [requestState, h]⟩
    · rcases hterm with hsd | hrej
      · rw [approvedRow_sales_director r (by rw [← hrole]; exact hsd)] at h
        exact ⟨Status.approved, Or.inl rfl, by simp [requestState, h]⟩
      · rw [happr] at hrej
        exact absurd hrej (by decide)

/-- Witness of C30: on the pending request of 250 that waits for a team lead,
the approvals of the team lead, the division manager and the sales director
are answered ok and a fourth approval is not: 3 actions answered ok. -/
theorem at_most_three_successful_acts_witness :
    okActsOn 1 (exStore [exRequest 250 Role.team_lead])
        [Call.act exLead (some 1) ⟨"approved", none⟩,
         Call.act exManager (some 1) ⟨"approved", none⟩,
         Call.act exDirector (some 1) ⟨"approved", none⟩,
         Call.act exDirector (some 1) ⟨"approved", none⟩] = 3 ∧
    okActsOn 1 (exStore [exRequest 250 Role.team_lead])
        [Call.act exLead (some 1) ⟨"approved", none⟩,
         Call.act exManager (some 1) ⟨"approved", none⟩,
         Call.act exDirector (some 1) ⟨"approved", none⟩,
         Call.act exDirector (some 1) ⟨"approved", none⟩] ≤ 3 :=
  ⟨by decide,
   (at_most_three_successful_acts (exStore [exRequest 250 Role.team_lead]) 1
      (exRequest 250 Role.team_lead) rfl).1 _⟩

/-! ## The create handler in double precision -/

theorem jsNumOr_ofOption (v : Option ℚ) (d : ℚ) : jsNumOr (JsVal.ofOption v) d = numOr v d := by
  cases v <;> rfl

theorem articleIdsJs_toJs (items : List ItemInput) :
    articleIdsJs (items.map ItemInput.toJs) = articleIds items := by
  unfold articleIdsJs articleIds
  rw [List.map_map]
  rfl

theorem normalizeItemJs_toJs (price : Int → Option ℚ) (i : ItemInput) :
    normalizeItemJs id price i.toJs = normalizeItem price i := by
  cases i with
  | mk aid q la =>
    cases la <;> cases q <;> simp [normalizeItemJs, normalizeItem, ItemInput.toJs,
      JsVal.ofOption, jsNumOr, numOr]

theorem normalizedItemsJs_toJs (s : Store) (items : List ItemInput) :
    normalizedItemsJs id s (items.map ItemInput.toJs) = normalizedItems s items := by
  unfold normalizedItemsJs normalizedItems
  rw [articleIdsJs_toJs, List.map_map]
  apply List.map_congr_left
  intro i _
  exact normalizeItemJs_toJs _ i

theorem totalAmountJs_toJs (s : Store) (body : CreateBody) :
    totalAmountJs id s body.toJs = totalAmount s body := by
  unfold totalAmountJs totalAmount
  simp only [CreateBody.toJs, List.length_map, normalizedItemsJs_toJs, jsNumOr_ofOption]
  rfl

/-- With numbers in the fields of the body and arithmetic that does not
round, the handler in double precision is `createRequestWith`. -/
theorem createRequestJsWith_toJs (policy : ℚ → Role) (s : Store) (user : AuthUser)
    (body : CreateBody) :
    createRequestJsWith id policy s user body.toJs = createRequestWith policy s user body := by
  have hrow : ∀ b d, insertedRequestJs id policy s user body.toJs b d
      = insertedRequest policy s user body b d := by
    intro b d
    simp only [insertedRequestJs, insertedRequest, totalAmountJs_toJs]
    simp only [CreateBody.toJs, List.length_map]
  unfold createRequestJsWith createRequestWith
  simp only [hrow]
  simp only [CreateBody.toJs, List.length_map, normalizedItemsJs_toJs]

/-- Behind the role gate, with a valid buyer and the row of the user, the
create handler answers with the id of the sequence, stores the request and
appends the rows of the normalized items, whatever the items are. -/
theorem createRequestJsWith_created (rnd : ℚ → ℚ) (policy : ℚ → Role) (s : Store)
    (user : AuthUser) (body : CreateBodyJs) (b : ℚ) (me : UserRow)
    (hgate : requireRole [Role.agent, Role.admin] user = true)
    (hb : cleanId body.buyer_id = some b)
    (hme : s.users.find? (fun u => u.id = user.id) = some me) :
    (createRequestJsWith rnd policy s user body).1 = Response.created s.requests_id_seq ∧
    (createRequestJsWith rnd policy s user body).2.requests
      = s.requests ++ [insertedRequestJs rnd policy s user body b me.division_id] ∧
    (createRequestJsWith rnd policy s user body).2.request_items
      = s.request_items ++ itemRows s.requests_id_seq
          (if body.items.length > 0 then normalizedItemsJs rnd s body.items else []) := by
  simp only [createRequestJsWith, hgate, hb, hme, Bool.not_true, Bool.false_eq_true, if_false]
  refine ⟨rfl, ?_, ?_⟩
  · dsimp only
    split_ifs <;> rfl
  · by_cases hlen : body.items.length > 0
    · have hne : (normalizedItemsJs rnd s body.items).length ≠ 0 := by
        simp only [normalizedItemsJs, List.length_map]
        exact ne_of_gt hlen
      simp only [hlen, if_true, hne, ne_eq, not_false_eq_true]
      rfl
    · simp only [hlen, if_false, List.length_nil, ne_eq, not_true_eq_false]
      simp [itemRows]

/-- A create call that answers with an id has passed the role gate, with a
valid buyer and the row of the user, and the id is that of the sequence. -/
theorem createRequestJsWith_of_created (rnd : ℚ → ℚ) (policy : ℚ → Role) (s : Store)
    (user : AuthUser) (body : CreateBodyJs) (id : Int)
    (h : (createRequestJsWith rnd policy s user body).1 = Response.created id) :
    ∃ b me, requireRole [Role.agent, Role.admin] user = true ∧
      cleanId body.buyer_id = some b ∧
      s.users.find? (fun u => u.id = user.id) = some me ∧ id = s.requests_id_seq := by
  by_cases hrole : requireRole [Role.agent, Role.admin] user = true
  swap
  · simp [createRequestJsWith, hrole] at h
  cases hb : cleanId body.buyer_id with
  | none => simp [createRequestJsWith, hrole, hb] at h
  | some b =>
    cases hme : s.users.find? (fun u => u.id = user.id) with
    | none => simp [createRequestJsWith, hrole, hb, hme] at h
    | some me =>
      refine ⟨b, me, hrole, rfl, rfl, ?_⟩
      have hc := (createRequestJsWith_created rnd policy s user body b me hrole hb hme).1
      rw [hc] at h
      cases h
      rfl

/-- The line items of the request a create call stores are the rows of its
normalized items, when the rows already there belong to earlier requests. -/
theorem createRequestJsWith_itemsOf (rnd : ℚ → ℚ) (policy : ℚ → Role) (s : Store)
    (user : AuthUser) (body : CreateBodyJs) (b : ℚ) (me : UserRow) (hfresh : s.ItemsFresh)
    (hgate : requireRole [Role.agent, Role.admin] user = true)
    (hb : cleanId body.buyer_id = some b)
    (hme : s.users.find? (fun u => u.id = user.id) = some me) :
    itemsOf (createRequestJsWith rnd policy s user body).2 s.requests_id_seq
      = itemRows s.requests_id_seq
          (if body.items.length > 0 then normalizedItemsJs rnd s body.items else []) := by
  have hitems := (createRequestJsWith_created rnd policy s user body b me hgate hb hme).2.2
  unfold itemsOf
  rw [hitems, List.filter_append, itemRows_filter]
  have := itemsOf_fresh s hfresh
  unfold itemsOf at this
  rw [this, List.nil_append]

theorem foldl_line_amounts_js (rnd : ℚ → ℚ) (l : List NormalizedItem) (init : ℚ) :
    l.foldl (fun acc it => rnd (acc + numOr (some it.line_amount) 0)) init
      = (l.map (fun it => it.line_amount)).foldl (fun acc x => rnd (acc + x)) init := by
  induction l generalizing init with
  | nil => rfl
  | cons x xs ih =>
    rw [List.foldl_cons, ih, List.map_cons, List.foldl_cons, numOr_some_zero]

/-- For list input the total is the accumulation of the line amounts of the
normalized items, one rounded addition each, from 0. -/
theorem totalAmountJs_items (rnd : ℚ → ℚ) (s : Store) (body : CreateBodyJs)
    (h : body.items ≠ []) :
    totalAmountJs rnd s body
      = sumJs rnd ((normalizedItemsJs rnd s body.items).map (fun it => it.line_amount)) := by
  have hlen : body.items.length > 0 := List.length_pos.mpr h
  simp only [totalAmountJs, hlen, if_true, foldl_line_amounts_js, sumJs]

/-- For legacy input the total is `Number(amount || 0)`. -/
theorem totalAmountJs_legacy (rnd : ℚ → ℚ) (s : Store) (body : CreateBodyJs)
    (h : body.items = []) : totalAmountJs rnd s body = jsNumOr body.amount 0 := by
  simp [totalAmountJs, h]

theorem jsNumOr_num_zero (a : ℚ) : jsNumOr (JsVal.num a) 0 = a := by
  unfold jsNumOr
  by_cases h0 : a = 0 <;> simp [h0]

/-! ## The doubles of the worked examples -/

theorem fl_cent : fl 0.01 = mkRat 5764607523034235 576460752303423488 := by
  rw [show (0.01 : ℚ) = mkRat 1 100 by norm_num [Rat.mkRat_eq_div]]
  decide

theorem fl_6568 : fl 65.68 = mkRat 1155454779397243 17592186044416 := by
  rw [show (65.68 : ℚ) = mkRat 6568 100 by norm_num [Rat.mkRat_eq_div]]
  decide

theorem fl_3331 : fl 33.31 = mkRat 585995717139497 17592186044416 := by
  rw [show (33.31 : ℚ) = mkRat 3331 100 by norm_num [Rat.mkRat_eq_div]]
  decide

theorem fl_price : fl 1.1 = mkRat 2476979795053773 2251799813685248 := by
  rw [show (1.1 : ℚ) = mkRat 11 10 by norm_num [Rat.mkRat_eq_div]]
  decide

/-- The handler's total of 0.01, 65.68 and 33.31 is 99.00000000000001: the
first addition, 0.01 + 65.68, rounds up. -/
theorem sumJs_cents : sumJs fl [fl 0.01, fl 65.68, fl 33.31] = 99 + 1 / 2 ^ 46 := by
  have h1 : fl (0 + fl 0.01) = mkRat 5764607523034235 576460752303423488 := by
    rw [zero_add, fl_cent]
    decide
  have h2 : fl (mkRat 5764607523034235 576460752303423488 + fl 65.68)
      = mkRat 4622522805030749 70368744177664 := by
    rw [fl_6568, show mkRat 5764607523034235 576460752303423488
        + mkRat 1155454779397243 17592186044416
        = mkRat 37867706818811892859 576460752303423488 by norm_num [Rat.mkRat_eq_div]]
    decide
  have h3 : fl (mkRat 4622522805030749 70368744177664 + fl 33.31)
      = mkRat 6966505673588737 70368744177664 := by
    rw [fl_3331, show mkRat 4622522805030749 70368744177664
        + mkRat 585995717139497 17592186044416
        = mkRat 6966505673588737 70368744177664 by norm_num [Rat.mkRat_eq_div]]
    decide
  simp only [sumJs, List.foldl_cons, List.foldl_nil, h1, h2, h3]
  norm_num [Rat.mkRat_eq_div]

/-- The exact sum of the doubles of 0.01, 65.68 and 33.31. -/
theorem sum_cents : ([fl 0.01, fl 65.68, fl 33.31] : List ℚ).sum = 99 + 5243 / 2 ^ 59 := by
  simp only [List.sum_cons, List.sum_nil, fl_cent, fl_6568, fl_3331]
  norm_num [Rat.mkRat_eq_div]

/-- The double product of the price 1.10 and the quantity 90 is
99.00000000000001. -/
theorem fl_price_times_90 : fl (fl 1.1 * 90) = 99 + 1 / 2 ^ 46 := by
  rw [fl_price, show mkRat 2476979795053773 2251799813685248 * 90
      = mkRat 111464090777419785 1125899906842624 by norm_num [Rat.mkRat_eq_div]]
  rw [show (99 : ℚ) + 1 / 2 ^ 46 = mkRat 6966505673588737 70368744177664 by
    norm_num [Rat.mkRat_eq_div]]
  decide

/-! ## The required role of a new request -/

/-- C7: whenever the create handler accepts a submission and answers with an
id, it has appended to `requests` one row with that id whose required role is
the threshold function applied to the total of the submission, which is also
the amount stored. The total is the one the aggregator computes: for list
input the line amounts added up as the handler does it, in order from 0, each
addition in double precision; for legacy input the supplied amount. This
holds for whatever function the handler calls as `requiredRoleForAmount` and
however the additions round. -/
theorem createRequest_required_role_of_total (rnd : ℚ → ℚ) (policy : ℚ → Role) (s : Store)
    (user : AuthUser) (body : CreateBodyJs) (id : Int)
    (h : (createRequestJsWith rnd policy s user body).1 = Response.created id) :
    (∃ row, (createRequestJsWith rnd policy s user body).2.requests = s.requests ++ [row] ∧
      row.id = id ∧ row.amount = totalAmountJs rnd s body ∧
      row.required_role = policy (totalAmountJs rnd s body)) ∧
    (body.items ≠ [] →
      totalAmountJs rnd s body
        = sumJs rnd ((normalizedItemsJs rnd s body.items).map (fun it => it.line_amount))) ∧
    (body.items = [] → ∀ a, body.amount = JsVal.num a → totalAmountJs rnd s body = a) := by
  obtain ⟨b, me, hgate, hb, hme, hid⟩ := createRequestJsWith_of_created rnd policy s user body id h
  have hc := createRequestJsWith_created rnd policy s user body b me hgate hb hme
  refine ⟨⟨_, hc.2.1, ?_, rfl, rfl⟩, totalAmountJs_items rnd s body, ?_⟩
  · rw [hid]
    rfl
  · intro h0 a ha
    rw [totalAmountJs_legacy rnd s body h0, ha, jsNumOr_num_zero]

/-- Witness of C7: the server's handler on the items with line amounts 0.01,
65.68 and 33.31: the stored amount is 99.00000000000001 and the required role
that of this amount, division_manager. -/
theorem createRequest_required_role_of_total_witness :
    (createRequestJs exEmptyStore exAgent (exItemsBodyJs exCentItems)).1
      = Response.created 1 ∧
    ∃ row, (createRequestJs exEmptyStore exAgent (exItemsBodyJs exCentItems)).2.requests
        = exEmptyStore.requests ++ [row] ∧
      row.id = 1 ∧ row.amount = 99 + 1 / 2 ^ 46 ∧
      row.required_role = Role.division_manager := by
  have h3 : cleanId (exItemsBodyJs exCentItems).buyer_id = some 3 := by
    norm_num [cleanId, exItemsBodyJs]
  have hc := (createRequestJsWith_created fl requiredRoleForAmount exEmptyStore exAgent
    (exItemsBodyJs exCentItems) 3
    { id := 7, role := Role.agent, division_id := some 1, email := some "agent@example.org" }
    rfl h3 rfl).1
  have h := createRequest_required_role_of_total fl requiredRoleForAmount exEmptyStore exAgent
    (exItemsBodyJs exCentItems) 1 hc
  have htot : totalAmountJs fl exEmptyStore (exItemsBodyJs exCentItems) = 99 + 1 / 2 ^ 46 := by
    rw [h.2.1 (by simp [exItemsBodyJs, exCentItems])]
    have hl : (normalizedItemsJs fl exEmptyStore (exItemsBodyJs exCentItems).items).map
        (fun it => it.line_amount) = [fl 0.01, fl 65.68, fl 33.31] := by
      simp [normalizedItemsJs, normalizeItemJs, exItemsBodyJs, exCentItems]
    rw [hl, sumJs_cents]
  obtain ⟨row, hreq, hid, hamt, hrole⟩ := h.1
  refine ⟨hc, row, hreq, hid, ?_, ?_⟩
  · rw [hamt, htot]
  · rw [hrole, htot]
    norm_num [requiredRoleForAmount]

/-! ## The stored amount and the persisted line amounts -/

/-- The example with the line amounts 0.01, 65.68 and 33.31: the answer, the
persisted line amounts and the stored amount. -/
theorem createRequestJs_cents :
    (createRequestJs exEmptyStore exAgent (exItemsBodyJs exCentItems)).1
      = Response.created 1 ∧
    (itemsOf (createRequestJs exEmptyStore exAgent (exItemsBodyJs exCentItems)).2 1).map
        (fun it => it.line_amount) = [fl 0.01, fl 65.68, fl 33.31] ∧
    (getRequest (createRequestJs exEmptyStore exAgent (exItemsBodyJs exCentItems)).2 1).map
        (fun r => r.amount) = some (99 + 1 / 2 ^ 46) := by
  have h3 : cleanId (exItemsBodyJs exCentItems).buyer_id = some 3 := by
    norm_num [cleanId, exItemsBodyJs]
  have hfresh : exEmptyStore.ItemsFresh := fun it hit => absurd hit (List.not_mem_nil it)
  have hc := createRequestJsWith_created fl requiredRoleForAmount exEmptyStore exAgent
    (exItemsBodyJs exCentItems) 3
    { id := 7, role := Role.agent, division_id := some 1, email := some "agent@example.org" }
    rfl h3 rfl
  have hof := createRequestJsWith_itemsOf fl requiredRoleForAmount exEmptyStore exAgent
    (exItemsBodyJs exCentItems) 3
    { id := 7, role := Role.agent, division_id := some 1, email := some "agent@example.org" }
    hfresh rfl h3 rfl
  have hl : (normalizedItemsJs fl exEmptyStore (exItemsBodyJs exCentItems).items).map
      (fun it => it.line_amount) = [fl 0.01, fl 65.68, fl 33.31] := by
    simp [normalizedItemsJs, normalizeItemJs, exItemsBodyJs, exCentItems]
  have hlen : (exItemsBodyJs exCentItems).items.length > 0 := by
    simp [exItemsBodyJs, exCentItems]
  have htot : totalAmountJs fl exEmptyStore (exItemsBodyJs exCentItems) = 99 + 1 / 2 ^ 46 := by
    rw [totalAmountJs_items _ _ _ (by simp [exItemsBodyJs, exCentItems]), hl, sumJs_cents]
  refine ⟨hc.1, ?_, ?_⟩
  · have hseq : exEmptyStore.requests_id_seq = 1 := rfl
    rw [hseq] at hof
    unfold createRequestJs
    rw [hof]
    simp only [hlen, if_true, itemRows_line_amounts, hl]
  · have hget := getRequest_append_new _ hc.2.1 (fun r hr => absurd hr (List.not_mem_nil r))
    have hid : (insertedRequestJs fl requiredRoleForAmount exEmptyStore exAgent
        (exItemsBodyJs exCentItems) 3 (some 1)).id = 1 := rfl
    rw [hid] at hget
    unfold createRequestJs
    rw [hget]
    simp only [Option.map_some', insertedRequestJs, htot]

/-- C14, counterexample: the server's handler on three items with the line
amounts 0.01, 65.68 and 33.31. It answers with the id 1 and persists the
three line amounts, whose sum is 99 up to the 5243 / 2 ^ 59 by which the
three doubles exceed the decimals; the amount it stores on the request is
99 + 1 / 2 ^ 46, that is 99.00000000000001, which is not that sum. -/
theorem created_items_sum_counterexample :
    (createRequestJs exEmptyStore exAgent (exItemsBodyJs exCentItems)).1
      = Response.created 1 ∧
    (itemsOf (createRequestJs exEmptyStore exAgent (exItemsBodyJs exCentItems)).2 1).map
        (fun it => it.line_amount) = [fl 0.01, fl 65.68, fl 33.31] ∧
    ((itemsOf (createRequestJs exEmptyStore exAgent (exItemsBodyJs exCentItems)).2 1).map
        (fun it => it.line_amount)).sum = 99 + 5243 / 2 ^ 59 ∧
    (0.01 + 65.68 + 33.31 : ℚ) = 99 ∧
    (getRequest (createRequestJs exEmptyStore exAgent (exItemsBodyJs exCentItems)).2 1).map
        (fun r => r.amount) = some (99 + 1 / 2 ^ 46) ∧
    (getRequest (createRequestJs exEmptyStore exAgent (exItemsBodyJs exCentItems)).2 1).map
        (fun r => r.amount)
      ≠ some ((itemsOf (createRequestJs exEmptyStore exAgent
          (exItemsBodyJs exCentItems)).2 1).map (fun it => it.line_amount)).sum := by
  obtain ⟨h1, h2, h3⟩ := createRequestJs_cents
  refine ⟨h1, h2, ?_, by norm_num, h3, ?_⟩
  · rw [h2, sum_cents]
  · rw [h3, h2, sum_cents]
    norm_num

/-- C14, amended: for every request the create handler stores from a
non-empty item list, with one row of `request_items` per submitted item, the
amount stored on the request is the line amounts of these rows added up as
the handler does it: in their order, from 0, each addition rounded to double
precision. (The rows already in `request_items` belong to earlier requests.) -/
theorem created_amount_is_rounded_sum (rnd : ℚ → ℚ) (policy : ℚ → Role) (s : Store)
    (user : AuthUser) (body : CreateBodyJs) (id : Int) (hfresh : s.ItemsFresh)
    (h : (createRequestJsWith rnd policy s user body).1 = Response.created id)
    (hitems : body.items ≠ []) :
    ∃ row, (createRequestJsWith rnd policy s user body).2.requests = s.requests ++ [row] ∧
      row.id = id ∧
      (itemsOf (createRequestJsWith rnd policy s user body).2 id).length
        = body.items.length ∧
      row.amount = sumJs rnd ((itemsOf (createRequestJsWith rnd policy s user body).2 id).map
        (fun it => it.line_amount)) := by
  obtain ⟨b, me, hgate, hb, hme, hid⟩ := createRequestJsWith_of_created rnd policy s user body id h
  have hc := createRequestJsWith_created rnd policy s user body b me hgate hb hme
  have hof := createRequestJsWith_itemsOf rnd policy s user body b me hfresh hgate hb hme
  have hlen : body.items.length > 0 := List.length_pos.mpr hitems
  simp only [hlen, if_true] at hof
  subst hid
  refine ⟨_, hc.2.1, rfl, ?_, ?_⟩
  · rw [hof]
    simp [itemRows, normalizedItemsJs]
  · rw [hof, itemRows_line_amounts]
    show totalAmountJs rnd s body = _
    rw [totalAmountJs_items rnd s body hitems]

/-- Witness of C14, amended: the server's handler on the items with line
amounts 0.01, 65.68 and 33.31. -/
theorem created_amount_is_rounded_sum_witness :
    ∃ row, (createRequestJs exEmptyStore exAgent (exItemsBodyJs exCentItems)).2.requests
        = exEmptyStore.requests ++ [row] ∧
      row.id = 1 ∧
      (itemsOf (createRequestJs exEmptyStore exAgent
          (exItemsBodyJs exCentItems)).2 1).length = 3 ∧
      row.amount = sumJs fl ((itemsOf (createRequestJs exEmptyStore exAgent
          (exItemsBodyJs exCentItems)).2 1).map (fun it => it.line_amount)) :=
  created_amount_is_rounded_sum fl requiredRoleForAmount exEmptyStore exAgent
    (exItemsBodyJs exCentItems) 1 (fun it hit => absurd hit (List.not_mem_nil it))
    createRequestJs_cents.1 (by simp [exItemsBodyJs, exCentItems])

/-! ## The aggregator on list input, in double precision -/

theorem priceByIdJs_eq (rnd : ℚ → ℚ) (rows : List ArticleRow) :
    priceByIdJs rnd rows
      = priceById (rows.map (fun r =>
          { id := r.id, sell_price := some (rnd (r.sell_price.getD 0)) })) := by
  unfold priceByIdJs priceById
  rw [List.foldl_map]
  rfl

theorem priceByIdJs_of_nodup (rnd : ℚ → ℚ) (rows : List ArticleRow) (k : Int)
    (hnd : (rows.map (fun a => a.id)).Nodup) :
    priceByIdJs rnd rows k
      = (rows.find? (fun a => decide (a.id = k))).map
          (fun r => rnd (r.sell_price.getD 0)) := by
  rw [priceByIdJs_eq, priceById_of_nodup _ _ (by simpa [List.map_map, Function.comp] using hnd),
    List.find?_map]
  have hcomp : ((fun a : ArticleRow => decide (a.id = k)) ∘ fun r : ArticleRow =>
      ({ id := r.id, sell_price := some (rnd (r.sell_price.getD 0)) } : ArticleRow))
      = fun a => decide (a.id = k) := rfl
  rw [hcomp]
  cases rows.find? (fun a => decide (a.id = k)) <;> rfl

theorem mem_articleIdsJs (items : List ItemJs) (i : ItemJs) (hi : i ∈ items)
    (h0 : i.article_id ≠ 0) : i.article_id ∈ articleIdsJs items := by
  unfold articleIdsJs
  rw [List.mem_dedup, List.mem_filter]
  exact ⟨List.mem_map.mpr ⟨i, hi, rfl⟩, by simpa using h0⟩

/-- The price the aggregator multiplies by is the double of the catalog price
of the article, when the article has one and the ids of `articles` are a key. -/
theorem aggregator_price_js (rnd : ℚ → ℚ) (s : Store) (items : List ItemJs) (i : ItemJs)
    (p : ℚ) (hkey : s.ArticlesKeyed) (hi : i ∈ items)
    (hp : catalogPrice s i.article_id = some p) :
    numOr ((if (articleIdsJs items).length ≠ 0
        then priceByIdJs rnd (selectPrices s (articleIdsJs items))
        else fun _ => none) i.article_id) 0 = rnd p := by
  unfold catalogPrice at hp
  cases hf : s.articles.find? (fun a => decide (a.id = i.article_id)) with
  | none => rw [hf] at hp; cases hp
  | some a =>
    rw [hf] at hp
    have hmemA : a ∈ s.articles := List.mem_of_find?_eq_some hf
    have haid : a.id = i.article_id := by
      have := List.find?_some hf
      simpa using this
    have h0 : i.article_id ≠ 0 := by
      rw [← haid]
      exact hkey.2 a hmemA
    have hmem := mem_articleIdsJs items i hi h0
    have hlen : (articleIdsJs items).length ≠ 0 := by
      intro hl
      rw [List.length_eq_zero] at hl
      rw [hl] at hmem
      exact absurd hmem (List.not_mem_nil _)
    simp only [hlen, ne_eq, not_false_eq_true, if_true]
    rw [priceByIdJs_of_nodup _ _ _ (selectPrices_nodup s _ hkey), selectPrices_find s _ _ hmem,
      hf]
    have hsp : a.sell_price = some p := hp
    simp only [Option.map_some', hsp, Option.getD_some, numOr_some_zero]

/-- C15, counterexample: with article 1 priced 1.10 in the catalog, an item
of quantity 90 without line amount is given the line amount
99.00000000000001, the double product, while 1.10 * 90 is 99; and for three
items with the line amounts 0.01, 65.68 and 33.31 the total of the aggregator
is 99.00000000000001, which is not the sum of these line amounts. -/
theorem aggregator_rounding_counterexample :
    catalogPrice exDecimalPriceStore 1 = some 1.1 ∧
    normalizedItemsJs fl exDecimalPriceStore [exNinetyItem]
      = [{ article_id := 1, quantity := 90, line_amount := 99 + 1 / 2 ^ 46 }] ∧
    (1.1 * 90 : ℚ) = 99 ∧
    (normalizedItemsJs fl exEmptyStore exCentItems).map (fun it => it.line_amount)
      = [fl 0.01, fl 65.68, fl 33.31] ∧
    totalAmountJs fl exEmptyStore (exItemsBodyJs exCentItems) = 99 + 1 / 2 ^ 46 ∧
    totalAmountJs fl exEmptyStore (exItemsBodyJs exCentItems)
      ≠ ((normalizedItemsJs fl exEmptyStore exCentItems).map (fun it => it.line_amount)).sum := by
  have hl : (normalizedItemsJs fl exEmptyStore exCentItems).map
      (fun it => it.line_amount) = [fl 0.01, fl 65.68, fl 33.31] := by
    simp [normalizedItemsJs, normalizeItemJs, exCentItems]
  have htot : totalAmountJs fl exEmptyStore (exItemsBodyJs exCentItems) = 99 + 1 / 2 ^ 46 := by
    rw [totalAmountJs_items _ _ _ (by simp [exItemsBodyJs, exCentItems])]
    show sumJs fl ((normalizedItemsJs fl exEmptyStore exCentItems).map
      (fun it => it.line_amount)) = _
    rw [hl, sumJs_cents]
  refine ⟨rfl, ?_, by norm_num, hl, htot, ?_⟩
  · have hprice : numOr ((if (articleIdsJs [exNinetyItem]).length ≠ 0
        then priceByIdJs fl (selectPrices exDecimalPriceStore (articleIdsJs [exNinetyItem]))
        else fun _ => none) exNinetyItem.article_id) 0 = fl 1.1 :=
      aggregator_price_js fl exDecimalPriceStore [exNinetyItem] exNinetyItem 1.1
        ⟨by decide, by decide⟩ (List.mem_singleton.mpr rfl) rfl
    have hq : jsNumOr exNinetyItem.quantity 1 = 90 := by norm_num [jsNumOr, exNinetyItem]
    have hla : exNinetyItem.line_amount = JsVal.absent := rfl
    simp only [normalizedItemsJs, List.map_cons, List.map_nil, normalizeItemJs, hprice, hq, hla,
      fl_price_times_90]
    rfl
  · rw [htot, hl, sum_cents]
    norm_num

/-- C15, amended: for list input whose quantities are numbers > 0 and whose
items without a line amount have a catalog price, the aggregator makes one
normalized item per submitted item, in the same order, with the article id
and the quantity of the submitted item and as line amount the supplied one
verbatim when there is one, otherwise the product, rounded to double
precision, of the double of the catalog price and the quantity; the total is
these line amounts added up in order from 0, each addition rounded to double
precision. (The ids of `articles` are a key.) -/
theorem aggregator_list_input_rounded (rnd : ℚ → ℚ) (s : Store) (body : CreateBodyJs)
    (hkey : s.ArticlesKeyed) (hitems : body.items ≠ [])
    (hqty : ∀ i ∈ body.items, ∃ q, i.quantity = JsVal.num q ∧ 0 < q)
    (hprice : ∀ i ∈ body.items, i.line_amount = JsVal.absent →
      ∃ p, catalogPrice s i.article_id = some p) :
    normalizedItemsJs rnd s body.items = body.items.map (specNormalizeItemJs rnd s) ∧
    totalAmountJs rnd s body
      = sumJs rnd ((body.items.map (specNormalizeItemJs rnd s)).map
          (fun it => it.line_amount)) ∧
    (∀ i ∈ body.items, ∀ q, i.quantity = JsVal.num q →
      (specNormalizeItemJs rnd s i).article_id = i.article_id ∧
      (specNormalizeItemJs rnd s i).quantity = q ∧
      (∀ x, i.line_amount = JsVal.num x → (specNormalizeItemJs rnd s i).line_amount = x) ∧
      (∀ p, i.line_amount = JsVal.absent → catalogPrice s i.article_id = some p →
        (specNormalizeItemJs rnd s i).line_amount = rnd (rnd p * q))) := by
  have hn : normalizedItemsJs rnd s body.items
      = body.items.map (specNormalizeItemJs rnd s) := by
    unfold normalizedItemsJs
    apply List.map_congr_left
    intro i hi
    obtain ⟨q, hq, hq0⟩ := hqty i hi
    have hnum : jsNumOr i.quantity 1 = i.quantity.number := by
      rw [hq]
      simp [jsNumOr, JsVal.number, ne_of_gt hq0]
    simp only [normalizeItemJs, specNormalizeItemJs, hnum]
    cases hl : i.line_amount with
    | absent =>
      obtain ⟨p, hp⟩ := hprice i hi hl
      simp only
      rw [aggregator_price_js rnd s body.items i p hkey hi hp, hp]
      rfl
    | num x => rfl
    | str t n => rfl
  refine ⟨hn, ?_, ?_⟩
  · rw [totalAmountJs_items rnd s body hitems, hn]
  · intro i _ q hq
    refine ⟨rfl, ?_, ?_, ?_⟩
    · simp [specNormalizeItemJs, hq, JsVal.number]
    · intro x hx
      simp [specNormalizeItemJs, hx]
    · intro p hl hp
      simp [specNormalizeItemJs, hl, hp, hq, JsVal.number]

/-- Witness of C15, amended: an item with line amount 30.50 and an item of
article 1, quantity 2, priced from the catalog, on the server's arithmetic. -/
theorem aggregator_list_input_rounded_witness :
    normalizedItemsJs fl exEmptyStore
        [⟨1, JsVal.num 1, JsVal.num 30.50⟩, ⟨1, JsVal.num 2, JsVal.absent⟩]
      = [⟨1, JsVal.num 1, JsVal.num 30.50⟩, ⟨1, JsVal.num 2, JsVal.absent⟩].map
          (specNormalizeItemJs fl exEmptyStore) ∧
    totalAmountJs fl exEmptyStore
        (exItemsBodyJs [⟨1, JsVal.num 1, JsVal.num 30.50⟩, ⟨1, JsVal.num 2, JsVal.absent⟩])
      = sumJs fl (([⟨1, JsVal.num 1, JsVal.num 30.50⟩, ⟨1, JsVal.num 2, JsVal.absent⟩].map
          (specNormalizeItemJs fl exEmptyStore)).map (fun it => it.line_amount)) :=
  have h := aggregator_list_input_rounded fl exEmptyStore
    (exItemsBodyJs [⟨1, JsVal.num 1, JsVal.num 30.50⟩, ⟨1, JsVal.num 2, JsVal.absent⟩])
    ⟨by decide, by decide⟩ (by simp [exItemsBodyJs])
    (by
      intro i hi
      simp only [exItemsBodyJs, List.mem_cons, List.mem_singleton, List.not_mem_nil,
        or_false] at hi
      rcases hi with rfl | rfl
      · exact ⟨1, rfl, by norm_num⟩
      · exact ⟨2, rfl, by norm_num⟩)
    (by
      intro i hi _
      simp only [exItemsBodyJs, List.mem_cons, List.mem_singleton, List.not_mem_nil,
        or_false] at hi
      rcases hi with rfl | rfl
      · exact ⟨10, rfl⟩
      · exact ⟨10, rfl⟩)
  ⟨h.1, h.2.1⟩

/-! ## Quantities as submitted -/

/-- C18, counterexample: a submission with items of quantity 0, -2 and "0"
is accepted: the server's handler answers with the id 1, stores the request
and persists the three line items, with the quantities 1, -2 and 0. -/
theorem nonpositive_quantity_accepted :
    (createRequestJs exEmptyStore exAgent (exItemsBodyJs exQuantityItems)).1
      = Response.created 1 ∧
    (createRequestJs exEmptyStore exAgent
        (exItemsBodyJs exQuantityItems)).2.requests.length = 1 ∧
    (createRequestJs exEmptyStore exAgent (exItemsBodyJs exQuantityItems)).2.request_items
      = [{ request_id := 1, article_id := 1, quantity := 1, line_amount := 5 },
         { request_id := 1, article_id := 1, quantity := -2, line_amount := 5 },
         { request_id := 1, article_id := 1, quantity := 0, line_amount := 5 }] := by
  have hn : normalizedItemsJs fl exEmptyStore exQuantityItems
      = [{ article_id := 1, quantity := 1, line_amount := 5 },
         { article_id := 1, quantity := -2, line_amount := 5 },
         { article_id := 1, quantity := 0, line_amount := 5 }] := by
    simp [normalizedItemsJs, normalizeItemJs, jsNumOr, exQuantityItems]
  have h3 : cleanId (exItemsBodyJs exQuantityItems).buyer_id = some 3 := by
    norm_num [cleanId, exItemsBodyJs]
  have hc := createRequestJsWith_created fl requiredRoleForAmount exEmptyStore exAgent
    (exItemsBodyJs exQuantityItems) 3
    { id := 7, role := Role.agent, division_id := some 1, email := some "agent@example.org" }
    rfl h3 rfl
  refine ⟨hc.1, ?_, ?_⟩
  · unfold createRequestJs
    rw [hc.2.1]
    rfl
  · unfold createRequestJs
    have hitems : (exItemsBodyJs exQuantityItems).items = exQuantityItems := rfl
    have hlen : exQuantityItems.length > 0 := by decide
    rw [hc.2.2, hitems]
    simp only [hlen, if_true, hn]
    rfl

/-- C18, amended: a quantity that is 0 or negative does not make creation
fail: behind the role gate, with a valid buyer and the row of the user, the
handler answers with the new id and stores the request whatever the
quantities are. The quantity persisted for an item is `Number(quantity || 1)`:
1 when the submitted quantity is absent, the number 0 or the empty string,
otherwise the submitted quantity, so that a negative number and the string
"0" are persisted as they are. Every persisted line item of the request has a
quantity > 0 when every submitted quantity is a number > 0. (The rows already
in `request_items` belong to earlier requests.) -/
theorem quantity_not_validated (rnd : ℚ → ℚ) (policy : ℚ → Role) (s : Store)
    (user : AuthUser) (body : CreateBodyJs) (b : ℚ) (me : UserRow) (hfresh : s.ItemsFresh)
    (hgate : requireRole [Role.agent, Role.admin] user = true)
    (hb : cleanId body.buyer_id = some b)
    (hme : s.users.find? (fun u => u.id = user.id) = some me) :
    (createRequestJsWith rnd policy s user body).1 = Response.created s.requests_id_seq ∧
    (∃ row, (createRequestJsWith rnd policy s user body).2.requests = s.requests ++ [row] ∧
      row.id = s.requests_id_seq) ∧
    (itemsOf (createRequestJsWith rnd policy s user body).2 s.requests_id_seq).map
        (fun it => it.quantity) = body.items.map (fun i => jsNumOr i.quantity 1) ∧
    (∀ i ∈ body.items,
      (i.quantity = JsVal.absent ∨ i.quantity = JsVal.num 0 ∨
          (∃ n, i.quantity = JsVal.str "" n) → jsNumOr i.quantity 1 = 1) ∧
      (∀ q, i.quantity = JsVal.num q → q ≠ 0 → jsNumOr i.quantity 1 = q) ∧
      (∀ t n, i.quantity = JsVal.str t n → t ≠ "" → jsNumOr i.quantity 1 = n)) ∧
    ((∀ i ∈ body.items, ∃ q, i.quantity = JsVal.num q ∧ 0 < q) →
      ∀ it ∈ itemsOf (createRequestJsWith rnd policy s user body).2 s.requests_id_seq,
        0 < it.quantity) := by
  have hc := createRequestJsWith_created rnd policy s user body b me hgate hb hme
  have hof := createRequestJsWith_itemsOf rnd policy s user body b me hfresh hgate hb hme
  have hq : (itemsOf (createRequestJsWith rnd policy s user body).2 s.requests_id_seq).map
      (fun it => it.quantity) = body.items.map (fun i => jsNumOr i.quantity 1) := by
    rw [hof]
    by_cases hlen : body.items.length > 0
    · simp only [hlen, if_true, itemRows, normalizedItemsJs, List.map_map]
      apply List.map_congr_left
      intro i _
      simp [normalizeItemJs]
    · have hnil : body.items = [] := by
        cases hbi : body.items with
        | nil => rfl
        | cons x xs => rw [hbi] at hlen; simp at hlen
      simp [hnil, itemRows]
  refine ⟨hc.1, ⟨_, hc.2.1, rfl⟩, hq, ?_, ?_⟩
  · intro i _
    refine ⟨?_, ?_, ?_⟩
    · rintro (h | h | ⟨n, h⟩) <;> rw [h] <;> simp [jsNumOr]
    · intro q h hq0
      rw [h]
      simp [jsNumOr, hq0]
    · intro t n h ht
      rw [h]
      simp [jsNumOr, ht]
  · intro hpos it hit
    have hmem : it.quantity ∈ (itemsOf (createRequestJsWith rnd policy s user body).2
        s.requests_id_seq).map (fun it => it.quantity) := List.mem_map.mpr ⟨it, hit, rfl⟩
    rw [hq, List.mem_map] at hmem
    obtain ⟨i, hi, hiq⟩ := hmem
    obtain ⟨q, hqi, hq0⟩ := hpos i hi
    rw [← hiq, hqi]
    simp only [jsNumOr, ne_of_gt hq0, if_false]
    exact hq0

/-- Witness of C18, amended: a submission with items of quantity 2 and 3 on
the server's handler. -/
theorem quantity_not_validated_witness :
    (createRequestJs exEmptyStore exAgent (exItemsBodyJs exPositiveItems)).1
      = Response.created 1 ∧
    (itemsOf (createRequestJs exEmptyStore exAgent (exItemsBodyJs exPositiveItems)).2 1).map
        (fun it => it.quantity) = [2, 3] ∧
    ∀ it ∈ itemsOf (createRequestJs exEmptyStore exAgent
        (exItemsBodyJs exPositiveItems)).2 1, 0 < it.quantity :=
  have h3 : cleanId (exItemsBodyJs exPositiveItems).buyer_id = some 3 := by
    norm_num [cleanId, exItemsBodyJs]
  have h := quantity_not_validated fl requiredRoleForAmount exEmptyStore exAgent
    (exItemsBodyJs exPositiveItems) 3
    { id := 7, role := Role.agent, division_id := some 1, email := some "agent@example.org" }
    (fun it hit => absurd hit (List.not_mem_nil it)) rfl h3 rfl
  ⟨h.1, by
    have h2 := h.2.2.1
    have hj : (exItemsBodyJs exPositiveItems).items.map (fun i => jsNumOr i.quantity 1)
        = [2, 3] := by
      norm_num [exItemsBodyJs, exPositiveItems, jsNumOr]
    rw [hj] at h2
    exact h2,
   h.2.2.2.2 (by
    intro i hi
    simp only [exItemsBodyJs, exPositiveItems, List.mem_cons, List.mem_singleton,
      List.not_mem_nil, or_false] at hi
    rcases hi with rfl | rfl
    · exact ⟨2, rfl, by norm_num⟩
    · exact ⟨3, rfl, by norm_num⟩)⟩

/-! ## Calls of `act` that overlap -/

theorem runSchedule_single (s : Store) (c : ActCall) :
    runSchedule s [c] [0, 0, 0]
      = ([(((c.step s).1.step (c.step s).2).1.step ((c.step s).1.step (c.step s).2).2).1],
         (((c.step s).1.step (c.step s).2).1.step ((c.step s).1.step (c.step s).2).2).2) :=
  rfl

theorem step_answered (s : Store) (user : AuthUser) (idParam : Option Int) (body : ActBody)
    (r : Response) :
    ActCall.step s ⟨user, idParam, body, ActPhase.answered r⟩
      = (⟨user, idParam, body, ActPhase.answered r⟩, s) :=
  rfl

/-- The first step of a call whose checks fail: it is answered as `act`
answers, and the store is as it was. -/
theorem step_start_failed (s : Store) (user : AuthUser) (idParam : Option Int)
    (body : ActBody) (h : (act s user idParam body).1 ≠ Response.ok) :
    (newActCall user idParam body).step s
      = ({ user := user, idParam := idParam, body := body,
           phase := ActPhase.answered (act s user idParam body).1 }, s) ∧
    (act s user idParam body).2 = s := by
  by_cases happ : requireRole [Role.team_lead, Role.division_manager, Role.sales_director]
      user = true
  swap
  · simp [act, happ, ActCall.step, newActCall]
  cases idParam with
  | none => simp [act, happ, ActCall.step, newActCall]
  | some id =>
    by_cases hbad : id = 0 ∨ ¬ (body.action = "approved" ∨ body.action = "rejected")
    · have hbad' := hbad
      simp only [not_or] at hbad'
      simp [act, happ, hbad', ActCall.step, newActCall]
    · have hid : id ≠ 0 := fun h0 => hbad (Or.inl h0)
      have hact : body.action = "approved" ∨ body.action = "rejected" := by
        by_contra hn; exact hbad (Or.inr hn)
      cases hget : getRequest s id with
      | none => simp [act, happ, hid, hact, hget, ActCall.step, newActCall]
      | some reqRow =>
        by_cases hturn : reqRow.required_role ≠ user.role ∨ reqRow.status ≠ Status.pending
        · have hturn' := hturn
          simp only [ne_eq] at hturn'
          simp [act, happ, hid, hact, hget, hturn', ActCall.step, newActCall]
        · exfalso
          apply h
          simp only [act, happ, hbad, hget, hturn, Bool.not_true, Bool.false_eq_true, if_false]
          split_ifs <;> rfl

/-- The first step of a call in turn on a pending request: the row is read,
the checks pass and the store is as it was. -/
theorem step_start_in_turn (s : Store) (user : AuthUser) (id : Int) (body : ActBody)
    (r : Request) (hid : id ≠ 0)
    (hact : body.action = "approved" ∨ body.action = "rejected")
    (hget : getRequest s id = some r) (hpend : r.status = Status.pending)
    (hrole : r.required_role = user.role) (happ : user.role.isApprover = true) :
    (newActCall user (some id) body).step s
      = ({ user := user, idParam := some id, body := body,
           phase := ActPhase.selected id r }, s) := by
  have hg : requireRole [Role.team_lead, Role.division_manager, Role.sales_director] user
      = true := by rw [requireRole_approvers, happ]
  simp [ActCall.step, newActCall, hg, hid, hact, hget, hpend, hrole]

/-- The store `act` leaves after an action in turn: its INSERT, then the
UPDATE chosen from the row it read. -/
theorem act_in_turn_steps (s : Store) (user : AuthUser) (id : Int) (body : ActBody)
    (r : Request) (hid : id ≠ 0)
    (hact : body.action = "approved" ∨ body.action = "rejected")
    (hget : getRequest s id = some r) (hpend : r.status = Status.pending)
    (hrole : r.required_role = user.role) (happ : user.role.isApprover = true) :
    act s user (some id) body
      = (Response.ok, actUpdate (insertApproval s (actRecord user id body)) id body r) := by
  have hg : requireRole [Role.team_lead, Role.division_manager, Role.sales_director] user
      = true := by rw [requireRole_approvers, happ]
  have hbad : ¬ (id = 0 ∨ ¬ (body.action = "approved" ∨ body.action = "rejected")) := by
    simp [hid, hact]
  have hturn : ¬ (r.required_role ≠ user.role ∨ r.status ≠ Status.pending) := by
    simp [hrole, hpend]
  simp only [act, hg, hbad, hget, hturn, Bool.not_true, Bool.false_eq_true, if_false,
    actUpdate, actRecord]
  split_ifs <;> rfl

/-- A call that takes its three steps with no other call in between does what
`act` does: same answer, same store. -/
theorem runSchedule_serial (s : Store) (user : AuthUser) (idParam : Option Int)
    (body : ActBody) :
    runSchedule s [newActCall user idParam body] [0, 0, 0]
      = ([{ user := user, idParam := idParam, body := body,
            phase := ActPhase.answered (act s user idParam body).1 }],
         (act s user idParam body).2) := by
  rw [runSchedule_single]
  by_cases hok : (act s user idParam body).1 = Response.ok
  · rcases act_cases s user idParam body with hc | hc
    · exact absurd hok hc.1
    · obtain ⟨id, r, hidp, hid, hact, happ, hget, hpend, hrole, -, -⟩ := hc
      subst hidp
      rw [step_start_in_turn s user id body r hid hact hget hpend hrole happ,
        act_in_turn_steps s user id body r hid hact hget hpend hrole happ]
      rfl
  · obtain ⟨h1, h2⟩ := step_start_failed s user idParam body hok
    rw [h1, h2]
    rfl

theorem actUpdate_approvals (s : Store) (id : Int) (body : ActBody) (r : Request) :
    (actUpdate s id body r).approvals = s.approvals := by
  unfold actUpdate setStatus setRequiredRole
  split_ifs <;> rfl

/-- Two calls in turn on the same pending request whose SELECTs both run
before the first INSERT: both pass the checks on the row as it was, both are
answered ok, and each runs its INSERT and the UPDATE chosen from that row. -/
theorem runSchedule_overlap (s : Store) (u1 u2 : AuthUser) (id : Int) (b1 b2 : ActBody)
    (r : Request) (hid : id ≠ 0) (hget : getRequest s id = some r)
    (hpend : r.status = Status.pending)
    (h1 : r.required_role = u1.role) (h2 : r.required_role = u2.role)
    (happ : r.required_role.isApprover = true)
    (ha1 : b1.action = "approved" ∨ b1.action = "rejected")
    (ha2 : b2.action = "approved" ∨ b2.action = "rejected") :
    runSchedule s [newActCall u1 (some id) b1, newActCall u2 (some id) b2] [0, 1, 0, 0, 1, 1]
      = ([⟨u1, some id, b1, ActPhase.answered Response.ok⟩,
          ⟨u2, some id, b2, ActPhase.answered Response.ok⟩],
         actUpdate (insertApproval
           (actUpdate (insertApproval s (actRecord u1 id b1)) id b1 r)
           (actRecord u2 id b2)) id b2 r) ∧
    approvalLog (runSchedule s [newActCall u1 (some id) b1, newActCall u2 (some id) b2]
        [0, 1, 0, 0, 1, 1]).2 id
      = approvalLog s id ++ [actRecord u1 id b1, actRecord u2 id b2] := by
  have e1 := step_start_in_turn s u1 id b1 r hid ha1 hget hpend h1 (by rw [← h1]; exact happ)
  have e2 := step_start_in_turn s u2 id b2 r hid ha2 hget hpend h2 (by rw [← h2]; exact happ)
  have hrun : runSchedule s [newActCall u1 (some id) b1, newActCall u2 (some id) b2]
      [0, 1, 0, 0, 1, 1]
      = ([⟨u1, some id, b1, ActPhase.answered Response.ok⟩,
          ⟨u2, some id, b2, ActPhase.answered Response.ok⟩],
         actUpdate (insertApproval
           (actUpdate (insertApproval s (actRecord u1 id b1)) id b1 r)
           (actRecord u2 id b2)) id b2 r) := by
    simp only [runSchedule, stepAt, List.get?, List.set, e1, e2]
    rfl
  refine ⟨hrun, ?_⟩
  rw [hrun]
  simp only [approvalLog, actUpdate_approvals, insertApproval, List.filter_append,
    List.append_assoc]
  simp [actRecord]

/-- C28, the code at the failing input: request 1 is pending and waits for a
team lead; two team leads call `act` on it, one approving, one rejecting, and
both SELECTs run before the first INSERT. Both calls pass the check, both are
answered ok and both append a log record, the request being approved and then
rejected; neither call is answered 403. When the second call starts after the
first has finished, it is answered 403 "Not your turn" and appends nothing. -/
theorem overlapping_acts_both_succeed :
    requestState (exStore [exRequest 50 Role.team_lead]) 1
      = some (Status.pending, Role.team_lead) ∧
    exLead.role = Role.team_lead ∧ exSecondLead.role = Role.team_lead ∧
    (runSchedule (exStore [exRequest 50 Role.team_lead]) exTwoCalls exOverlap).1.map
        (fun c => c.phase)
      = [ActPhase.answered Response.ok, ActPhase.answered Response.ok] ∧
    (runSchedule (exStore [exRequest 50 Role.team_lead]) exTwoCalls exOverlap).2.approvals
      = [{ request_id := 1, approver_id := 8, approver_role := Role.team_lead,
           action := "approved", comment := none },
         { request_id := 1, approver_id := 12, approver_role := Role.team_lead,
           action := "rejected", comment := none }] ∧
    requestState (runSchedule (exStore [exRequest 50 Role.team_lead]) exTwoCalls exOverlap).2 1
      = some (Status.rejected, Role.team_lead) ∧
    (runSchedule (exStore [exRequest 50 Role.team_lead]) exTwoCalls
        exOneAfterTheOther).1.map (fun c => c.phase)
      = [ActPhase.answered Response.ok,
         ActPhase.answered (Response.error 403 "Not your turn")] ∧
    (runSchedule (exStore [exRequest 50 Role.team_lead]) exTwoCalls
        exOneAfterTheOther).2.approvals
      = [{ request_id := 1, approver_id := 8, approver_role := Role.team_lead,
           action := "approved", comment := none }] := by
  refine ⟨rfl, rfl, rfl, ?_, ?_, ?_, ?_, ?_⟩ <;> decide

end Approvals
